import Mathlib

/-!
# proxy-service: resilience layer, route matching, tokens, handshake,
agent registry and request forwarding

A shallow embedding of the circuit breaker (`pkg/circuitbreaker`), the token
bucket and request validator (`pkg/validator`), the resilience middleware
(`internal/middleware/resilience.go`), the route matchers
(`internal/service/auth_service.go`, `pkg/utils/route.go`), the token service
with its cache (`pkg/cache/redis.go`), the agent handshake and the life of an
agent connection (`internal/handler/agent/agent_handler.go`), the agent
registry (`internal/service/agent/agent_manager.go`) and request forwarding
(`internal/service/proxy_service.go`, `internal/handler/proxy_handler.go`),
with the properties of their specification.

Conventions of the embedding.

* A Go `error` is modelled by its message: `Option String`, `none` being `nil`.
  `fmt.Errorf("reason: %w", err)` is string concatenation.
* `time.Time` and `time.Duration` are exact rational numbers of seconds; every
  call of `time.Now()` is an explicit argument. A nanosecond instant is the
  rational `n / 10^9`. The saturation of `time.Duration` at about 292 years is
  not modelled.
* The token arithmetic of `validator.RateLimiter` is exact rational arithmetic;
  `validator.binary64` is the same code in `float64`, with every operation
  rounded to nearest, ties to even, where the rounding decides the answer.
* The `int` failure counter is an unbounded integer; it stays far below `2^63`.
* A wrapped function `cmd func() error` is a state transformer on an arbitrary
  world `σ` that also returns the error: running it changes the world, not
  running it leaves the world as it was.
* A panic is modelled by its message, next to the state in which it is raised;
  `none` means that the call returns.
* A websocket connection is known by its identity; the sockets of the process
  are the set of connections closed on this side, and the inbound traffic of a
  connection is a queue of frames. Background tasks (`monitorAgent`,
  `monitorHeartbeat`, the reaper) are modelled by one tick at a given time.
-/

namespace ProxyService

/-- Instants, in seconds. -/
abbrev Time := ℚ

/-- Durations, in seconds. -/
abbrev Duration := ℚ

/-! ## pkg/circuitbreaker/circuit_breaker.go -/

namespace circuitbreaker

/-- The sentinel error `ErrCircuitOpen`. -/
def ErrCircuitOpen : String := "circuit breaker is open"

/-- The type `State`, a string. -/
abbrev State := String

def StateClosed : State := "closed"
def StateOpen : State := "open"
def StateHalfOpen : State := "half-open"

/-- The struct `CircuitBreaker` without its mutex. -/
structure CircuitBreaker where
  failures : Int
  lastFailure : Time
  state : String
  maxFailures : Int
  timeout : Duration
deriving DecidableEq, Repr

/-- `NewCircuitBreaker`; `lastFailure` is the zero `time.Time`. -/
def NewCircuitBreaker (maxFailures : Int) (timeout : Duration) : CircuitBreaker :=
  { failures := 0, lastFailure := 0, state := "closed",
    maxFailures := maxFailures, timeout := timeout }

/-- The constructor `New(config)` applied to `MaxFailures` and `Timeout`. -/
def New (maxFailures : Int) (timeout : Duration) : CircuitBreaker :=
  { failures := 0, lastFailure := 0, state := StateClosed,
    maxFailures := maxFailures, timeout := timeout }

/-- `GetState`. -/
def GetState (cb : CircuitBreaker) : State := cb.state

/-- Lines 49-62 of `Execute`, the admission phase: the new breaker and whether
the call may proceed (`false` is the early `return ErrCircuitOpen`). `now` is
the clock read by `time.Since`. -/
def admission (cb : CircuitBreaker) (now : Time) : CircuitBreaker × Bool :=
  if cb.state = "open" then
    if now - cb.lastFailure > cb.timeout then
      ({ cb with state := "half-open" }, true)
    else
      (cb, false)
  else
    (cb, true)

/-- Lines 66-84 of `Execute`, the bookkeeping phase, run under the write lock
once `cmd` has returned `err`; `now` is the clock read by `time.Now()`. -/
def settle (cb : CircuitBreaker) (err : Option String) (now : Time) :
    CircuitBreaker × Option String :=
  match err with
  | some e =>
    let cb1 := { cb with failures := cb.failures + 1, lastFailure := now }
    let cb2 := if cb1.failures ≥ cb1.maxFailures then { cb1 with state := "open" } else cb1
    (cb2, some e)
  | none =>
    let cb1 := if cb.state = "half-open" then { cb with state := "closed" } else cb
    ({ cb1 with failures := 0 }, none)

/-- What one `Execute` leaves behind: the breaker, the world the wrapped
function acts on, and the returned error. -/
structure ExecResult (σ : Type) where
  cb : CircuitBreaker
  world : σ
  err : Option String

/-- `Execute`: admission, then `cmd`, then bookkeeping. `tCheck` and `tDone`
are the two clock readings. -/
def Execute {σ : Type} (cb : CircuitBreaker) (tCheck tDone : Time)
    (cmd : σ → σ × Option String) (w : σ) : ExecResult σ :=
  match admission cb tCheck with
  | (cb1, false) => { cb := cb1, world := w, err := some ErrCircuitOpen }
  | (cb1, true) =>
    let out := cmd w
    let fin := settle cb1 out.2 tDone
    { cb := fin.1, world := out.1, err := fin.2 }

/-- One call of `Execute` in a sequence of calls. -/
structure Call (σ : Type) where
  tCheck : Time
  tDone : Time
  cmd : σ → σ × Option String

/-- The results of consecutive `Execute` calls, one after the other. -/
def executeSeq {σ : Type} (cb : CircuitBreaker) (w : σ) : List (Call σ) → List (ExecResult σ)
  | [] => []
  | c :: cs =>
    let r := Execute cb c.tCheck c.tDone c.cmd w
    r :: executeSeq r.cb r.world cs

/-- The wrapped functions of a sequence of calls run one after the other with
no breaker in front: the world and the error after each. -/
def invokeSeq {σ : Type} (w : σ) : List (Call σ) → List (σ × Option String)
  | [] => []
  | c :: cs =>
    let out := c.cmd w
    out :: invokeSeq out.1 cs

/-- The failure flags of a run contain no `n` failures in a row. -/
def noFailureRun (n : Nat) (outcomes : List (Option String)) : Prop :=
  ¬ (List.replicate n true <:+: outcomes.map Option.isSome)

/-- A call that fails one more time, acting on a counter of calls. -/
def failingCall : Call Nat :=
  { tCheck := 0, tDone := 0, cmd := fun k => (k + 1, some "upstream failed") }

/-- A call that succeeds, acting on a counter of calls. -/
def passingCall : Call Nat :=
  { tCheck := 0, tDone := 0, cmd := fun k => (k + 1, none) }

/-- A breaker of threshold 1 and cool-down 30 opened by a failure at time 10. -/
def openedAtTen : CircuitBreaker :=
  { failures := 1, lastFailure := 10, state := "open", maxFailures := 1, timeout := 30 }

/-- The breakers a sequence of complete `Execute` calls can produce from a fresh
breaker of threshold `n` and cool-down `timeout`. -/
inductive Reached (n : Int) (timeout : Duration) : CircuitBreaker → Prop
  | fresh : Reached n timeout (NewCircuitBreaker n timeout)
  | call {σ : Type} (cb : CircuitBreaker) (tCheck tDone : Time)
      (cmd : σ → σ × Option String) (w : σ) :
      Reached n timeout cb → Reached n timeout (Execute cb tCheck tDone cmd w).cb

/-- One event of the interleaved view of `Execute`: a call arrives and runs the
admission phase, or a call that is in flight returns from `cmd` with `err` and
runs the bookkeeping phase. -/
inductive Event where
  | arrive (now : Time)
  | finish (err : Option String) (now : Time)

/-- A breaker together with the number of wrapped calls in flight. -/
structure Sys where
  cb : CircuitBreaker
  inFlight : Nat
deriving DecidableEq, Repr

/-- One event on the interleaved system. A `finish` with nothing in flight
cannot happen and changes nothing. -/
def step (s : Sys) : Event → Sys
  | Event.arrive now =>
    let a := admission s.cb now
    if a.2 then { cb := a.1, inFlight := s.inFlight + 1 } else { cb := a.1, inFlight := s.inFlight }
  | Event.finish err now =>
    if s.inFlight = 0 then s
    else { cb := (settle s.cb err now).1, inFlight := s.inFlight - 1 }

/-- A run of events from a state. -/
def run (s : Sys) (evs : List Event) : Sys := evs.foldl step s

end circuitbreaker

/-! ## pkg/validator/request_validator.go -/

namespace validator

/-- The struct `RateLimiter` without its mutex. -/
structure RateLimiter where
  tokens : ℚ
  capacity : ℚ
  refillRate : ℚ
  lastRefill : Time
deriving DecidableEq, Repr

/-- `NewRateLimiter`; `now` is its `time.Now()`. -/
def NewRateLimiter (capacity refillRate : ℚ) (now : Time) : RateLimiter :=
  { tokens := capacity, capacity := capacity, refillRate := refillRate, lastRefill := now }

/-- `Allow`; `now` is its `time.Now()`. The refilled and capped token count is
stored before the test, so a rejected call keeps it and keeps `lastRefill`. -/
def Allow (rl : RateLimiter) (now : Time) : RateLimiter × Bool :=
  let elapsed := now - rl.lastRefill
  let refilled := rl.tokens + elapsed * rl.refillRate
  let capped := if refilled > rl.capacity then rl.capacity else refilled
  if capped < 1 then
    ({ rl with tokens := capped }, false)
  else
    ({ rl with tokens := capped - 1, lastRefill := now }, true)

/-- Consecutive `Allow` calls at the given instants: the limiter and the
answer after each call. -/
def allowSeq (rl : RateLimiter) : List Time → List (RateLimiter × Bool)
  | [] => []
  | t :: ts =>
    let r := Allow rl t
    r :: allowSeq r.1 ts

/-- The number of admitted calls among the answers of `allowSeq`. -/
def admitted (rs : List (RateLimiter × Bool)) : Nat := (rs.filter (fun r => r.2)).length

/-- The fields of `config.RateLimitConfig`. -/
structure RateLimitConfig where
  Requests : Int
  TimeWindow : Duration
deriving DecidableEq, Repr

/-- The fields of `config.SecurityConfig`. -/
structure SecurityConfig where
  AllowedOrigins : List String
  RateLimit : RateLimitConfig
deriving DecidableEq, Repr

/-- The fields of `config.AgentConfig` that the validator reads. -/
structure AgentConfig where
  Security : SecurityConfig
  MaxRequestSize : Int
deriving DecidableEq, Repr

/-- The parts of `http.Request` that the validator reads. `Header` lists the
headers under the names the source uses. -/
structure Request where
  Header : List (String × String)
  RemoteAddr : String
  ContentLength : Int
deriving DecidableEq, Repr

/-- `req.Header.Get(key)`: the value, or the empty string when absent. -/
def headerGet (h : List (String × String)) (key : String) : String :=
  (h.lookup key).getD ""

/-- The type `net.IPNet`. -/
structure IPNet where
  IP : List Nat
  Mask : List Nat
deriving DecidableEq, Repr

/-- The Go standard library functions the validator calls, taken as
parameters: `net.ParseCIDR` (`none` on error), `net.ParseIP` (a `net.IP` is a
byte slice), `(*IPNet).Contains`, the host part of `net.SplitHostPort` and
`strings.TrimSpace`. -/
structure NetLib where
  ParseCIDR : String → Option IPNet
  ParseIP : String → List Nat
  Contains : IPNet → List Nat → Bool
  SplitHostPort : String → String
  TrimSpace : String → String

/-- `getClientIP`. -/
def getClientIP (lib : NetLib) (req : Request) : String :=
  let ip := headerGet req.Header "X-Real-IP"
  if ip ≠ "" then ip
  else
    let forwardedFor := headerGet req.Header "X-Forwarded-For"
    if forwardedFor ≠ "" then
      if ',' ∈ forwardedFor.toList then
        lib.TrimSpace (String.mk (forwardedFor.toList.takeWhile (fun c => c ≠ ',')))
      else
        lib.TrimSpace forwardedFor
    else
      lib.SplitHostPort req.RemoteAddr

/-- The loop of `validateIP` over the allow-list: `true` when an entry returns
`nil`, `false` when the loop runs to its end. -/
def validateIPLoop (lib : NetLib) (clientIP : String) : List String → Bool
  | [] => false
  | allowed :: rest =>
    if allowed = "*" then true
    else if '/' ∈ allowed.toList then
      match lib.ParseCIDR allowed with
      | none => validateIPLoop lib clientIP rest
      | some ipNet =>
        if lib.Contains ipNet (lib.ParseIP clientIP) then true
        else if allowed = clientIP then true
        else validateIPLoop lib clientIP rest
    else if allowed = clientIP then true
    else validateIPLoop lib clientIP rest

/-- `validateIP`. -/
def validateIP (lib : NetLib) (cfg : AgentConfig) (req : Request) : Option String :=
  let clientIP := getClientIP lib req
  if cfg.Security.AllowedOrigins.length = 0 then none
  else if validateIPLoop lib clientIP cfg.Security.AllowedOrigins then none
  else some ("IP " ++ clientIP ++ " not in whitelist")

/-- An allow-list entry that the loop of `validateIP` skips with `continue`: it
holds a slash and `net.ParseCIDR` rejects it (a malformed CIDR entry). -/
def malformedCIDR (lib : NetLib) (allowed : String) : Bool :=
  decide ('/' ∈ allowed.toList) && (lib.ParseCIDR allowed).isNone

/-- What one allow-list entry that is not skipped can admit: it is `*`, or it
equals the client IP string, or it is a CIDR range that holds the client IP. -/
def entryAdmits (lib : NetLib) (clientIP allowed : String) : Prop :=
  allowed = "*" ∨ allowed = clientIP ∨
    ∃ ipNet, '/' ∈ allowed.toList ∧ lib.ParseCIDR allowed = some ipNet ∧
      lib.Contains ipNet (lib.ParseIP clientIP) = true

/-- `validateRequestSize`. -/
def validateRequestSize (cfg : AgentConfig) (req : Request) : Option String :=
  if req.ContentLength > cfg.MaxRequestSize then
    some ("request size " ++ toString req.ContentLength ++
      " exceeds maximum allowed size " ++ toString cfg.MaxRequestSize)
  else none

/-- The struct `RequestValidator`: its configuration and the map
`rateLimiters` as an association list. -/
structure RequestValidator where
  config : AgentConfig
  rateLimiters : List (String × RateLimiter)
deriving DecidableEq, Repr

/-- The map write `m[k] = v`. -/
def mapSet (m : List (String × RateLimiter)) (k : String) (v : RateLimiter) :
    List (String × RateLimiter) :=
  (k, v) :: m.filter (fun e => e.1 ≠ k)

/-- `validateRateLimit`. `tNew` is the clock read by `NewRateLimiter` when a
limiter is created, `tAllow` the clock read by `Allow`. The limiter is shared
by pointer, so the map sees what `Allow` did to it. A zero `TimeWindow` is not
meaningful here (the source divides by it in floating point). -/
def validateRateLimit (rv : RequestValidator) (req : Request) (tNew tAllow : Time) :
    RequestValidator × Option String :=
  let agentID := headerGet req.Header "X-Agent-ID"
  if agentID = "" then (rv, some "missing agent ID")
  else
    let limiter :=
      match rv.rateLimiters.lookup agentID with
      | some l => l
      | none =>
        NewRateLimiter (rv.config.Security.RateLimit.Requests : ℚ)
          ((rv.config.Security.RateLimit.Requests : ℚ) / rv.config.Security.RateLimit.TimeWindow)
          tNew
    let res := Allow limiter tAllow
    let rv1 := { rv with rateLimiters := mapSet rv.rateLimiters agentID res.1 }
    if res.2 then (rv1, none)
    else (rv1, some ("rate limit exceeded for agent " ++ agentID))

/-- The keys of the map `requiredHeaders`. -/
def requiredHeaders : List String :=
  ["X-Agent-ID", "X-Customer-ID", "X-Agent-Token", "Content-Type"]

/-- The keys of the map `allowedContentTypes`. -/
def allowedContentTypes : List String :=
  ["application/json", "application/x-www-form-urlencoded", "multipart/form-data"]

/-- `validateSecurityHeaders`. Go ranges over the map `requiredHeaders` in an
unspecified order; `order` is the order of this run, a permutation of
`requiredHeaders`. -/
def validateSecurityHeaders (order : List String) (req : Request) : Option String :=
  match order.find? (fun header => headerGet req.Header header = "") with
  | some header => some ("missing required header: " ++ header)
  | none =>
    let contentType := headerGet req.Header "Content-Type"
    if contentType ∈ allowedContentTypes then none
    else some ("unsupported Content-Type: " ++ contentType)

/-- `ValidateRequest`: the validator afterwards and the returned error. -/
def ValidateRequest (lib : NetLib) (order : List String) (rv : RequestValidator)
    (req : Request) (tNew tAllow : Time) : RequestValidator × Option String :=
  match validateIP lib rv.config req with
  | some err => (rv, some ("IP validation failed: " ++ err))
  | none =>
    match validateRequestSize rv.config req with
    | some err => (rv, some ("size validation failed: " ++ err))
    | none =>
      match validateRateLimit rv req tNew tAllow with
      | (rv1, some err) => (rv1, some ("rate limit exceeded: " ++ err))
      | (rv1, none) =>
        match validateSecurityHeaders order req with
        | some err => (rv1, some ("security headers validation failed: " ++ err))
        | none => (rv1, none)

end validator

/-! ## internal/middleware/resilience.go -/

namespace middleware

open circuitbreaker validator

/-- The struct `ResilienceMiddleware`. -/
structure ResilienceMiddleware where
  validator : RequestValidator
  circuitBreaker : CircuitBreaker
deriving DecidableEq, Repr

/-- `NewResilienceMiddleware`: threshold 5, cool-down 30 s. -/
def NewResilienceMiddleware (validator : RequestValidator) : ResilienceMiddleware :=
  { validator := validator, circuitBreaker := circuitbreaker.New 5 30 }

/-- What the handler of `Handle` leaves behind: the middleware, the world the
downstream handlers act on, the `c.JSON(code, error)` it wrote itself, if any,
and whether it called `c.Abort()`. -/
structure Handled (σ : Type) where
  mw : ResilienceMiddleware
  world : σ
  json : Option (Int × String)
  aborted : Bool

/-- The closure passed to `Execute` by `Handle`: `c.Next()` runs the downstream
handlers, `next` giving the new world and `c.Writer.Status()`. -/
def guarded {σ : Type} (next : σ → σ × Int) (w : σ) : σ × Option String :=
  let out := next w
  if out.2 ≥ 500 then (out.1, some ("server error: " ++ toString out.2))
  else (out.1, none)

/-- The handler returned by `Handle`. -/
def Handle {σ : Type} (lib : NetLib) (order : List String) (m : ResilienceMiddleware)
    (req : Request) (tNew tAllow tCheck tDone : Time) (next : σ → σ × Int) (w : σ) :
    Handled σ :=
  match ValidateRequest lib order m.validator req tNew tAllow with
  | (rv1, some err) =>
    { mw := { m with validator := rv1 }, world := w, json := some (400, err), aborted := true }
  | (rv1, none) =>
    if GetState m.circuitBreaker = StateOpen then
      { mw := { m with validator := rv1 }, world := w,
        json := some (503, "service is temporarily unavailable"), aborted := true }
    else
      let r := Execute m.circuitBreaker tCheck tDone (guarded next) w
      let m1 : ResilienceMiddleware := { validator := rv1, circuitBreaker := r.cb }
      match r.err with
      | some err =>
        if err = ErrCircuitOpen then
          { mw := m1, world := r.world,
            json := some (503, "service is temporarily unavailable"), aborted := true }
        else
          { mw := m1, world := r.world, json := some (500, "internal server error"),
            aborted := true }
      | none => { mw := m1, world := r.world, json := none, aborted := false }

/-! ### Sample data -/

/-- A stand-in for the standard library: no CIDR entry parses, the host of an
address is what precedes the first colon, trimming is the identity. -/
def stubLib : NetLib :=
  { ParseCIDR := fun _ => none,
    ParseIP := fun _ => [],
    Contains := fun _ _ => false,
    SplitHostPort := fun s => String.mk (s.toList.takeWhile (fun c => c ≠ ':')),
    TrimSpace := fun s => s }

/-- A configuration with no allow-list, 100 requests per minute and a size
ceiling of one mebibyte. -/
def sampleConfig : AgentConfig :=
  { Security := { AllowedOrigins := [], RateLimit := { Requests := 100, TimeWindow := 60 } },
    MaxRequestSize := 1048576 }

/-- A request that passes all four checks of `sampleConfig`. -/
def sampleRequest : Request :=
  { Header := [("X-Agent-ID", "agent-1"), ("X-Customer-ID", "cust-1"),
      ("X-Agent-Token", "token"), ("Content-Type", "application/json")],
    RemoteAddr := "10.0.0.1:4000",
    ContentLength := 2 }

/-- The same request with a body above the size ceiling. -/
def oversizedRequest : Request := { sampleRequest with ContentLength := 1048577 }

/-- A downstream handler that counts its runs and answers 500. -/
def downstream500 : Nat → Nat × Int := fun k => (k + 1, 500)

/-- The middleware and the downstream run count after `k` requests, one per
second from time 0, each passed to `downstream500`. -/
def afterFailures : Nat → ResilienceMiddleware × Nat
  | 0 => (NewResilienceMiddleware { config := sampleConfig, rateLimiters := [] }, 0)
  | k + 1 =>
    let p := afterFailures k
    let r := Handle stubLib requiredHeaders p.1 sampleRequest k k k k downstream500 p.2
    (r.mw, r.world)

/-- The sample request without its `X-Agent-ID` header. -/
def noAgentIDRequest : Request :=
  { Header := [("X-Customer-ID", "cust-1"), ("X-Agent-Token", "token"),
      ("Content-Type", "application/json")],
    RemoteAddr := "10.0.0.1:4000",
    ContentLength := 2 }

/-- The sample request without its `X-Customer-ID` header. -/
def noCustomerIDRequest : Request :=
  { Header := [("X-Agent-ID", "agent-1"), ("X-Agent-Token", "token"),
      ("Content-Type", "application/json")],
    RemoteAddr := "10.0.0.1:4000",
    ContentLength := 2 }

/-- A validator whose limiter for `agent-1` is empty since time 0. -/
def drainedValidator : RequestValidator :=
  { config := sampleConfig,
    rateLimiters := [("agent-1",
      { tokens := 0, capacity := 100, refillRate := 100 / 60, lastRefill := 0 })] }

/-- A configuration whose allow-list is the given one. -/
def allowListConfig (origins : List String) : AgentConfig :=
  { sampleConfig with
    Security := { AllowedOrigins := origins, RateLimit := sampleConfig.Security.RateLimit } }

/-- A request whose `X-Real-IP` header is the given string. -/
def requestFrom (ip : String) : Request :=
  { Header := [("X-Real-IP", ip)], RemoteAddr := "10.0.0.9:4000", ContentLength := 0 }

end middleware

/-! ## Go standard library: `strings` and `path`

The functions of `strings` and `path` that the route matchers call, written
out from their documentation. Separators and cut sets are the one-character
strings the source passes. -/

namespace strings

/-- The pieces of a character list between the occurrences of `sep`. -/
def splitChars (sep : Char) : List Char → List (List Char)
  | [] => [[]]
  | c :: cs =>
    if c = sep then [] :: splitChars sep cs
    else
      match splitChars sep cs with
      | [] => [[c]]
      | h :: t => (c :: h) :: t

/-- `strings.Split(s, sep)` for a one-character `sep`. -/
def Split (s : String) (sep : Char) : List String :=
  (splitChars sep s.toList).map String.mk

/-- `strings.HasSuffix`. -/
def HasSuffix (s suffix : String) : Bool := suffix.toList.isSuffixOf s.toList

/-- `strings.HasPrefix`. -/
def HasPrefix (s pre : String) : Bool := pre.toList.isPrefixOf s.toList

/-- `strings.TrimSuffix`. -/
def TrimSuffix (s suffix : String) : String :=
  if HasSuffix s suffix then String.mk (s.toList.take (s.toList.length - suffix.toList.length))
  else s

/-- `strings.Contains(s, sub)` for a one-character `sub`. -/
def Contains (s : String) (c : Char) : Bool := decide (c ∈ s.toList)

/-- `strings.Trim(s, cutset)` for a one-character `cutset`. -/
def Trim (s : String) (c : Char) : String :=
  String.mk ((s.toList.dropWhile (fun x => x = c)).reverse.dropWhile (fun x => x = c)).reverse

end strings

namespace path

/-- One element of a rooted path met by `path.Clean`: empty elements and `.`
are dropped, `..` removes the element before it (none at the root), any other
element is kept. -/
def cleanStep (stack : List String) (seg : String) : List String :=
  if seg = "" ∨ seg = "." then stack
  else if seg = ".." then stack.dropLast
  else stack ++ [seg]

/-- The elements that `path.Clean` keeps of a rooted path. -/
def cleanSegments (segs : List String) : List String := segs.foldl cleanStep []

/-- The characters of elements joined by slashes. -/
def joinChars : List String → List Char
  | [] => []
  | [s] => s.toList
  | s :: rest => s.toList ++ '/' :: joinChars rest

/-- The rooted path with the given elements: `/` for none, else `/a/b/c`. -/
def joinPath (segs : List String) : String := String.mk ('/' :: joinChars segs)

/-- `path.Clean(p)` for a rooted `p` (the source only passes `"/" + x`): the
shortest equivalent path, `/` followed by the kept elements joined by single
slashes. -/
def Clean (p : String) : String := joinPath (cleanSegments (strings.Split p '/'))

/-- What `strings.Split(p, "/")` gives on the clean rooted path with the given
elements: an empty string for what precedes the leading slash, then the
elements, the root `/` giving two empty strings. -/
def rootedParts (segs : List String) : List String :=
  if segs = [] then ["", ""] else "" :: segs

/-- The elements of a path in clean form: not empty, not `.` or `..`, and free
of slashes. -/
def CleanSegments (segs : List String) : Prop :=
  ∀ s ∈ segs, s ≠ "" ∧ s ≠ "." ∧ s ≠ ".." ∧ '/' ∉ s.toList

/-- What `strings.Split(strings.Trim(p, "/"), "/")` gives on the clean rooted
path with the given elements: the elements, the root `/` giving one empty
string. -/
def trimmedParts (segs : List String) : List String :=
  if segs = [] then [""] else segs

/-- Literal elements: none is the wildcard `*` or `**`. -/
def LiteralSegments (segs : List String) : Prop :=
  ∀ s ∈ segs, s ≠ "*" ∧ s ≠ "**"

/-- A pattern without `*` or `**` segments. -/
def NoWildcard (p : String) : Prop :=
  "*" ∉ strings.Split p '/' ∧ "**" ∉ strings.Split p '/'

/-- The elements `path.Clean("/" + r)` keeps of a route `r`. -/
def routeSegments (r : String) : List String :=
  cleanSegments (strings.Split ("/" ++ r) '/')

/-- Segment-wise matching with `*` for exactly one segment: as many route
segments as pattern segments, and every pattern segment other than `*` equal
to the route segment at its position. -/
def StarMatches (patternSegs routeSegs : List String) : Prop :=
  List.Forall₂ (fun a b => a = "*" ∨ a = b) patternSegs routeSegs

/-- A rooted path in clean form: a leading slash, no empty, `.` or `..`
element, no trailing slash. -/
def IsClean (p : String) : Prop := ∃ segs, CleanSegments segs ∧ p = joinPath segs

end path

/-! ## internal/service/auth_service.go: route matching -/

namespace service

/-- The loop of `matchRoute` over `patternParts`, the route parts walked in
step with the index `i`: `some b` when the loop returns `b`, `none` when it
runs to its end. -/
def matchParts : List String → List String → Option Bool
  | [], _ => none
  | _ :: _, [] => some false
  | patternPart :: ps, routePart :: rs =>
    if patternPart = "*" then matchParts ps rs
    else if patternPart = "**" then some true
    else if patternPart ≠ routePart then some false
    else matchParts ps rs

/-- `matchRoute`. -/
def matchRoute (pattern route : String) : Bool :=
  let pattern := path.Clean ("/" ++ pattern)
  let route := path.Clean ("/" ++ route)
  let patternParts := strings.Split pattern '/'
  let routeParts := strings.Split route '/'
  if patternParts.length ≠ routeParts.length ∧ ¬ strings.HasSuffix pattern "/**" then false
  else
    match matchParts patternParts routeParts with
    | some b => b
    | none => decide (routeParts.length = patternParts.length)

end service

/-! ## pkg/utils/route.go and internal/middleware/proxy.go -/

namespace utils

/-- The loop of `matchWildcardPattern`; the two lists have the same length
when it runs. -/
def wildcardLoop : List String → List String → Bool
  | [], _ => true
  | _ :: _, [] => false
  | part :: ps, routePart :: rs =>
    if part ≠ "*" ∧ part ≠ routePart then false
    else wildcardLoop ps rs

/-- `matchWildcardPattern`. -/
def matchWildcardPattern (pattern route : String) : Bool :=
  let patternParts := strings.Split (strings.Trim pattern '/') '/'
  let routeParts := strings.Split (strings.Trim route '/') '/'
  if patternParts.length ≠ routeParts.length then false
  else wildcardLoop patternParts routeParts

/-- The loop of `IsRouteAllowed` over the allowed routes, `routePath` already
cleaned. -/
def allowedLoop (routePath : String) : List String → Bool
  | [] => false
  | allowedRoute :: rest =>
    let allowedRoute := path.Clean ("/" ++ allowedRoute)
    if allowedRoute = routePath then true
    else if strings.Contains allowedRoute '*' ∧ matchWildcardPattern allowedRoute routePath then
      true
    else if strings.HasSuffix allowedRoute "/**" ∧
        strings.HasPrefix routePath (strings.TrimSuffix allowedRoute "/**") then true
    else allowedLoop routePath rest

/-- `IsRouteAllowed`. -/
def IsRouteAllowed (routePath : String) (allowedRoutes : List String) : Bool :=
  allowedLoop (path.Clean ("/" ++ routePath)) allowedRoutes

/-- The handler of `middleware.Proxy` up to `c.Next()`: the status and code it
aborts with, or `none` when the request goes on. `allowedRoutes` is the
context value `allowed_routes`, if set. -/
def Proxy (allowedRoutes : Option (List String)) (urlPath : String) : Option (Int × String) :=
  match allowedRoutes with
  | none => some (403, "ROUTE_ACCESS_NOT_CONFIGURED")
  | some routes =>
    if ¬ IsRouteAllowed urlPath routes then some (403, "ROUTE_NOT_ALLOWED")
    else none

end utils

/-! ## pkg/jwt/jwt.go, internal/models and pkg/cache/redis.go -/

namespace jwt

/-- The struct `Claims`, with the expiry and issue times of its
`RegisteredClaims`. -/
structure Claims where
  CustomerID : String
  AllowedRoutes : List String
  TokenType : String
  ExpiresAt : Time
  IssuedAt : Time
deriving DecidableEq, Repr

end jwt

namespace models

/-- The fields of `models.Customer` without its timestamps. -/
structure Customer where
  ID : String
  Name : String
  APIKey : String
  Status : String
  AllowedRoutes : List String
deriving DecidableEq, Repr

/-- The fields of `models.Agent` that the handshake reads. -/
structure Agent where
  ID : String
  CustomerID : String
  Status : String
deriving DecidableEq, Repr

end models

namespace cache

/-- One key of the Redis server: its value and, if it has one, the instant at
which it expires. -/
structure Entry where
  key : String
  data : String
  expiresAt : Option Time
deriving DecidableEq, Repr

/-- The struct `RedisCache`: the keys held by the Redis server behind its
client. The server is reachable; an unreachable one answers every read like a
miss. -/
structure RedisCache where
  entries : List Entry
deriving DecidableEq, Repr

/-- The command `client.Get(ctx, key).Result()` at time `now`: the value of a
key that exists and has not expired, `none` for the error `redis.Nil`. -/
def clientGet (c : RedisCache) (key : String) (now : Time) : Option String :=
  match c.entries.find? (fun e => e.key = key) with
  | none => none
  | some e =>
    match e.expiresAt with
    | none => some e.data
    | some t => if now < t then some e.data else none

/-- The command `client.Set(ctx, key, data, expiration)` at time `now`: the key
is replaced; a positive `expiration` makes it expire at `now + expiration`,
any other leaves it without expiry. -/
def clientSet (c : RedisCache) (key data : String) (expiration : Duration) (now : Time) :
    RedisCache :=
  { entries :=
      { key := key, data := data,
        expiresAt := if expiration > 0 then some (now + expiration) else none } ::
        c.entries.filter (fun e => e.key ≠ key) }

/-- The calls of `encoding/json` made by the cache, taken as parameters:
`json.Marshal` of a `Claims` and of a string, and `json.Unmarshal` into a
`Claims` (`none` on error). -/
structure Json where
  marshalClaims : jwt.Claims → String
  unmarshalClaims : String → Option jwt.Claims
  marshalString : String → String

/-- The method `Set` of `RedisCache` on a string value. -/
def RedisCache.Set (json : Json) (c : RedisCache) (key value : String) (expiration : Duration)
    (now : Time) : RedisCache :=
  clientSet c key (json.marshalString value) expiration now

/-- The method `Get` of `RedisCache`. -/
def RedisCache.Get (c : RedisCache) (key : String) (now : Time) : Option String :=
  clientGet c key now

/-- `GetTokenClaims`: `none` stands for a returned error. -/
def GetTokenClaims (json : Json) (c : RedisCache) (token : String) (now : Time) :
    Option jwt.Claims :=
  match clientGet c ("token:" ++ token) now with
  | none => none
  | some data => json.unmarshalClaims data

/-- `SetTokenClaims`. -/
def SetTokenClaims (json : Json) (c : RedisCache) (token : String) (claims : jwt.Claims)
    (expiration : Duration) (now : Time) : RedisCache :=
  clientSet c ("token:" ++ token) (json.marshalClaims claims) expiration now

/-- The key of a route permission, `route_permission:%s:%s`. -/
def routePermissionKey (customerID route : String) : String :=
  "route_permission:" ++ customerID ++ ":" ++ route

/-- `GetRoutePermission`: the decision and whether one was found. -/
def GetRoutePermission (c : RedisCache) (customerID route : String) (now : Time) :
    Bool × Bool :=
  match clientGet c (routePermissionKey customerID route) now with
  | none => (false, false)
  | some val => (decide (val = "true"), true)

/-- `SetRoutePermission`. -/
def SetRoutePermission (c : RedisCache) (customerID route : String) (allowed : Bool)
    (expiration : Duration) (now : Time) : RedisCache :=
  clientSet c (routePermissionKey customerID route) (if allowed then "true" else "false")
    expiration now

end cache

/-! ## internal/service/auth_service.go: tokens and route permissions -/

namespace service

/-- The error `ErrCustomerInactive`. -/
def ErrCustomerInactive : String := "customer is inactive"

/-- The struct `AuthService`: the directory read by `repo.GetCustomer`, the
check made by `jwtMgr.ValidateToken` (signature and expiry, at the time it
runs), `config.JWT.ExpirationHours`, and the JSON calls of its cache. The
directory and the token check are outside the repository's own logic and are
parameters. -/
structure AuthService where
  GetCustomer : String → Except String models.Customer
  ValidateToken : String → Time → Except String jwt.Claims
  ExpirationHours : Int
  json : cache.Json

/-- The expiration `VerifyToken` passes to `SetTokenClaims`:
`time.Until(time.Now().Add(hours))`, `tAdd` the clock read by `time.Now()` and
`tUntil` the one read by `time.Until`. -/
def tokenCacheTTL (s : AuthService) (tAdd tUntil : Time) : Duration :=
  (tAdd + (s.ExpirationHours : ℚ) * 3600) - tUntil

/-- `VerifyToken`: the cache afterwards and the claims or the error. `tGet`,
`tValidate` and `tSet` are the times of the cache read, of the token check and
of the cache write. -/
def VerifyToken (s : AuthService) (c : cache.RedisCache) (token : String)
    (tGet tValidate tAdd tUntil tSet : Time) : cache.RedisCache × Except String jwt.Claims :=
  match cache.GetTokenClaims s.json c token tGet with
  | some claims => (c, Except.ok claims)
  | none =>
    match s.ValidateToken token tValidate with
    | Except.error err => (c, Except.error err)
    | Except.ok claims =>
      match s.GetCustomer claims.CustomerID with
      | Except.error err => (c, Except.error err)
      | Except.ok customer =>
        if customer.Status ≠ "active" then (c, Except.error ErrCustomerInactive)
        else
          (cache.SetTokenClaims s.json c token claims (tokenCacheTTL s tAdd tUntil) tSet,
            Except.ok claims)

/-- `IsRouteAllowed` of `AuthService`: the cache afterwards and the decision.
The loop with `break` over the allowed routes is `List.any`. -/
def IsRouteAllowed (s : AuthService) (c : cache.RedisCache) (customerID route : String)
    (tGet tSet : Time) : cache.RedisCache × Bool :=
  match cache.GetRoutePermission c customerID route tGet with
  | (allowed, true) => (c, allowed)
  | (_, false) =>
    match s.GetCustomer customerID with
    | Except.error _ => (c, false)
    | Except.ok customer =>
      let allowed := customer.AllowedRoutes.any (fun allowedRoute => matchRoute allowedRoute route)
      (cache.SetRoutePermission c customerID route allowed 3600 tSet, allowed)

end service

/-! ## internal/handler/agent/agent_handler.go: the agent handshake -/

namespace strconv

/-- The value of a non-empty run of decimal digits. -/
def parseDigits (cs : List Char) : Option Nat :=
  if cs = [] ∨ ¬ cs.all Char.isDigit then none
  else some (cs.foldl (fun acc c => 10 * acc + (c.toNat - '0'.toNat)) 0)

/-- `strconv.ParseInt(s, 10, 64)`: an optional sign and decimal digits, within
the range of `int64`; `none` on error. -/
def ParseInt (s : String) : Option Int :=
  let signed : Bool × List Char :=
    match s.toList with
    | '-' :: rest => (true, rest)
    | '+' :: rest => (false, rest)
    | cs => (false, cs)
  match parseDigits signed.2 with
  | none => none
  | some n =>
    let v : Int := if signed.1 then -(n : Int) else (n : Int)
    if v < -(2 : Int) ^ 63 ∨ v > (2 : Int) ^ 63 - 1 then none else some v

end strconv

namespace agent

/-- The constant `AgentTokenExpiry`, 24 hours. -/
def AgentTokenExpiry : Duration := 24 * 3600

/-- The constant `TokenCachePrefix`. -/
def TokenCachePrefix : String := "agent_token:"

/-- The struct `AgentHandler`, as far as the handshake reads it: the two
lookups of its `AuthService` interface, the JSON calls of its cache, and
`hex(HMAC-SHA256(key, message))` of `crypto/hmac`, a parameter. -/
structure AgentHandler where
  GetCustomer : String → Except String models.Customer
  GetAgent : String → Except String models.Agent
  json : cache.Json
  hmacHex : String → String → String

/-- The offset `unixToInternal` of package `time`: the seconds from the year 1
to 1970, which `time.Unix` adds to its argument. -/
def unixToInternal : Int := 62135596800

/-- The wrap-around of `int64` arithmetic. -/
def wrapInt64 (n : Int) : Int := (n + 2 ^ 63) % 2 ^ 64 - 2 ^ 63

/-- The seconds, counted from the year 1, of `time.Unix(sec, 0).Add(d)` for a
duration of `d` whole seconds: `time.Unix` adds `unixToInternal` in `int64`,
which wraps around, and `Add` saturates at the ends of `int64`. -/
def unixAddSeconds (sec d : Int) : Int :=
  if d > 0 ∧ wrapInt64 (sec + unixToInternal) + d > 2 ^ 63 - 1 then 2 ^ 63 - 1
  else if d < 0 ∧ wrapInt64 (sec + unixToInternal) + d < -(2 ^ 63) then -(2 ^ 63 - 1)
  else wrapInt64 (sec + unixToInternal) + d

/-- `validateTokenFormat`; `now` is its `time.Now()`, in seconds since 1970.
The test is `time.Unix(timestamp, 0).Add(AgentTokenExpiry).Before(time.Now())`,
with `AgentTokenExpiry` 86400 whole seconds. -/
def validateTokenFormat (token : String) (now : Time) : Option String :=
  let parts := strings.Split token '.'
  if parts.length ≠ 2 then some "invalid token format"
  else
    match strconv.ParseInt (parts.headD "") with
    | none => some "invalid timestamp"
    | some timestamp =>
      if ((unixAddSeconds timestamp 86400 : Int) : ℚ) < now + unixToInternal then
        some "token expired"
      else none

/-- `generateAgentToken`; `now` is its `time.Now()`, of which it takes the
Unix seconds. -/
def generateAgentToken (h : AgentHandler) (agent : models.Agent) (apiKey : String)
    (now : Time) : String :=
  let timestamp : Int := ⌊now⌋
  let message := agent.ID ++ ":" ++ agent.CustomerID ++ ":" ++ toString timestamp
  let signature := h.hmacHex apiKey message
  toString timestamp ++ "." ++ signature

/-- `compareTokens`: `hmac.Equal` on the bytes of the two strings. -/
def compareTokens (providedToken expectedToken : String) : Bool :=
  decide (providedToken = expectedToken)

/-- `validateAgentCredentials`: the cache afterwards and the returned error.
`tGet`, `tFormat`, `tGen` and `tSet` are the times of the cache read, of
`validateTokenFormat`, of `generateAgentToken` and of the cache write. -/
def validateAgentCredentials (h : AgentHandler) (c : cache.RedisCache)
    (agentID customerID token : String) (tGet tFormat tGen tSet : Time) :
    cache.RedisCache × Option String :=
  if agentID = "" ∨ customerID = "" ∨ token = "" then (c, some "missing required credentials")
  else
    let cacheKey := TokenCachePrefix ++ customerID ++ "_" ++ agentID
    if cache.RedisCache.Get c cacheKey tGet = some token then (c, none)
    else
      match h.GetCustomer customerID with
      | Except.error err => (c, some ("invalid customer: " ++ err))
      | Except.ok customer =>
        if customer.Status ≠ "active" then (c, some "customer account is not active")
        else
          match h.GetAgent agentID with
          | Except.error err => (c, some ("invalid agent: " ++ err))
          | Except.ok agent =>
            if agent.CustomerID ≠ customerID then (c, some "agent does not belong to customer")
            else if agent.Status ≠ "active" then (c, some "agent is not active")
            else
              match validateTokenFormat token tFormat with
              | some err => (c, some ("invalid token format: " ++ err))
              | none =>
                let expectedToken := generateAgentToken h agent customer.APIKey tGen
                if ¬ compareTokens token expectedToken then (c, some "invalid token signature")
                else (cache.RedisCache.Set h.json c cacheKey token (15 * 60) tSet, none)

end agent

/-! ### Sample data for the token service and the handshake -/

namespace service

/-- The claims of a token of customer `C1`, issued at time 0 for 24 hours. -/
def sampleClaims : jwt.Claims :=
  { CustomerID := "C1", AllowedRoutes := ["/api/**"], TokenType := "access",
    ExpiresAt := 86400, IssuedAt := 0 }

/-- A stand-in for `encoding/json` that round-trips `sampleClaims` and puts a
plain string between double quotes. -/
def sampleJson : cache.Json :=
  { marshalClaims := fun claims => "claims:" ++ claims.CustomerID,
    unmarshalClaims := fun data => if data = "claims:C1" then some sampleClaims else none,
    marshalString := fun value => "\"" ++ value ++ "\"" }

/-- Customer `C1`, active, allowed on `/api/**`. -/
def activeCustomer : models.Customer :=
  { ID := "C1", Name := "Customer One", APIKey := "key-1", Status := "active",
    AllowedRoutes := ["/api/**"] }

/-- Customer `C1` after deactivation. -/
def inactiveCustomer : models.Customer := { activeCustomer with Status := "suspended" }

/-- A token check that accepts `token-1` with `sampleClaims` until they expire. -/
def sampleValidate (token : String) (now : Time) : Except String jwt.Claims :=
  if token = "token-1" ∧ now < sampleClaims.ExpiresAt then Except.ok sampleClaims
  else Except.error "token is invalid or expired"

/-- An `AuthService` whose directory holds the given customer, with tokens of
24 hours. -/
def authWith (customer : models.Customer) : AuthService :=
  { GetCustomer := fun id =>
      if id = customer.ID then Except.ok customer
      else Except.error "mongo: no documents in result",
    ValidateToken := sampleValidate,
    ExpirationHours := 24,
    json := sampleJson }

/-- A cache with no key. -/
def emptyCache : cache.RedisCache := { entries := [] }

end service

namespace agent

/-- Agent `A1` of customer `C1`, active. -/
def sampleAgent : models.Agent := { ID := "A1", CustomerID := "C1", Status := "active" }

/-- A handler whose directory holds `activeCustomer` and `sampleAgent`; its
stand-in for the HMAC keeps the letters and digits of the key and the
message. -/
def sampleHandler : AgentHandler :=
  { GetCustomer := fun id =>
      if id = "C1" then Except.ok service.activeCustomer
      else Except.error "mongo: no documents in result",
    GetAgent := fun id =>
      if id = "A1" then Except.ok sampleAgent
      else Except.error "mongo: no documents in result",
    json := service.sampleJson,
    hmacHex := fun key message =>
      String.mk ((key ++ message).toList.filter Char.isAlphanum) }

/-- The credential `ts.hex(HMAC(apiKey, agentID:customerID:ts))` of `sampleAgent`
for the timestamp `ts`. -/
def credentialAt (ts : Int) : String :=
  toString ts ++ "." ++
    sampleHandler.hmacHex service.activeCustomer.APIKey
      (sampleAgent.ID ++ ":" ++ sampleAgent.CustomerID ++ ":" ++ toString ts)

end agent

/-! ## pkg/validator/request_validator.go: the steps of `Allow` -/

namespace validator

/-- The token count that `Allow` holds after the refill and the cap, before it
tests for a whole token. -/
def cappedTokens (rl : RateLimiter) (now : Time) : ℚ :=
  let elapsed := now - rl.lastRefill
  let refilled := rl.tokens + elapsed * rl.refillRate
  if refilled > rl.capacity then rl.capacity else refilled

end validator

/-! ## pkg/metrics/collector.go: the agent metrics

A prometheus vector is declared with its label names, and `WithLabelValues`
panics unless it is given one value for each of them. A panic is modelled by
its message, `none` when the call returns. -/

namespace metrics

/-- The message of the panic of `WithLabelValues`. -/
def errInconsistentCardinality : String := "inconsistent label cardinality"

/-- `WithLabelValues(values...)` on a vector declared with the label names
`labels`: the panic, if any. -/
def WithLabelValues (labels values : List String) : Option String :=
  if values.length = labels.length then none else some errInconsistentCardinality

/-- `RecordAgentConnection`: the gauge `agentConnections` is declared with the
label `customer_id`. -/
def RecordAgentConnection (customerID : String) : Option String :=
  WithLabelValues ["customer_id"] [customerID]

/-- `RecordAgentDisconnection`: the counter `agentDisconnections` is declared
with the labels `customer_id` and `reason`. -/
def RecordAgentDisconnection (customerID : String) : Option String :=
  WithLabelValues ["customer_id", "reason"] [customerID]

/-- `RecordAgentHeartbeat`, on the gauge `agentConnections`. -/
def RecordAgentHeartbeat (customerID agentID : String) : Option String :=
  WithLabelValues ["customer_id"] [customerID, agentID]

end metrics

/-! ## github.com/gorilla/websocket: connections

A `*websocket.Conn` is known by its identity. The library is not part of the
repository; what the registry uses of it is written out here. `Close` closes
the underlying network connection, and closing it a second time returns the
error of `net.Conn.Close`. -/

namespace websocket

/-- A `*websocket.Conn`, by identity. -/
abbrev Conn := Nat

/-- The connections that have been closed on this side. -/
structure Sockets where
  closed : List Conn
deriving DecidableEq, Repr

/-- The error of an operation on a closed network connection. -/
def errClosed : String := "use of closed network connection"

/-- `conn.Close()`: the sockets afterwards and the returned error. -/
def Close (w : Sockets) (conn : Conn) : Sockets × Option String :=
  if conn ∈ w.closed then (w, some errClosed)
  else ({ closed := conn :: w.closed }, none)

/-- `conn.WriteControl(websocket.PingMessage, ...)`: the returned error. A
connection closed on this side cannot be written to. -/
def WriteControl (w : Sockets) (conn : Conn) : Option String :=
  if conn ∈ w.closed then some errClosed else none

end websocket

/-! ## internal/models: connection record and proxy configuration -/

namespace models

/-- The struct `models.AgentConnection`, the record that `HandleConnection`
keeps for its reader and its heartbeat monitor. -/
structure AgentConnection where
  ID : String
  CustomerID : String
  Conn : websocket.Conn
  StartTime : Time
  LastPing : Time
deriving DecidableEq, Repr

/-- The struct `ProxyConfig`. -/
structure ProxyConfig where
  ID : String
  CustomerID : String
  TargetURL : String
  Headers : List (String × String)
  RateLimit : Int
  Timeout : Int
  RetryCount : Int
  CacheEnabled : Bool
  TunnelEnabled : Bool
deriving DecidableEq, Repr

end models

/-! ## internal/service/agent/agent_manager.go -/

namespace agent

/-- The struct `AgentConnection` of the registry, without its mutex. -/
structure AgentConnection where
  AgentID : String
  CustomerID : String
  Connection : websocket.Conn
  Status : String
  LastPing : Time
deriving DecidableEq, Repr

/-- The struct `AgentManager`: its map `connections` from agent identifier to
entry, as an association list of which the first entry of a key counts. The
metrics collector, the logger and the mutex are left out. -/
structure AgentManager where
  connections : List (String × AgentConnection)
deriving DecidableEq, Repr

/-- The map read `am.connections[agentID]`. -/
def AgentManager.lookup (am : AgentManager) (agentID : String) : Option AgentConnection :=
  am.connections.lookup agentID

/-- The statement `delete(am.connections, agentID)`. -/
def AgentManager.remove (am : AgentManager) (agentID : String) : AgentManager :=
  { connections := am.connections.filter (fun e => e.1 ≠ agentID) }

/-- The map write `am.connections[agentID] = agent`. -/
def AgentManager.store (am : AgentManager) (agentID : String) (agent : AgentConnection) :
    AgentManager :=
  { connections := (agentID, agent) :: am.connections.filter (fun e => e.1 ≠ agentID) }

/-- The struct `ProxyRequest` of the registry. -/
structure ProxyRequest where
  Method : String
  Path : String
  Headers : List (String × List String)
  Body : String
  CustomerID : String
deriving DecidableEq, Repr

/-- The struct `ProxyResponse` of the registry. -/
structure ProxyResponse where
  StatusCode : Int
  Headers : List (String × List String)
  Body : String
deriving DecidableEq, Repr

/-- `RegisterAgent`; `now` is its `time.Now()`. The registry, the sockets and
the returned error. The error of closing the replaced connection is dropped.
The monitor that is started holds the new entry, see `monitorAgentTick`. -/
def RegisterAgent (am : AgentManager) (w : websocket.Sockets) (agentID customerID : String)
    (conn : websocket.Conn) (now : Time) : AgentManager × websocket.Sockets × Option String :=
  let agent : AgentConnection :=
    { AgentID := agentID, CustomerID := customerID, Connection := conn, Status := "connected",
      LastPing := now }
  match am.lookup agentID with
  | some existing =>
    ((am.remove agentID).store agentID agent, (websocket.Close w existing.Connection).1, none)
  | none => (am.store agentID agent, w, none)

/-- An inbound frame of an agent connection: a JSON object with the fields of
`ProxyResponse`, or a `WSMessage` envelope of the given type (`heartbeat`,
`metrics_update`, ...). -/
inductive Frame where
  | response (r : ProxyResponse)
  | message (type : String)
deriving DecidableEq, Repr

/-- The traffic of one agent connection: the frames received from the agent and
not yet read, oldest first, and the requests written to it, oldest first. -/
structure Wire where
  inbound : List Frame
  outbound : List ProxyRequest
deriving DecidableEq, Repr

/-- What `ReadJSON(response)` leaves in a fresh `ProxyResponse` for a frame:
`encoding/json` fills the fields whose names occur in the object and skips the
other keys, so an envelope (`type`, `request_id`, `payload`, `timestamp`)
leaves the zero value and no error. -/
def decodeProxyResponse : Frame → ProxyResponse
  | Frame.response r => r
  | Frame.message _ => { StatusCode := 0, Headers := [], Body := "" }

/-- `sendRequest` on the connection of the entry `ac` with traffic `wire`: the
traffic afterwards and the result. `WriteJSON` fails on a connection closed on
this side; `ReadJSON` takes the next inbound frame, and a connection that ends
before any frame arrives is an error. -/
def sendRequest (w : websocket.Sockets) (ac : AgentConnection) (wire : Wire)
    (request : ProxyRequest) : Wire × Except String ProxyResponse :=
  if ac.Connection ∈ w.closed then
    (wire, Except.error ("failed to send request: " ++ websocket.errClosed))
  else
    match wire.inbound with
    | [] =>
      ({ wire with outbound := wire.outbound ++ [request] },
        Except.error ("failed to read response: " ++ "unexpected EOF"))
    | frame :: rest =>
      ({ inbound := rest, outbound := wire.outbound ++ [request] },
        Except.ok (decodeProxyResponse frame))

/-- `RouteRequest`; `wire` is the traffic of the connection registered under
`agentID`. -/
def RouteRequest (am : AgentManager) (w : websocket.Sockets) (wire : Wire) (agentID : String)
    (request : ProxyRequest) : Wire × Except String ProxyResponse :=
  match am.lookup agentID with
  | none => (wire, Except.error "agent not found")
  | some agent => sendRequest w agent wire request

/-- The loop of `cleanupInactiveAgents` over the entries that are left to
visit: an entry whose `LastPing` is more than 5 minutes old is closed and
deleted, and then `RecordAgentDisconnection` is called, whose panic ends the
loop. The registry, the sockets and the panic, if any. -/
def cleanupLoop (now : Time) :
    List (String × AgentConnection) → AgentManager → websocket.Sockets →
      AgentManager × websocket.Sockets × Option String
  | [], am, w => (am, w, none)
  | e :: rest, am, w =>
    if now - e.2.LastPing > 5 * 60 then
      match metrics.RecordAgentDisconnection e.2.CustomerID with
      | some p => (am.remove e.1, (websocket.Close w e.2.Connection).1, some p)
      | none => cleanupLoop now rest (am.remove e.1) (websocket.Close w e.2.Connection).1
    else cleanupLoop now rest am w

/-- One tick of `cleanupInactiveAgents`; `now` is the time of its
`time.Since`. The map is visited in the order of the list. -/
def cleanupInactiveAgentsTick (am : AgentManager) (w : websocket.Sockets) (now : Time) :
    AgentManager × websocket.Sockets × Option String :=
  cleanupLoop now am.connections am w

/-- `checkAgentHealth`; `now` is the time of its `time.Since`. -/
def checkAgentHealth (w : websocket.Sockets) (agent : AgentConnection) (now : Time) :
    Option String :=
  if now - agent.LastPing > 2 * 60 then some "agent timeout"
  else
    match websocket.WriteControl w agent.Connection with
    | some err => some ("failed to send ping: " ++ err)
    | none => none

/-- `handleAgentDisconnection`: for whatever is registered under `agentID`,
`RecordAgentDisconnection` is called first, then the connection is closed and
the entry deleted. The registry, the sockets and the panic, if any. -/
def handleAgentDisconnection (am : AgentManager) (w : websocket.Sockets) (agentID : String) :
    AgentManager × websocket.Sockets × Option String :=
  match am.lookup agentID with
  | some agent =>
    match metrics.RecordAgentDisconnection agent.CustomerID with
    | some p => (am, w, some p)
    | none => (am.remove agentID, (websocket.Close w agent.Connection).1, none)
  | none => (am, w, none)

/-- One tick of `monitorAgent` for the entry `agent` it was started with: the
registry, the sockets, whether the monitor goes on, and the panic, if any. No
code writes to an entry after `RegisterAgent`, so the entry held by the
monitor is a value. -/
def monitorAgentTick (am : AgentManager) (w : websocket.Sockets) (agent : AgentConnection)
    (now : Time) : AgentManager × websocket.Sockets × Bool × Option String :=
  match checkAgentHealth w agent now with
  | some _ =>
    ((handleAgentDisconnection am w agent.AgentID).1,
      (handleAgentDisconnection am w agent.AgentID).2.1, false,
      (handleAgentDisconnection am w agent.AgentID).2.2)
  | none => (am, w, true, none)

/-- `DeregisterAgent`: the registry, the sockets and the returned error. -/
def DeregisterAgent (am : AgentManager) (w : websocket.Sockets) (agentID customerID : String) :
    AgentManager × websocket.Sockets × Option String :=
  match am.lookup agentID with
  | some agent =>
    if agent.CustomerID ≠ customerID then (am, w, some "unauthorized deregistration attempt")
    else
      match (websocket.Close w agent.Connection).2 with
      | some err =>
        (am, (websocket.Close w agent.Connection).1, some ("error closing connection: " ++ err))
      | none => (am.remove agentID, (websocket.Close w agent.Connection).1, none)
  | none => (am, w, some "agent not found")

/-! ### internal/handler/agent/agent_handler.go: the life of a connection -/

/-- The constant `HeartbeatInterval`, 30 seconds. -/
def HeartbeatInterval : Duration := 30

/-- `handleHeartbeat`; `now` is its `time.Now()`. `LastPing` of the record of
the handler is set, then `RecordAgentHeartbeat` is called, and if that returns,
a `config_update` is pushed when `GetConfigUpdate` finds the agent registered.
The record afterwards, whether a `config_update` is pushed, and the panic, if
any. The registry is read, not written. -/
def handleHeartbeat (am : AgentManager) (agent : models.AgentConnection) (now : Time) :
    models.AgentConnection × Bool × Option String :=
  match metrics.RecordAgentHeartbeat agent.CustomerID agent.ID with
  | some p => ({ agent with LastPing := now }, false, some p)
  | none => ({ agent with LastPing := now }, (am.lookup agent.ID).isSome, none)

/-- One tick of `monitorHeartbeat`; `now` is the time of its `time.Since`. The
sockets and whether the monitor goes on. -/
def monitorHeartbeatTick (w : websocket.Sockets) (agent : models.AgentConnection) (now : Time) :
    websocket.Sockets × Bool :=
  if now - agent.LastPing > HeartbeatInterval * 3 then
    ((websocket.Close w agent.Conn).1, false)
  else (w, true)

/-- `handleDisconnection`, which the reader `handleMessages` runs when it
ends: the error of `DeregisterAgent` is dropped, `RecordAgentDisconnection` is
called, then the connection of the record is closed. The registry, the sockets
and the panic, if any. -/
def handleDisconnection (am : AgentManager) (w : websocket.Sockets)
    (agent : models.AgentConnection) : AgentManager × websocket.Sockets × Option String :=
  match metrics.RecordAgentDisconnection agent.CustomerID with
  | some p =>
    ((DeregisterAgent am w agent.ID agent.CustomerID).1,
      (DeregisterAgent am w agent.ID agent.CustomerID).2.1, some p)
  | none =>
    ((DeregisterAgent am w agent.ID agent.CustomerID).1,
      (websocket.Close (DeregisterAgent am w agent.ID agent.CustomerID).2.1 agent.Conn).1,
      none)

end agent

/-! ## pkg/cache/redis.go: proxy configuration -/

namespace cache

/-- `GetProxyConfig`; `unmarshal` is `json.Unmarshal` into a `ProxyConfig`
(`none` on error). `none` stands for a returned error. -/
def GetProxyConfig (unmarshal : String → Option models.ProxyConfig) (c : RedisCache)
    (customerID : String) (now : Time) : Option models.ProxyConfig :=
  match clientGet c ("proxy_config:" ++ customerID) now with
  | none => none
  | some data => unmarshal data

end cache

/-! ## internal/service/proxy_service.go and internal/handler/proxy_handler.go -/

namespace service

/-- The struct `ProxyService`: its `routingTable` from customer to agent. The
cache, the registry, the sockets and the traffic of the agent connection are
arguments of the methods. -/
structure ProxyService where
  routingTable : List (String × String)
deriving DecidableEq, Repr

/-- The struct `ProxyResponse` of the service. -/
structure ProxyResponse where
  StatusCode : Int
  Headers : List (String × List String)
  Body : String
deriving DecidableEq, Repr

/-- The parts of `http.Request` that `ForwardRequest` reads. -/
structure HttpRequest where
  Method : String
  Path : String
  Header : List (String × List String)
  Body : String
deriving DecidableEq, Repr

/-- The struct `http.Response`: `Body` is what a read of the body to its end
gives, so `http.NoBody` is the empty string. -/
structure HttpResponse where
  StatusCode : Int
  Header : List (String × List String)
  Body : String
deriving DecidableEq, Repr

/-- `getProxyConfig`; `now` is the time of the cache read. -/
def getProxyConfig (unmarshal : String → Option models.ProxyConfig) (c : cache.RedisCache)
    (customerID : String) (now : Time) : Except String models.ProxyConfig :=
  match cache.GetProxyConfig unmarshal c customerID now with
  | some config => Except.ok config
  | none => Except.error "proxy configuration not found"

/-- `getAgentForCustomer`. -/
def getAgentForCustomer (s : ProxyService) (customerID : String) : Except String String :=
  match s.routingTable.lookup customerID with
  | some agentID => Except.ok agentID
  | none => Except.error "no agent found for customer"

/-- `createHTTPResponse`. -/
def createHTTPResponse (proxyResp : ProxyResponse) : HttpResponse :=
  { StatusCode := proxyResp.StatusCode, Header := proxyResp.Headers, Body := "" }

/-- `ForwardRequest` for the customer `customerID` of the request context; `now`
is the time of the cache read and `wire` the traffic of the connection of the
customer's agent. The traffic afterwards and the result. -/
def ForwardRequest (s : ProxyService) (unmarshal : String → Option models.ProxyConfig)
    (c : cache.RedisCache) (am : agent.AgentManager) (w : websocket.Sockets) (wire : agent.Wire)
    (req : HttpRequest) (customerID : String) (now : Time) :
    agent.Wire × Except String HttpResponse :=
  match getProxyConfig unmarshal c customerID now with
  | Except.error err => (wire, Except.error ("failed to get proxy config: " ++ err))
  | Except.ok _ =>
    match getAgentForCustomer s customerID with
    | Except.error err => (wire, Except.error ("failed to get agent: " ++ err))
    | Except.ok agentID =>
      let proxyReq : agent.ProxyRequest :=
        { Method := req.Method, Path := req.Path, Headers := req.Header, Body := "",
          CustomerID := customerID }
      match agent.RouteRequest am w wire agentID proxyReq with
      | (wire1, Except.error err) =>
        (wire1, Except.error ("failed to forward request: " ++ err))
      | (wire1, Except.ok response) =>
        let localResponse : ProxyResponse :=
          { StatusCode := response.StatusCode, Headers := response.Headers,
            Body := response.Body }
        (wire1, Except.ok (createHTTPResponse localResponse))

end service

namespace handler

/-- What `HandleRequest` writes to the caller: the status, the headers (gin's
`c.Header` keeps the last value of a key and drops an empty one) and the
body. -/
structure Reply where
  Status : Int
  Header : List (String × String)
  Body : String
deriving DecidableEq, Repr

/-- How `HandleRequest` ends: it returns after writing a reply, or it panics
with a message. -/
inductive Ending where
  | replied (reply : Reply)
  | panicked (message : String)
deriving DecidableEq, Repr

/-- The reply `c.JSON(500, ...)` on a failed read of the proxy configuration. -/
def configErrorReply : Reply :=
  { Status := 500, Header := [],
    Body := "\x7b\"error\":\"failed to get proxy configuration\"\x7d" }

/-- The reply `c.JSON(502, ...)` on a failed `ForwardRequest`. -/
def forwardErrorReply : Reply :=
  { Status := 502, Header := [], Body := "\x7b\"error\":\"proxy request failed\"\x7d" }

/-- The panic of the type assertion `ctx.Value("customer_id").(string)` on a
context that holds no such value. -/
def errNilAssertion : String := "interface conversion: interface \x7b\x7d is nil, not string"

/-- `HandleRequest` of `ProxyHandler`; `tHandler` and `tForward` are the times
of the cache reads of the handler and of `ForwardRequest`. `customerID` is
`c.GetString("customer_id")`. `ForwardRequest` is given `c.Request.Context()`
and reads its customer from it with an unchecked type assertion:
`ctxCustomerID` is the string that this context holds under `customer_id`,
`none` when it holds none, in which case the assertion panics. No code of the
repository puts the value there. `c.Status(code)` keeps the status 200 of the
writer unless `code > 0`. -/
def HandleRequest (s : service.ProxyService) (unmarshal : String → Option models.ProxyConfig)
    (c : cache.RedisCache) (am : agent.AgentManager) (w : websocket.Sockets) (wire : agent.Wire)
    (req : service.HttpRequest) (customerID : String) (ctxCustomerID : Option String)
    (tHandler tForward : Time) : agent.Wire × Ending :=
  match cache.GetProxyConfig unmarshal c customerID tHandler with
  | none =>
    (wire, Ending.replied configErrorReply)
  | some _ =>
    match ctxCustomerID with
    | none => (wire, Ending.panicked errNilAssertion)
    | some forwarded =>
      match service.ForwardRequest s unmarshal c am w wire req forwarded tForward with
      | (wire1, Except.error _) =>
        (wire1, Ending.replied forwardErrorReply)
      | (wire1, Except.ok resp) =>
        (wire1, Ending.replied
          { Status := if resp.StatusCode > 0 then resp.StatusCode else 200,
            Header := resp.Header.filterMap (fun kv =>
              match kv.2.getLast? with
              | some v => if v = "" then none else some (kv.1, v)
              | none => none),
            Body := resp.Body })

end handler

/-! ### Sample data for the registry and the forwarding path -/

namespace agent

/-- A registry with no agent. -/
def emptyManager : AgentManager := { connections := [] }

/-- No connection closed yet. -/
def noSockets : websocket.Sockets := { closed := [] }

/-- The record that `HandleConnection` makes at time `now` for agent `A1` of
customer `C1` on the connection `conn`. -/
def recordOf (conn : websocket.Conn) (now : Time) : models.AgentConnection :=
  { ID := "A1", CustomerID := "C1", Conn := conn, StartTime := now, LastPing := now }

/-- The entry that `RegisterAgent` makes at time `now` for agent `A1` of
customer `C1` on the connection `conn`. -/
def entryOf (conn : websocket.Conn) (now : Time) : AgentConnection :=
  { AgentID := "A1", CustomerID := "C1", Connection := conn, Status := "connected",
    LastPing := now }

/-- The registry after agent `A1` of customer `C1` has registered at time 0 on
connection 1. -/
def registeredOnce : AgentManager := { connections := [("A1", entryOf 1 0)] }

/-- The registry after `A1` has registered again at time 10 on connection 2. -/
def registeredTwice : AgentManager := { connections := [("A1", entryOf 2 10)] }

/-- The sockets after the second registration: connection 1 is closed. -/
def firstClosed : websocket.Sockets := { closed := [1] }

/-- The answer of the agent: status 200, one header, the body `hello`. -/
def sampleResponse : ProxyResponse :=
  { StatusCode := 200, Headers := [("Content-Type", ["text/plain"])], Body := "hello" }

/-- The request that `ForwardRequest` writes for `GET /api/users` of `C1`. -/
def sampleProxyRequest : ProxyRequest :=
  { Method := "GET", Path := "/api/users", Headers := [], Body := "", CustomerID := "C1" }

end agent

namespace service

/-- A proxy service that routes customer `C1` to agent `A1`. -/
def sampleProxy : ProxyService := { routingTable := [("C1", "A1")] }

/-- The proxy configuration of customer `C1`. -/
def sampleProxyConfig : models.ProxyConfig :=
  { ID := "P1", CustomerID := "C1", TargetURL := "http://localhost:8080", Headers := [],
    RateLimit := 100, Timeout := 30, RetryCount := 3, CacheEnabled := false,
    TunnelEnabled := true }

/-- A stand-in for `json.Unmarshal` that decodes `config:C1`. -/
def sampleUnmarshal (data : String) : Option models.ProxyConfig :=
  if data = "config:C1" then some sampleProxyConfig else none

/-- A cache that holds the proxy configuration of `C1`, without expiry. -/
def configCache : cache.RedisCache :=
  { entries := [{ key := "proxy_config:C1", data := "config:C1", expiresAt := none }] }

/-- The request `GET /api/users`. -/
def sampleHttpRequest : HttpRequest :=
  { Method := "GET", Path := "/api/users", Header := [], Body := "" }

end service

namespace agent

/-- The registry and the sockets after two registrations of the same agent
identifier for the same customer, on `conn1` at `t1` and then on `conn2` at
`t2`. -/
def registerTwice (am : AgentManager) (w : websocket.Sockets) (agentID customerID : String)
    (conn1 conn2 : websocket.Conn) (t1 t2 : Time) : AgentManager × websocket.Sockets :=
  ((RegisterAgent (RegisterAgent am w agentID customerID conn1 t1).1
      (RegisterAgent am w agentID customerID conn1 t1).2.1 agentID customerID conn2 t2).1,
    (RegisterAgent (RegisterAgent am w agentID customerID conn1 t1).1
      (RegisterAgent am w agentID customerID conn1 t1).2.1 agentID customerID conn2 t2).2.1)

end agent

/-! ## IEEE 754 binary64, the `float64` of Go

A `float64` is a finite value, an infinity or a NaN. A finite value is held as
the rational it denotes; the two zeros are one value, which no operation used
here tells apart (there is no division by a variable). Every operation is the
exact operation followed by rounding to nearest, ties to even. -/

namespace float64

/-- A `float64`. -/
inductive F64 where
  | finite (q : ℚ)
  | inf (negative : Bool)
  | nan
deriving DecidableEq, Repr

/-- Rounding of a non-negative rational to an integer, ties to even. -/
def roundHalfEven (s : ℚ) : ℤ :=
  if s - ⌊s⌋ < 1 / 2 then ⌊s⌋
  else if s - ⌊s⌋ > 1 / 2 then ⌊s⌋ + 1
  else if ⌊s⌋ % 2 = 0 then ⌊s⌋ else ⌊s⌋ + 1

/-- The exponent of the last place of the 53-bit significand at the magnitude
of `q`: 52 below the binary exponent of `q`, and not below the one of the
subnormal numbers. -/
def lastPlace (q : ℚ) : ℤ := max (Int.log 2 |q| - 52) (-1074)

/-- Rounding of an exact value to the nearest `float64`, ties to even; a
magnitude that rounds to `2 ^ 1024` or more overflows to an infinity. -/
def nearest (q : ℚ) : F64 :=
  if q = 0 then F64.finite 0
  else if (roundHalfEven (|q| / 2 ^ lastPlace q) : ℚ) * 2 ^ lastPlace q ≥ 2 ^ (1024 : ℤ) then
    F64.inf (decide (q < 0))
  else if q < 0 then F64.finite (-((roundHalfEven (|q| / 2 ^ lastPlace q) : ℚ) * 2 ^ lastPlace q))
  else F64.finite ((roundHalfEven (|q| / 2 ^ lastPlace q) : ℚ) * 2 ^ lastPlace q)

/-- The conversion `float64(n)` of an integer. -/
def ofInt (n : Int) : F64 := nearest n

/-- The negation `-x`. -/
def neg : F64 → F64
  | F64.finite q => F64.finite (-q)
  | F64.inf s => F64.inf (!s)
  | F64.nan => F64.nan

/-- The sum `x + y`. -/
def add : F64 → F64 → F64
  | F64.finite a, F64.finite b => nearest (a + b)
  | F64.nan, _ => F64.nan
  | _, F64.nan => F64.nan
  | F64.inf s, F64.inf t => if s = t then F64.inf s else F64.nan
  | F64.inf s, F64.finite _ => F64.inf s
  | F64.finite _, F64.inf t => F64.inf t

/-- The difference `x - y`. -/
def sub (x y : F64) : F64 := add x (neg y)

/-- The product `x * y`. -/
def mul : F64 → F64 → F64
  | F64.finite a, F64.finite b => nearest (a * b)
  | F64.nan, _ => F64.nan
  | _, F64.nan => F64.nan
  | F64.inf s, F64.inf t => F64.inf (xor s t)
  | F64.inf s, F64.finite b => if b = 0 then F64.nan else F64.inf (xor s (decide (b < 0)))
  | F64.finite a, F64.inf t => if a = 0 then F64.nan else F64.inf (xor (decide (a < 0)) t)

/-- The fused multiply-add `x * y + z`, rounded once. -/
def fma : F64 → F64 → F64 → F64
  | F64.finite a, F64.finite b, F64.finite c => nearest (a * b + c)
  | F64.finite _, F64.finite _, c => c
  | a, b, c => add (mul a b) c

/-- The comparison `x < y`; a comparison with a NaN is false. -/
def lt : F64 → F64 → Bool
  | F64.finite a, F64.finite b => decide (a < b)
  | F64.nan, _ => false
  | _, F64.nan => false
  | F64.inf s, F64.inf t => s && !t
  | F64.inf s, F64.finite _ => s
  | F64.finite _, F64.inf t => !t

/-- The comparison `x > y`. -/
def gt (x y : F64) : Bool := lt y x

end float64

/-! ## pkg/validator/request_validator.go in `float64`

The token bucket with its fields in `float64` and its clock in nanoseconds:
a `time.Time` from `time.Now()` is its monotonic reading, an `int64`. -/

namespace validator

namespace binary64

open float64

/-- `t.Sub(u)` on two monotonic readings: the difference, saturated to the
range of a `time.Duration`. -/
def Sub (t u : Int) : Int := max (-(2 ^ 63)) (min (2 ^ 63 - 1) (t - u))

/-- `Duration.Seconds`: `float64(sec) + float64(nsec)/1e9` with `sec = d / 1e9`
and `nsec = d % 1e9`, both truncated towards zero; `float64(nsec)` is exact. -/
def Seconds (d : Int) : F64 :=
  add (ofInt (Int.tdiv d 1000000000)) (nearest ((Int.tmod d 1000000000 : ℚ) / 1000000000))

/-- The struct `RateLimiter` without its mutex. -/
structure RateLimiter where
  tokens : F64
  capacity : F64
  refillRate : F64
  lastRefill : Int
deriving DecidableEq, Repr

/-- `NewRateLimiter`; `now` is its `time.Now()`. -/
def NewRateLimiter (capacity refillRate : F64) (now : Int) : RateLimiter :=
  { tokens := capacity, capacity := capacity, refillRate := refillRate, lastRefill := now }

/-- The token count of `Allow` after `rl.tokens += elapsed * rl.refillRate` and
the cap. The compiler may fuse the product and the sum into one rounding, as
it does on arm64: `fused` says whether it has. -/
def cappedTokens (fused : Bool) (rl : RateLimiter) (now : Int) : F64 :=
  let elapsed := Seconds (Sub now rl.lastRefill)
  let refilled :=
    if fused then fma elapsed rl.refillRate rl.tokens
    else add rl.tokens (mul elapsed rl.refillRate)
  if gt refilled rl.capacity then rl.capacity else refilled

/-- `Allow`; `now` is its `time.Now()`. -/
def Allow (fused : Bool) (rl : RateLimiter) (now : Int) : RateLimiter × Bool :=
  if lt (cappedTokens fused rl now) (F64.finite 1) then
    ({ rl with tokens := cappedTokens fused rl now }, false)
  else
    ({ rl with tokens := sub (cappedTokens fused rl now) (F64.finite 1), lastRefill := now },
      true)

/-- Consecutive `Allow` calls at the given instants: the limiter and the
answer after each call. -/
def allowSeq (fused : Bool) (rl : RateLimiter) : List Int → List (RateLimiter × Bool)
  | [] => []
  | t :: ts => Allow fused rl t :: allowSeq fused (Allow fused rl t).1 ts

end binary64

end validator

/-! ### Sample data for overlapping calls of the circuit breaker -/

namespace circuitbreaker

/-- A breaker of threshold 2 and cool-down 30 that two failures, at 2 s and at
4 s, have opened, after the success at 5 s of a call that was admitted before
them: the success has reset the failure count. -/
def openAfterOverlap : CircuitBreaker :=
  { failures := 0, lastFailure := 4, state := "open", maxFailures := 2, timeout := 30 }

end circuitbreaker

/-! ## Properties of the circuit breaker -/

namespace circuitbreaker

/-- A call on a breaker that is not open runs `cmd` and then the bookkeeping. -/
theorem Execute_of_not_open {σ : Type} (cb : CircuitBreaker) (tCheck tDone : Time)
    (cmd : σ → σ × Option String) (w : σ) (h : cb.state ≠ "open") :
    Execute cb tCheck tDone cmd w =
      { cb := (settle cb (cmd w).2 tDone).1, world := (cmd w).1,
        err := (settle cb (cmd w).2 tDone).2 } := by
  simp [Execute, admission, h]

/-- A failing call on a closed breaker below the threshold. -/
theorem Execute_closed_fail_below {σ : Type} (cb : CircuitBreaker) (tCheck tDone : Time)
    (cmd : σ → σ × Option String) (w : σ) (e : String) (hs : cb.state = "closed")
    (he : (cmd w).2 = some e) (hlt : cb.failures + 1 < cb.maxFailures) :
    Execute cb tCheck tDone cmd w =
      { cb := { cb with failures := cb.failures + 1, lastFailure := tDone },
        world := (cmd w).1, err := some e } := by
  have hne : cb.state ≠ "open" := by rw [hs]; decide
  have hn : ¬ cb.maxFailures ≤ cb.failures + 1 := by omega
  rw [Execute_of_not_open cb tCheck tDone cmd w hne, he]
  simp [settle, hn]

/-- A failing call that reaches the threshold opens the breaker. -/
theorem Execute_fail_reach {σ : Type} (cb : CircuitBreaker) (tCheck tDone : Time)
    (cmd : σ → σ × Option String) (w : σ) (e : String) (hs : cb.state ≠ "open")
    (he : (cmd w).2 = some e) (hge : cb.maxFailures ≤ cb.failures + 1) :
    Execute cb tCheck tDone cmd w =
      { cb := { cb with failures := cb.failures + 1, lastFailure := tDone, state := "open" },
        world := (cmd w).1, err := some e } := by
  rw [Execute_of_not_open cb tCheck tDone cmd w hs, he]
  simp [settle, hge]

/-- A successful call on a closed breaker. -/
theorem Execute_closed_ok {σ : Type} (cb : CircuitBreaker) (tCheck tDone : Time)
    (cmd : σ → σ × Option String) (w : σ) (hs : cb.state = "closed")
    (he : (cmd w).2 = none) :
    Execute cb tCheck tDone cmd w =
      { cb := { cb with failures := 0 }, world := (cmd w).1, err := none } := by
  have hne : cb.state ≠ "open" := by rw [hs]; decide
  have hh : cb.state ≠ "half-open" := by rw [hs]; decide
  rw [Execute_of_not_open cb tCheck tDone cmd w hne, he]
  simp [settle, hh]

/-- The early return of `Execute`: open and not past the cool-down. -/
theorem Execute_open_within {σ : Type} (cb : CircuitBreaker) (tCheck tDone : Time)
    (cmd : σ → σ × Option String) (w : σ) (hs : cb.state = "open")
    (ht : ¬ cb.timeout < tCheck - cb.lastFailure) :
    Execute cb tCheck tDone cmd w = { cb := cb, world := w, err := some ErrCircuitOpen } := by
  simp [Execute, admission, hs, ht]

/-- C2: on an open breaker whose last failure is at most `timeout` ago,
`Execute` returns `ErrCircuitOpen`, does not run the wrapped function (the
world is untouched) and leaves the breaker as it was. -/
theorem Execute_open_short_circuits {σ : Type} (cb : CircuitBreaker) (tCheck tDone : Time)
    (cmd : σ → σ × Option String) (w : σ) (hs : GetState cb = StateOpen)
    (ht : tCheck - cb.lastFailure ≤ cb.timeout) :
    Execute cb tCheck tDone cmd w = { cb := cb, world := w, err := some ErrCircuitOpen } := by
  have hs1 : cb.state = "open" := hs
  have hn : ¬ cb.timeout < tCheck - cb.lastFailure := not_lt.mpr ht
  simp [Execute, admission, hs1, hn]

/-- C2 on a breaker opened at time 10 with cool-down 30, called at time 40,
exactly `timeout` after the failure. -/
theorem Execute_open_short_circuits_witness :
    Execute openedAtTen 40 41 passingCall.cmd 0 =
      { cb := openedAtTen,
        world := 0, err := some ErrCircuitOpen } :=
  Execute_open_short_circuits _ 40 41 passingCall.cmd 0 rfl (by norm_num [openedAtTen])

/-- C3: on an open breaker whose cool-down has elapsed, `Execute` runs the
wrapped function, and when that succeeds it returns `nil`, closes the breaker
and resets the failure count to 0. -/
theorem Execute_open_elapsed_success {σ : Type} (cb : CircuitBreaker) (tCheck tDone : Time)
    (cmd : σ → σ × Option String) (w : σ) (hs : GetState cb = StateOpen)
    (ht : tCheck - cb.lastFailure > cb.timeout) :
    (Execute cb tCheck tDone cmd w).world = (cmd w).1 ∧
      ((cmd w).2 = none →
        (Execute cb tCheck tDone cmd w).err = none ∧
          GetState (Execute cb tCheck tDone cmd w).cb = StateClosed ∧
          (Execute cb tCheck tDone cmd w).cb.failures = 0 ∧
          (Execute cb tCheck tDone cmd w).cb =
            { cb with state := "closed", failures := 0 }) := by
  have hs1 : cb.state = "open" := hs
  have ht1 : cb.timeout < tCheck - cb.lastFailure := ht
  refine ⟨by simp [Execute, admission, hs1, ht1], ?_⟩
  intro hok
  simp [Execute, admission, hs1, ht1, hok, settle, GetState, StateClosed]

/-- C3 on a breaker opened at time 10 with cool-down 30, called at time 41
with a function that succeeds. -/
theorem Execute_open_elapsed_success_witness :
    (Execute openedAtTen 41 42 passingCall.cmd 0).world = 1 ∧
      (Execute openedAtTen 41 42 passingCall.cmd 0).err = none ∧
      GetState (Execute openedAtTen 41 42 passingCall.cmd 0).cb = StateClosed ∧
      (Execute openedAtTen 41 42 passingCall.cmd 0).cb.failures = 0 :=
  have h := Execute_open_elapsed_success openedAtTen 41 42 passingCall.cmd 0 rfl
    (by norm_num [openedAtTen])
  ⟨h.1, (h.2 rfl).1, (h.2 rfl).2.1, (h.2 rfl).2.2.1⟩

/-- Failing calls on a closed breaker that reach the threshold with the last
call: all of them run, and the breaker opens with the last and not before. -/
theorem executeSeq_fail_to_threshold {σ : Type} (calls : List (Call σ)) :
    ∀ (cb : CircuitBreaker) (w : σ), cb.state = "closed" → calls ≠ [] →
      cb.failures + calls.length = cb.maxFailures →
      (∀ p ∈ invokeSeq w calls, p.2 ≠ none) →
      (executeSeq cb w calls).map (fun r => (r.world, r.err)) = invokeSeq w calls ∧
        (executeSeq cb w calls).map (fun r => GetState r.cb) =
          List.replicate (calls.length - 1) StateClosed ++ [StateOpen] := by
  induction calls with
  | nil => intro cb w _ hne; exact absurd rfl hne
  | cons c cs ih =>
    intro cb w hs _ hlen hfail
    have hc : (c.cmd w).2 ≠ none := hfail (c.cmd w) (by simp [invokeSeq])
    obtain ⟨e, he⟩ := Option.ne_none_iff_exists'.mp hc
    have hne : cb.state ≠ "open" := by rw [hs]; decide
    by_cases hcs : cs = []
    · subst hcs
      have hge : cb.maxFailures ≤ cb.failures + 1 := by simp at hlen; omega
      simp [executeSeq, invokeSeq, Execute_fail_reach cb c.tCheck c.tDone c.cmd w e hne he hge,
        GetState, StateOpen, ← he]
    · have hpos : 0 < cs.length := List.length_pos.mpr hcs
      have hlt : cb.failures + 1 < cb.maxFailures := by
        simp only [List.length_cons, Nat.cast_add, Nat.cast_one] at hlen; omega
      have hstep := Execute_closed_fail_below cb c.tCheck c.tDone c.cmd w e hs he hlt
      have hrec := ih { cb with failures := cb.failures + 1, lastFailure := c.tDone }
        (c.cmd w).1 hs hcs
        (by simp only [List.length_cons, Nat.cast_add, Nat.cast_one] at hlen; simpa using by omega)
        (fun p hp => hfail p (by simp [invokeSeq, hp]))
      have hrep : List.replicate (cs.length + 1 - 1) StateClosed =
          StateClosed :: List.replicate (cs.length - 1) StateClosed := by
        rw [Nat.add_sub_cancel, ← List.replicate_succ]
        congr 1; omega
      simp only [executeSeq, invokeSeq, hstep, List.map_cons, List.length_cons, hrep,
        List.cons_append]
      refine ⟨?_, ?_⟩
      · rw [hrec.1, ← he]
      · rw [hrec.2]; simp [GetState, hs, StateClosed]

/-- C1: from a fresh breaker of threshold `n ≥ 1`, `n` consecutive `Execute`
calls whose wrapped function fails each run the function and return its error
(worlds and errors are those of the unguarded runs), and `GetState` is closed
after each of the first `n - 1` calls and open after the `n`-th. -/
theorem threshold_failures_open {σ : Type} (n : Nat) (hn : 1 ≤ n) (timeout : Duration)
    (w : σ) (calls : List (Call σ)) (hlen : calls.length = n)
    (hfail : ∀ p ∈ invokeSeq w calls, p.2 ≠ none) :
    (executeSeq (NewCircuitBreaker n timeout) w calls).map (fun r => (r.world, r.err)) =
        invokeSeq w calls ∧
      (executeSeq (NewCircuitBreaker n timeout) w calls).map (fun r => GetState r.cb) =
        List.replicate (n - 1) StateClosed ++ [StateOpen] := by
  have hne : calls ≠ [] := by
    intro h; rw [h] at hlen; simp at hlen; omega
  have h := executeSeq_fail_to_threshold calls (NewCircuitBreaker n timeout) w rfl hne
    (by simp [NewCircuitBreaker, hlen]) hfail
  rw [hlen] at h
  exact h

/-- C1 at threshold 2 with two failing calls. -/
theorem threshold_failures_open_witness :
    (executeSeq (NewCircuitBreaker (2 : Nat) 30) 0 [failingCall, failingCall]).map
        (fun r => (r.world, r.err)) = invokeSeq 0 [failingCall, failingCall] ∧
      (executeSeq (NewCircuitBreaker (2 : Nat) 30) 0 [failingCall, failingCall]).map
        (fun r => GetState r.cb) = List.replicate (2 - 1) StateClosed ++ [StateOpen] :=
  threshold_failures_open 2 (by decide) 30 0 [failingCall, failingCall] rfl
    (by simp [invokeSeq, failingCall])

/-- What holds of every breaker reached by complete calls: the configuration is
kept, the counter is not negative, and an open breaker has its counter at or
above the threshold. -/
theorem Reached.inv {n : Int} {timeout : Duration} {cb : CircuitBreaker}
    (h : Reached n timeout cb) :
    cb.maxFailures = n ∧ cb.timeout = timeout ∧ 0 ≤ cb.failures ∧
      (cb.state = "open" → cb.maxFailures ≤ cb.failures) := by
  induction h with
  | fresh => simp [NewCircuitBreaker]
  | call cb tCheck tDone cmd w _ ih =>
    obtain ⟨h1, h2, h3, h4⟩ := ih
    simp only [Execute, admission, settle]
    split_ifs <;> rcases hc : (cmd w).2 with _ | e <;> simp_all <;> split_ifs <;>
      simp_all <;> omega

/-- C4, amended: for a breaker that reached open through complete `Execute`
calls, none overlapping another, and whose cool-down has elapsed, a failing trial call runs, returns its error,
leaves the breaker open with the last-failure timestamp at the time of this
failure, and every call within `timeout` of that instant is short-circuited
without running its function. -/
theorem trial_failure_reopens {σ τ : Type} (n : Int) (timeout : Duration)
    (cb : CircuitBreaker) (hr : Reached n timeout cb) (hs : GetState cb = StateOpen)
    (tCheck tDone : Time) (ht : tCheck - cb.lastFailure > cb.timeout)
    (cmd : σ → σ × Option String) (w : σ) (e : String) (he : (cmd w).2 = some e) :
    (Execute cb tCheck tDone cmd w).world = (cmd w).1 ∧
      (Execute cb tCheck tDone cmd w).err = some e ∧
      GetState (Execute cb tCheck tDone cmd w).cb = StateOpen ∧
      (Execute cb tCheck tDone cmd w).cb.lastFailure = tDone ∧
      ∀ (t t2 : Time) (cmd2 : τ → τ × Option String) (w2 : τ), t - tDone ≤ timeout →
        Execute (Execute cb tCheck tDone cmd w).cb t t2 cmd2 w2 =
          { cb := (Execute cb tCheck tDone cmd w).cb, world := w2,
            err := some ErrCircuitOpen } := by
  obtain ⟨_, h2, _, h4⟩ := hr.inv
  have hs1 : cb.state = "open" := hs
  have ht1 : cb.timeout < tCheck - cb.lastFailure := ht
  have hge : cb.maxFailures ≤ cb.failures + 1 := by have := h4 hs1; omega
  have hex : Execute cb tCheck tDone cmd w =
      { cb := { cb with failures := cb.failures + 1, lastFailure := tDone, state := "open" },
        world := (cmd w).1, err := some e } := by
    simp [Execute, admission, hs1, ht1, he, settle, hge]
  rw [hex]
  refine ⟨rfl, rfl, rfl, rfl, ?_⟩
  intro t t2 cmd2 w2 hle
  exact Execute_open_within _ t t2 cmd2 w2 rfl (not_lt.mpr (by simpa [h2] using hle))

/-- C4 amended, on the breaker of threshold 1 opened by one failure at time 0, tried
again at time 31 with cool-down 30. -/
theorem trial_failure_reopens_witness :
    GetState (Execute (Execute (NewCircuitBreaker 1 30) 0 0 failingCall.cmd 0).cb 31 32
        failingCall.cmd 1).cb = StateOpen ∧
      (Execute (Execute (NewCircuitBreaker 1 30) 0 0 failingCall.cmd 0).cb 31 32
        failingCall.cmd 1).cb.lastFailure = 32 :=
  have h := trial_failure_reopens (τ := Nat) 1 30
    (Execute (NewCircuitBreaker 1 30) 0 0 failingCall.cmd 0).cb
    (Reached.call _ 0 0 failingCall.cmd 0 Reached.fresh)
    (by simp [Execute, admission, settle, NewCircuitBreaker, failingCall, GetState, StateOpen])
    31 32
    (by simp [Execute, admission, settle, NewCircuitBreaker, failingCall]; norm_num)
    failingCall.cmd 1 "upstream failed" rfl
  ⟨h.2.2.1, h.2.2.2.1⟩

/-- On a closed breaker with `f` failures counted, calls whose outcomes,
preceded by those `f` failures, contain no `n` failures in a row all run their
function and leave the breaker closed after every call. -/
theorem executeSeq_stays_closed {σ : Type} (n : Nat) (calls : List (Call σ)) :
    ∀ (cb : CircuitBreaker) (w : σ) (f : Nat), cb.state = "closed" → cb.failures = f →
      cb.maxFailures = n →
      ¬ (List.replicate n true <:+:
          List.replicate f true ++ ((invokeSeq w calls).map (fun p => p.2)).map Option.isSome) →
      (executeSeq cb w calls).map (fun r => (r.world, r.err)) = invokeSeq w calls ∧
        ∀ r ∈ executeSeq cb w calls, GetState r.cb = StateClosed := by
  induction calls with
  | nil => intro cb w f _ _ _ _; simp [executeSeq, invokeSeq]
  | cons c cs ih =>
    intro cb w f hs hf hm hno
    rcases hc : (c.cmd w).2 with _ | e
    · have hstep := Execute_closed_ok cb c.tCheck c.tDone c.cmd w hs hc
      have hrec := ih { cb with failures := 0 } (c.cmd w).1 0 hs rfl hm (by
        intro hin
        apply hno
        refine hin.trans (List.IsSuffix.isInfix ?_)
        simp only [invokeSeq, List.map_cons, List.replicate_zero, List.nil_append]
        exact (List.suffix_cons _ _).trans (List.suffix_append _ _))
      simp only [executeSeq, invokeSeq, hstep, List.map_cons, List.mem_cons]
      refine ⟨by rw [hrec.1, ← hc], ?_⟩
      intro r hr
      rcases hr with hr | hr
      · rw [hr]; exact hs
      · exact hrec.2 r hr
    · have hlt : cb.failures + 1 < cb.maxFailures := by
        by_contra hge
        apply hno
        have hle : n ≤ f + 1 := by rw [hf, hm] at hge; omega
        have h1 : List.replicate n true <:+: List.replicate (f + 1) true := by
          obtain ⟨k, hk⟩ := Nat.exists_eq_add_of_le hle
          rw [hk, List.replicate_add]
          exact (List.prefix_append _ _).isInfix
        refine h1.trans (List.IsPrefix.isInfix ?_)
        simp only [invokeSeq, List.map_cons, hc, Option.isSome_some]
        rw [List.replicate_add f 1 true]
        simp
      have hstep := Execute_closed_fail_below cb c.tCheck c.tDone c.cmd w e hs hc hlt
      have hrec := ih { cb with failures := cb.failures + 1, lastFailure := c.tDone }
        (c.cmd w).1 (f + 1) hs (by simp [hf]) hm (by
        intro hin
        apply hno
        simp only [invokeSeq, List.map_cons, hc, Option.isSome_some]
        rw [List.replicate_add f 1 true] at hin
        simpa using hin)
      simp only [executeSeq, invokeSeq, hstep, List.map_cons, List.mem_cons]
      refine ⟨by rw [hrec.1, ← hc], ?_⟩
      intro r hr
      rcases hr with hr | hr
      · rw [hr]; exact hs
      · exact hrec.2 r hr

/-- C6: a successful `Execute` on a closed breaker runs the function, keeps the
breaker closed and resets the failure count to 0; and from a fresh breaker of
threshold `n`, a sequence of calls whose outcomes contain no `n` failures in a
row has every call run and returned as it is, and leaves the breaker closed
after every call (for `n = 0` no sequence qualifies, so this is about
`n ≥ 1`). -/
theorem only_consecutive_failures_open {σ : Type} (n : Nat) (timeout : Duration) :
    (∀ (cb : CircuitBreaker) (tCheck tDone : Time) (cmd : σ → σ × Option String) (w : σ),
        GetState cb = StateClosed → (cmd w).2 = none →
        (Execute cb tCheck tDone cmd w).cb.failures = 0 ∧
          GetState (Execute cb tCheck tDone cmd w).cb = StateClosed ∧
          (Execute cb tCheck tDone cmd w).world = (cmd w).1 ∧
          (Execute cb tCheck tDone cmd w).err = none) ∧
      (∀ (w : σ) (calls : List (Call σ)),
        noFailureRun n ((invokeSeq w calls).map (fun p => p.2)) →
        (executeSeq (NewCircuitBreaker n timeout) w calls).map (fun r => (r.world, r.err)) =
            invokeSeq w calls ∧
          ∀ r ∈ executeSeq (NewCircuitBreaker n timeout) w calls,
            GetState r.cb = StateClosed) := by
  refine ⟨?_, ?_⟩
  · intro cb tCheck tDone cmd w hs hok
    rw [Execute_closed_ok cb tCheck tDone cmd w hs hok]
    exact ⟨rfl, hs, rfl, rfl⟩
  · intro w calls hno
    exact executeSeq_stays_closed n calls (NewCircuitBreaker n timeout) w 0 rfl rfl rfl
      (by simpa [noFailureRun] using hno)

/-- C6 at threshold 2 on the outcomes failure, success, failure. -/
theorem only_consecutive_failures_open_witness :
    ∀ r ∈ executeSeq (NewCircuitBreaker (2 : Nat) 30) 0 [failingCall, passingCall, failingCall],
      GetState r.cb = StateClosed :=
  ((only_consecutive_failures_open 2 30).2 0 [failingCall, passingCall, failingCall]
    (by simp [noFailureRun, invokeSeq, failingCall, passingCall]; decide)).2

/-- C5, refuted: threshold 1, cool-down 30. A call arrives at 0 and fails at 1
(open); a call arrives at 32 and is admitted as the trial call (half-open);
while it is still running a second call arrives at 33. The breaker is
half-open with two wrapped calls in flight, and `Execute` at 33 runs its
function instead of returning `ErrCircuitOpen`. -/
theorem half_open_two_in_flight :
    GetState (run { cb := NewCircuitBreaker 1 30, inFlight := 0 }
        [Event.arrive 0, Event.finish (some "upstream failed") 1, Event.arrive 32,
          Event.arrive 33]).cb = StateHalfOpen ∧
      (run { cb := NewCircuitBreaker 1 30, inFlight := 0 }
        [Event.arrive 0, Event.finish (some "upstream failed") 1, Event.arrive 32,
          Event.arrive 33]).inFlight = 2 ∧
      (Execute (run { cb := NewCircuitBreaker 1 30, inFlight := 0 }
        [Event.arrive 0, Event.finish (some "upstream failed") 1, Event.arrive 32]).cb
        33 34 passingCall.cmd 0).world = 1 ∧
      (Execute (run { cb := NewCircuitBreaker 1 30, inFlight := 0 }
        [Event.arrive 0, Event.finish (some "upstream failed") 1, Event.arrive 32]).cb
        33 34 passingCall.cmd 0).err ≠ some ErrCircuitOpen := by
  have h : (32 : ℚ) - 1 > 30 := by norm_num
  simp [run, step, admission, settle, NewCircuitBreaker, GetState, StateHalfOpen, Execute,
    passingCall, h]

/-- C5, amended: admission in the half-open state is unconditional. Every call
that arrives while the state is half-open is admitted, with the breaker
unchanged, whatever the number of calls in flight, and `Execute` on a
half-open breaker runs its wrapped function and returns its outcome. -/
theorem half_open_admits_every_call {σ : Type} (s : Sys) (now tDone : Time)
    (cmd : σ → σ × Option String) (w : σ) (hs : GetState s.cb = StateHalfOpen) :
    step s (Event.arrive now) = { cb := s.cb, inFlight := s.inFlight + 1 } ∧
      (Execute s.cb now tDone cmd w).world = (cmd w).1 ∧
      (Execute s.cb now tDone cmd w).err = (cmd w).2 := by
  have hs1 : s.cb.state = "half-open" := hs
  have hne : s.cb.state ≠ "open" := by rw [hs1]; decide
  refine ⟨by simp [step, admission, hne], ?_⟩
  rw [Execute_of_not_open s.cb now tDone cmd w hne]
  rcases (cmd w).2 with _ | e <;> simp [settle]

/-- C5 amended, on a half-open breaker that already has one call in flight. -/
theorem half_open_admits_every_call_witness :
    step { cb := { NewCircuitBreaker 1 30 with state := "half-open" }, inFlight := 1 }
        (Event.arrive 33) =
      { cb := { NewCircuitBreaker 1 30 with state := "half-open" }, inFlight := 1 + 1 } :=
  (half_open_admits_every_call
    { cb := { NewCircuitBreaker 1 30 with state := "half-open" }, inFlight := 1 }
    33 34 passingCall.cmd 0 rfl).1

end circuitbreaker

/-! ## Properties of the token bucket -/

namespace validator

/-- A call at the instant of the last refill on a bucket holding `k + 1` tokens
within its capacity is admitted and takes one token. -/
theorem Allow_same_instant (rl : RateLimiter) (k : Nat) (ht : rl.tokens = (k : ℚ) + 1)
    (hc : rl.tokens ≤ rl.capacity) :
    Allow rl rl.lastRefill = ({ rl with tokens := (k : ℚ) }, true) := by
  have h1 : ¬ rl.capacity < (k : ℚ) + 1 := by rw [← ht]; exact not_lt.mpr hc
  have h2 : ¬ (k : ℚ) + 1 < 1 := by
    have : (0 : ℚ) ≤ (k : ℚ) := Nat.cast_nonneg k
    linarith
  simp [Allow, ht, h1, h2]

/-- On a bucket holding `k` tokens, `k` calls at the instant of the last refill
are all admitted and leave it empty. -/
theorem allowSeq_drain (k : Nat) :
    ∀ (rl : RateLimiter) (rest : List Time), rl.tokens = (k : ℚ) → rl.tokens ≤ rl.capacity →
      (allowSeq rl (List.replicate k rl.lastRefill ++ rest)).map (fun r => r.2) =
        List.replicate k true ++ (allowSeq { rl with tokens := 0 } rest).map (fun r => r.2) := by
  induction k with
  | zero =>
    intro rl rest ht _
    have : rl = { rl with tokens := 0 } := by
      cases rl; simp at ht; simp [ht]
    rw [← this]; simp
  | succ k ih =>
    intro rl rest ht hc
    have ht1 : rl.tokens = (k : ℚ) + 1 := by rw [ht]; push_cast; ring
    have hstep := Allow_same_instant rl k ht1 hc
    have hle : (k : ℚ) ≤ rl.capacity := by linarith
    have hrec := ih { rl with tokens := (k : ℚ) } rest rfl hle
    simp only [List.replicate_succ, List.cons_append, allowSeq, hstep, List.map_cons]
    exact congrArg (List.cons true) hrec

/-- In exact arithmetic, a new limiter of integer capacity `C ≥ 1` and rate
`R > 0` created at `t0` admits exactly the first `C` of `C + 1` calls made at
`t0`; of two calls made `1 / R` seconds later it admits the first and rejects
the second. In `float64` the last part fails, see `validator.binary64`. -/
theorem bucket_capacity_then_refill (C : Nat) (hC : 1 ≤ C) (R : ℚ) (hR : 0 < R) (t0 : Time) :
    (allowSeq (NewRateLimiter (C : ℚ) R t0)
        (List.replicate (C + 1) t0 ++ [t0 + 1 / R, t0 + 1 / R])).map (fun r => r.2) =
      List.replicate C true ++ [false, true, false] := by
  have hsplit : List.replicate (C + 1) t0 ++ [t0 + 1 / R, t0 + 1 / R] =
      List.replicate C (NewRateLimiter (C : ℚ) R t0).lastRefill ++
        [t0, t0 + 1 / R, t0 + 1 / R] := by
    rw [List.replicate_add C 1 t0]; simp [NewRateLimiter]
  rw [hsplit, allowSeq_drain C (NewRateLimiter (C : ℚ) R t0) _ rfl (le_refl _)]
  have hC1 : ¬ (C : ℚ) < 1 := by
    have : (1 : ℚ) ≤ (C : ℚ) := by exact_mod_cast hC
    linarith
  have hC0 : ¬ (C : ℚ) < 0 := by
    have : (0 : ℚ) ≤ (C : ℚ) := Nat.cast_nonneg C
    linarith
  have hRne : R ≠ 0 := ne_of_gt hR
  simp [allowSeq, Allow, NewRateLimiter, hC1, hC0, hRne]

/-- The exact-arithmetic bucket at capacity 2 and rate one token every two
seconds. -/
theorem bucket_capacity_then_refill_witness :
    (allowSeq (NewRateLimiter ((2 : Nat) : ℚ) (1 / 2) 0)
        (List.replicate (2 + 1) 0 ++ [0 + 1 / (1 / 2), 0 + 1 / (1 / 2)])).map (fun r => r.2) =
      List.replicate 2 true ++ [false, true, false] :=
  bucket_capacity_then_refill 2 (by decide) (1 / 2) (by norm_num) 0

/-- C9 at the failing input: capacity 1, rate 1 token per second, created at
time 0, calls at 0 s, 0.5 s and 0.6 s. The call at 0.5 s is rejected but its
refill of 0.5 token is kept while `lastRefill` stays at 0, so the call at 0.6 s
adds 0.6 token again and is admitted: two calls admitted by 0.6 s, above the
bound `C + R * (t - t0) = 1.6`. -/
theorem rejected_call_refill_counted_twice :
    (allowSeq (NewRateLimiter 1 1 0) [0, 1 / 2, 3 / 5]).map (fun r => r.2) =
        [true, false, true] ∧
      admitted (allowSeq (NewRateLimiter 1 1 0) [0, 1 / 2, 3 / 5]) = 2 ∧
      ((admitted (allowSeq (NewRateLimiter 1 1 0) [0, 1 / 2, 3 / 5]) : ℚ) >
        1 + 1 * (3 / 5 - 0)) := by
  have hseq : allowSeq (NewRateLimiter 1 1 0) [0, 1 / 2, 3 / 5] =
      [({ tokens := 0, capacity := 1, refillRate := 1, lastRefill := 0 }, true),
       ({ tokens := 1 / 2, capacity := 1, refillRate := 1, lastRefill := 0 }, false),
       ({ tokens := 0, capacity := 1, refillRate := 1, lastRefill := 3 / 5 }, true)] := by
    norm_num [allowSeq, Allow, NewRateLimiter]
  rw [hseq]
  refine ⟨rfl, rfl, ?_⟩
  norm_num [admitted]

end validator

/-! ## Properties of the request validator -/

namespace validator

/-- C10: `ValidateRequest` runs the checks in the order IP, size, rate limit,
headers and stops at the first failure. It returns `nil` iff all four pass;
otherwise it returns the error of the first failing check under that check's
reason. When the IP or the size check fails the validator is returned as it
was: no limiter is created and no token is taken. -/
theorem ValidateRequest_first_failure (lib : NetLib) (order : List String)
    (rv : RequestValidator) (req : Request) (tNew tAllow : Time) :
    ((ValidateRequest lib order rv req tNew tAllow).2 = none ↔
        validateIP lib rv.config req = none ∧ validateRequestSize rv.config req = none ∧
          (validateRateLimit rv req tNew tAllow).2 = none ∧
          validateSecurityHeaders order req = none) ∧
      (∀ e, validateIP lib rv.config req = some e →
        ValidateRequest lib order rv req tNew tAllow =
          (rv, some ("IP validation failed: " ++ e))) ∧
      (∀ e, validateIP lib rv.config req = none → validateRequestSize rv.config req = some e →
        ValidateRequest lib order rv req tNew tAllow =
          (rv, some ("size validation failed: " ++ e))) ∧
      (∀ e, validateIP lib rv.config req = none → validateRequestSize rv.config req = none →
        (validateRateLimit rv req tNew tAllow).2 = some e →
        ValidateRequest lib order rv req tNew tAllow =
          ((validateRateLimit rv req tNew tAllow).1, some ("rate limit exceeded: " ++ e))) ∧
      (∀ e, validateIP lib rv.config req = none → validateRequestSize rv.config req = none →
        (validateRateLimit rv req tNew tAllow).2 = none →
        validateSecurityHeaders order req = some e →
        ValidateRequest lib order rv req tNew tAllow =
          ((validateRateLimit rv req tNew tAllow).1,
            some ("security headers validation failed: " ++ e))) := by
  unfold ValidateRequest
  rcases h1 : validateIP lib rv.config req with _ | e1
  · rcases h2 : validateRequestSize rv.config req with _ | e2
    · rcases h3 : validateRateLimit rv req tNew tAllow with ⟨rv1, _ | e3⟩
      · rcases h4 : validateSecurityHeaders order req with _ | e4 <;> simp
      · simp
    · simp
  · simp

/-- C10 on a request above the size ceiling: the size error comes back and the
validator, which has no limiter yet, is unchanged. -/
theorem ValidateRequest_first_failure_witness :
    ValidateRequest middleware.stubLib requiredHeaders
        { config := middleware.sampleConfig, rateLimiters := [] }
        middleware.oversizedRequest 0 0 =
      ({ config := middleware.sampleConfig, rateLimiters := [] },
        some ("size validation failed: " ++
          "request size 1048577 exceeds maximum allowed size 1048576")) :=
  (ValidateRequest_first_failure middleware.stubLib requiredHeaders
    { config := middleware.sampleConfig, rateLimiters := [] }
    middleware.oversizedRequest 0 0).2.2.1 _
    (by simp [validateIP, middleware.sampleConfig])
    (by simp [validateRequestSize, middleware.sampleConfig, middleware.oversizedRequest,
      middleware.sampleRequest]; rfl)

end validator

/-! ## Properties of the resilience middleware -/

namespace middleware

open circuitbreaker validator

/-- C7, what the code does: when the request passes validation and the breaker
is open, `Handle` answers 503 at its own state check, whatever the time since
the last failure. `Execute` is not called, the downstream handler does not run
and the breaker is returned as it was, still open. -/
theorem Handle_open_answers_503 {σ : Type} (lib : NetLib) (order : List String)
    (m : ResilienceMiddleware) (req : Request) (tNew tAllow tCheck tDone : Time)
    (next : σ → σ × Int) (w : σ)
    (hv : (ValidateRequest lib order m.validator req tNew tAllow).2 = none)
    (hs : GetState m.circuitBreaker = StateOpen) :
    Handle lib order m req tNew tAllow tCheck tDone next w =
      { mw := { m with validator := (ValidateRequest lib order m.validator req tNew tAllow).1 },
        world := w, json := some (503, "service is temporarily unavailable"),
        aborted := true } := by
  unfold Handle
  rcases h : ValidateRequest lib order m.validator req tNew tAllow with ⟨rv1, _ | e⟩
  · simp [hs]
  · rw [h] at hv; simp at hv

/-- The sample request passes validation whenever its limiter admits it. -/
theorem ValidateRequest_sample (lims : List (String × RateLimiter)) (tNew tAllow : Time)
    (hA : (Allow ((lims.lookup "agent-1").getD (NewRateLimiter 100 (100 / 60) tNew))
      tAllow).2 = true) :
    ValidateRequest stubLib requiredHeaders { config := sampleConfig, rateLimiters := lims }
        sampleRequest tNew tAllow =
      ({ config := sampleConfig,
         rateLimiters := mapSet lims "agent-1"
          (Allow ((lims.lookup "agent-1").getD (NewRateLimiter 100 (100 / 60) tNew))
            tAllow).1 }, none) := by
  have h1 : validateIP stubLib sampleConfig sampleRequest = none := rfl
  have h2 : validateRequestSize sampleConfig sampleRequest = none := by decide
  have h4 : validateSecurityHeaders requiredHeaders sampleRequest = none := rfl
  have hid : headerGet sampleRequest.Header "X-Agent-ID" = "agent-1" := rfl
  have h3 : validateRateLimit { config := sampleConfig, rateLimiters := lims } sampleRequest
      tNew tAllow =
      ({ config := sampleConfig,
         rateLimiters := mapSet lims "agent-1"
          (Allow ((lims.lookup "agent-1").getD (NewRateLimiter 100 (100 / 60) tNew))
            tAllow).1 }, none) := by
    simp only [validateRateLimit, hid]
    rcases hl : lims.lookup "agent-1" with _ | l <;> rw [hl] at hA <;>
      simp [sampleConfig] at hA ⊢ <;> simp [hA]
  simp only [ValidateRequest, h1, h2, h3, h4]

/-- A request that passes validation on a breaker that is not open, answered
500 by the downstream handler: the handler runs, the failure is recorded and
the middleware answers 500. -/
theorem Handle_downstream500 (m : ResilienceMiddleware) (rv1 : RequestValidator)
    (tNew tAllow tCheck tDone : Time) (w : Nat)
    (hv : ValidateRequest stubLib requiredHeaders m.validator sampleRequest tNew tAllow =
      (rv1, none))
    (hs : m.circuitBreaker.state ≠ "open") :
    Handle stubLib requiredHeaders m sampleRequest tNew tAllow tCheck tDone downstream500 w =
      { mw := { validator := rv1,
                circuitBreaker :=
                  (settle m.circuitBreaker (some "server error: 500") tDone).1 },
        world := w + 1, json := some (500, "internal server error"), aborted := true } := by
  have hg : guarded downstream500 w = (w + 1, some "server error: 500") := by
    simp [guarded, downstream500]; rfl
  have hne : "server error: 500" ≠ ErrCircuitOpen := by decide
  have hs2 : ¬ GetState m.circuitBreaker = StateOpen := hs
  simp only [Handle, hv, hs2, if_false,
    Execute_of_not_open m.circuitBreaker tCheck tDone (guarded downstream500) w hs, hg]
  simp [settle, hne]

/-- The middleware after five requests answered 500 by the downstream handler,
at times 0 to 4: the breaker is open, the last failure is at time 4, and the
downstream handler has run five times. -/
theorem afterFailures_five :
    afterFailures 5 =
      ({ validator :=
           { config := sampleConfig,
             rateLimiters := [("agent-1",
               { tokens := 99, capacity := 100, refillRate := 100 / 60, lastRefill := 4 })] },
         circuitBreaker :=
           { failures := 5, lastFailure := 4, state := "open", maxFailures := 5,
             timeout := 30 } }, 5) := by
  have h0 : afterFailures 0 =
      (NewResilienceMiddleware { config := sampleConfig, rateLimiters := [] }, 0) := rfl
  have h1 : afterFailures 1 =
      ({ validator :=
           { config := sampleConfig,
             rateLimiters := [("agent-1",
               { tokens := 99, capacity := 100, refillRate := 100 / 60, lastRefill := 0 })] },
         circuitBreaker :=
           { failures := 1, lastFailure := 0, state := "closed", maxFailures := 5,
             timeout := 30 } }, 1) := by
    have hv := ValidateRequest_sample [] 0 0 (by norm_num [Allow, NewRateLimiter])
    rw [afterFailures, h0]
    simp only [NewResilienceMiddleware]
    rw [Handle_downstream500 _ _ _ _ _ _ _ (by simpa using hv) (by decide)]
    norm_num [Allow, NewRateLimiter, mapSet, settle, circuitbreaker.New, StateClosed]
  have h2 : afterFailures 2 =
      ({ validator :=
           { config := sampleConfig,
             rateLimiters := [("agent-1",
               { tokens := 99, capacity := 100, refillRate := 100 / 60, lastRefill := 1 })] },
         circuitBreaker :=
           { failures := 2, lastFailure := 1, state := "closed", maxFailures := 5,
             timeout := 30 } }, 2) := by
    have hv := ValidateRequest_sample [("agent-1",
      { tokens := 99, capacity := 100, refillRate := 100 / 60, lastRefill := 0 })] 1 1
      (by norm_num [Allow, List.lookup])
    rw [afterFailures, h1]
    rw [Handle_downstream500 _ _ _ _ _ _ _ (by simpa using hv) (by decide)]
    norm_num [Allow, List.lookup, mapSet, settle]
  have h3 : afterFailures 3 =
      ({ validator :=
           { config := sampleConfig,
             rateLimiters := [("agent-1",
               { tokens := 99, capacity := 100, refillRate := 100 / 60, lastRefill := 2 })] },
         circuitBreaker :=
           { failures := 3, lastFailure := 2, state := "closed", maxFailures := 5,
             timeout := 30 } }, 3) := by
    have hv := ValidateRequest_sample [("agent-1",
      { tokens := 99, capacity := 100, refillRate := 100 / 60, lastRefill := 1 })] 2 2
      (by norm_num [Allow, List.lookup])
    rw [afterFailures, h2]
    rw [Handle_downstream500 _ _ _ _ _ _ _ (by simpa using hv) (by decide)]
    norm_num [Allow, List.lookup, mapSet, settle]
  have h4 : afterFailures 4 =
      ({ validator :=
           { config := sampleConfig,
             rateLimiters := [("agent-1",
               { tokens := 99, capacity := 100, refillRate := 100 / 60, lastRefill := 3 })] },
         circuitBreaker :=
           { failures := 4, lastFailure := 3, state := "closed", maxFailures := 5,
             timeout := 30 } }, 4) := by
    have hv := ValidateRequest_sample [("agent-1",
      { tokens := 99, capacity := 100, refillRate := 100 / 60, lastRefill := 2 })] 3 3
      (by norm_num [Allow, List.lookup])
    rw [afterFailures, h3]
    rw [Handle_downstream500 _ _ _ _ _ _ _ (by simpa using hv) (by decide)]
    norm_num [Allow, List.lookup, mapSet, settle]
  have h5 : afterFailures 5 =
      ({ validator :=
           { config := sampleConfig,
             rateLimiters := [("agent-1",
               { tokens := 99, capacity := 100, refillRate := 100 / 60, lastRefill := 4 })] },
         circuitBreaker :=
           { failures := 5, lastFailure := 4, state := "open", maxFailures := 5,
             timeout := 30 } }, 5) := by
    have hv := ValidateRequest_sample [("agent-1",
      { tokens := 99, capacity := 100, refillRate := 100 / 60, lastRefill := 3 })] 4 4
      (by norm_num [Allow, List.lookup])
    rw [afterFailures, h4]
    rw [Handle_downstream500 _ _ _ _ _ _ _ (by simpa using hv) (by decide)]
    norm_num [Allow, List.lookup, mapSet, settle]
  exact h5

/-- C7 at the failing input: after five requests answered 500 at times 0 to 4
the breaker is open with its last failure at time 4. A valid request at time
35, past the cool-down of 30 s, is answered 503; the downstream handler, which
`Execute` alone would have run as the trial call, does not run, and the
breaker stays open. -/
theorem Handle_open_answers_503_witness :
    (35 : ℚ) - (afterFailures 5).1.circuitBreaker.lastFailure >
        (afterFailures 5).1.circuitBreaker.timeout ∧
      (Execute (afterFailures 5).1.circuitBreaker 35 36 (guarded downstream500)
        (afterFailures 5).2).world = 6 ∧
      (Handle stubLib requiredHeaders (afterFailures 5).1 sampleRequest 35 35 35 36
        downstream500 (afterFailures 5).2).json =
          some (503, "service is temporarily unavailable") ∧
      (Handle stubLib requiredHeaders (afterFailures 5).1 sampleRequest 35 35 35 36
        downstream500 (afterFailures 5).2).world = 5 ∧
      GetState (Handle stubLib requiredHeaders (afterFailures 5).1 sampleRequest 35 35 35 36
        downstream500 (afterFailures 5).2).mw.circuitBreaker = StateOpen := by
  have hv : (ValidateRequest stubLib requiredHeaders (afterFailures 5).1.validator
      sampleRequest 35 35).2 = none := by
    rw [afterFailures_five]
    rw [ValidateRequest_sample _ 35 35 (by norm_num [Allow, List.lookup])]
  have hs : GetState (afterFailures 5).1.circuitBreaker = StateOpen := by
    rw [afterFailures_five]; rfl
  have h := Handle_open_answers_503 stubLib requiredHeaders (afterFailures 5).1 sampleRequest
    35 35 35 36 downstream500 (afterFailures 5).2 hv hs
  rw [h]
  refine ⟨?_, ?_, rfl, ?_, hs⟩
  · rw [afterFailures_five]; norm_num
  · rw [afterFailures_five]
    norm_num [Execute, admission, settle, guarded, downstream500]
  · rw [afterFailures_five]

end middleware

/-! ## Properties of the request validator: reasons and the allow-list -/

namespace validator

/-- C11, refuted: the sample request without `X-Agent-ID` passes the IP and
size checks and fails under the rate-limit reason; and the sample request
without `X-Customer-ID`, sent when its agent's bucket is empty, fails under the
rate-limit reason as well. -/
theorem missing_header_rate_limit_reason :
    validateIP middleware.stubLib middleware.sampleConfig middleware.noAgentIDRequest = none ∧
      validateRequestSize middleware.sampleConfig middleware.noAgentIDRequest = none ∧
      headerGet middleware.noAgentIDRequest.Header "X-Agent-ID" = "" ∧
      (ValidateRequest middleware.stubLib requiredHeaders
        { config := middleware.sampleConfig, rateLimiters := [] }
        middleware.noAgentIDRequest 0 0).2 = some "rate limit exceeded: missing agent ID" ∧
      headerGet middleware.noCustomerIDRequest.Header "X-Customer-ID" = "" ∧
      (ValidateRequest middleware.stubLib requiredHeaders middleware.drainedValidator
        middleware.noCustomerIDRequest 0 0).2 =
          some "rate limit exceeded: rate limit exceeded for agent agent-1" := by
  refine ⟨rfl, by decide, rfl, rfl, rfl, ?_⟩
  have h1 : validateIP middleware.stubLib middleware.drainedValidator.config
      middleware.noCustomerIDRequest = none := rfl
  have h2 : validateRequestSize middleware.drainedValidator.config
      middleware.noCustomerIDRequest = none := by decide
  have hid : headerGet middleware.noCustomerIDRequest.Header "X-Agent-ID" = "agent-1" := rfl
  have h3 : validateRateLimit middleware.drainedValidator middleware.noCustomerIDRequest 0 0 =
      (middleware.drainedValidator, some "rate limit exceeded for agent agent-1") := by
    simp only [validateRateLimit, hid]
    norm_num [middleware.drainedValidator, List.lookup, Allow, mapSet]
    rfl
  simp only [ValidateRequest, h1, h2, h3]
  rfl

/-- C11, amended: for a request that passes the IP and size checks, a missing
`X-Agent-ID` is reported by the rate-limit stage, as
`rate limit exceeded: missing agent ID`; and once the rate-limit stage has
passed (so `X-Agent-ID` is there and the bucket admitted the call), a request
that lacks any required header fails under the header-validation reason,
naming a header that is missing; an error of the rate-limit stage, here a
bucket that rejects the call, is reported under the rate-limit reason whatever
the headers. `order` lists the keys of `requiredHeaders` in the order of this
run. -/
theorem missing_header_reason (lib : NetLib) (order : List String) (rv : RequestValidator)
    (req : Request) (tNew tAllow : Time) (hord : ∀ h ∈ requiredHeaders, h ∈ order)
    (hip : validateIP lib rv.config req = none)
    (hsz : validateRequestSize rv.config req = none) :
    (headerGet req.Header "X-Agent-ID" = "" →
        ValidateRequest lib order rv req tNew tAllow =
          (rv, some "rate limit exceeded: missing agent ID")) ∧
      ((validateRateLimit rv req tNew tAllow).2 = none →
        (∃ h ∈ requiredHeaders, headerGet req.Header h = "") →
        ∃ h ∈ order, headerGet req.Header h = "" ∧
          (ValidateRequest lib order rv req tNew tAllow).2 =
            some ("security headers validation failed: " ++
              ("missing required header: " ++ h))) ∧
      (∀ e, (validateRateLimit rv req tNew tAllow).2 = some e →
        (ValidateRequest lib order rv req tNew tAllow).2 =
          some ("rate limit exceeded: " ++ e)) := by
  refine ⟨?_, ?_, ?_⟩
  · intro hid
    have h3 : validateRateLimit rv req tNew tAllow = (rv, some "missing agent ID") := by
      simp [validateRateLimit, hid]
    simp only [ValidateRequest, hip, hsz, h3]
    rfl
  · intro hrl hmiss
    obtain ⟨h0, hmem, hget⟩ := hmiss
    rcases hfind : order.find? (fun header => decide (headerGet req.Header header = ""))
      with _ | h1
    · have := List.find?_eq_none.mp hfind h0 (hord h0 hmem)
      simp [hget] at this
    · have hp := List.find?_some hfind
      have hm := List.mem_of_find?_eq_some hfind
      refine ⟨h1, hm, by simpa using hp, ?_⟩
      have h4 : validateSecurityHeaders order req =
          some ("missing required header: " ++ h1) := by
        simp only [validateSecurityHeaders, hfind]
      rcases h3 : validateRateLimit rv req tNew tAllow with ⟨rv1, e⟩
      rw [h3] at hrl
      simp only at hrl
      subst hrl
      simp only [ValidateRequest, hip, hsz, h3, h4]
  · intro e he
    rcases h3 : validateRateLimit rv req tNew tAllow with ⟨rv1, e1⟩
    rw [h3] at he
    simp only at he
    subst he
    simp only [ValidateRequest, hip, hsz, h3]

/-- C11 amended, on the sample request without `X-Customer-ID` and a fresh
validator: the header-validation reason, naming `X-Customer-ID`. -/
theorem missing_header_reason_witness :
    ∃ h ∈ requiredHeaders, headerGet middleware.noCustomerIDRequest.Header h = "" ∧
      (ValidateRequest middleware.stubLib requiredHeaders
        { config := middleware.sampleConfig, rateLimiters := [] }
        middleware.noCustomerIDRequest 0 0).2 =
          some ("security headers validation failed: " ++
            ("missing required header: " ++ h)) :=
  (missing_header_reason middleware.stubLib requiredHeaders
    { config := middleware.sampleConfig, rateLimiters := [] }
    middleware.noCustomerIDRequest 0 0 (fun _ h => h) rfl (by decide)).2.1
    (by
      have hid : headerGet middleware.noCustomerIDRequest.Header "X-Agent-ID" = "agent-1" :=
        rfl
      have hne : ¬ ("agent-1" : String) = "" := by decide
      simp only [validateRateLimit, hid]
      norm_num [middleware.sampleConfig, List.lookup, Allow, NewRateLimiter, hne])
    ⟨"X-Customer-ID", by decide, rfl⟩

/-- One turn of the loop of `validateIP`: the entry admits, or the loop goes on. -/
theorem validateIPLoop_cons (lib : NetLib) (clientIP a : String) (rest : List String) :
    validateIPLoop lib clientIP (a :: rest) = true ↔
      (malformedCIDR lib a = false ∧ entryAdmits lib clientIP a) ∨
        validateIPLoop lib clientIP rest = true := by
  rw [validateIPLoop]
  unfold malformedCIDR entryAdmits
  by_cases hstar : a = "*"
  · have hns : '/' ∉ a.toList := by rw [hstar]; decide
    rw [if_pos hstar]
    exact ⟨fun _ => Or.inl ⟨by simp only [decide_eq_false hns, Bool.false_and],
      Or.inl hstar⟩, fun _ => rfl⟩
  · rw [if_neg hstar]
    by_cases hsl : '/' ∈ a.toList
    · rw [if_pos hsl]
      rcases hp : lib.ParseCIDR a with _ | ipNet
      · simp only [decide_eq_true hsl, Option.isNone_none, Bool.and_self]
        constructor
        · intro h; exact Or.inr h
        · rintro (⟨h, _⟩ | h)
          · exact absurd h (by decide)
          · exact h
      · simp only [decide_eq_true hsl, Option.isNone_some, Bool.and_false, true_and]
        by_cases hc : lib.Contains ipNet (lib.ParseIP clientIP) = true
        · rw [if_pos hc]
          exact ⟨fun _ => Or.inl (Or.inr (Or.inr ⟨ipNet, hsl, rfl, hc⟩)), fun _ => rfl⟩
        · rw [if_neg hc]
          by_cases he : a = clientIP
          · rw [if_pos he]
            exact ⟨fun _ => Or.inl (Or.inr (Or.inl he)), fun _ => rfl⟩
          · rw [if_neg he]
            constructor
            · intro h; exact Or.inr h
            · rintro ((h | h | ⟨n, _, hn, hcn⟩) | h)
              · exact absurd h hstar
              · exact absurd h he
              · cases hn; exact absurd hcn hc
              · exact h
    · rw [if_neg hsl]
      simp only [decide_eq_false hsl, Bool.false_and, true_and]
      by_cases he : a = clientIP
      · rw [if_pos he]
        exact ⟨fun _ => Or.inl (Or.inr (Or.inl he)), fun _ => rfl⟩
      · rw [if_neg he]
        constructor
        · intro h; exact Or.inr h
        · rintro ((h | h | ⟨n, hs, _, _⟩) | h)
          · exact absurd h hstar
          · exact absurd h he
          · exact absurd hs hsl
          · exact h

/-- The loop of `validateIP` admits exactly when some entry that is not skipped
admits. -/
theorem validateIPLoop_iff (lib : NetLib) (clientIP : String) (l : List String) :
    validateIPLoop lib clientIP l = true ↔
      ∃ a ∈ l, malformedCIDR lib a = false ∧ entryAdmits lib clientIP a := by
  induction l with
  | nil => simp [validateIPLoop]
  | cons a rest ih =>
    rw [validateIPLoop_cons, ih]
    simp only [List.mem_cons, exists_eq_or_imp]

/-- C12, amended: `validateIP` admits a request iff the allow-list is empty or
some entry that is not a malformed CIDR entry is `*`, equals the client IP
string, or is a CIDR range holding the client IP. Malformed CIDR entries are
skipped, also when they equal the client IP string: the loop gives the same
answer with them removed. The answer is the same for every reordering of the
allow-list. -/
theorem validateIP_admits_iff (lib : NetLib) (cfg : AgentConfig) (req : Request) :
    (validateIP lib cfg req = none ↔
        cfg.Security.AllowedOrigins = [] ∨
          ∃ a ∈ cfg.Security.AllowedOrigins,
            malformedCIDR lib a = false ∧ entryAdmits lib (getClientIP lib req) a) ∧
      (∀ (clientIP : String) (l : List String),
        validateIPLoop lib clientIP l =
          validateIPLoop lib clientIP (l.filter (fun a => !malformedCIDR lib a))) ∧
      (∀ cfg2 : AgentConfig,
        cfg.Security.AllowedOrigins.Perm cfg2.Security.AllowedOrigins →
        validateIP lib cfg2 req = validateIP lib cfg req) := by
  have hiff : ∀ l : List String,
      (if l.length = 0 then (none : Option String)
        else if validateIPLoop lib (getClientIP lib req) l then none
        else some ("IP " ++ getClientIP lib req ++ " not in whitelist")) = none ↔
      l = [] ∨ validateIPLoop lib (getClientIP lib req) l = true := by
    intro l
    by_cases hl : l = []
    · simp [hl]
    · have hlen : l.length ≠ 0 := by simpa using hl
      by_cases hv : validateIPLoop lib (getClientIP lib req) l = true <;> simp [hl, hv]
  refine ⟨?_, ?_, ?_⟩
  · have := hiff cfg.Security.AllowedOrigins
    simp only [validateIP]
    rw [this, validateIPLoop_iff]
  · intro clientIP l
    rw [Bool.eq_iff_iff, validateIPLoop_iff, validateIPLoop_iff]
    constructor
    · rintro ⟨a, ha, hm, hadm⟩
      exact ⟨a, List.mem_filter.mpr ⟨ha, by simp [hm]⟩, hm, hadm⟩
    · rintro ⟨a, ha, hm, hadm⟩
      exact ⟨a, (List.mem_filter.mp ha).1, hm, hadm⟩
  · intro cfg2 hperm
    have hloop : validateIPLoop lib (getClientIP lib req) cfg2.Security.AllowedOrigins =
        validateIPLoop lib (getClientIP lib req) cfg.Security.AllowedOrigins := by
      rw [Bool.eq_iff_iff, validateIPLoop_iff, validateIPLoop_iff]
      constructor
      · rintro ⟨a, ha, hm, hadm⟩
        exact ⟨a, hperm.mem_iff.mpr ha, hm, hadm⟩
      · rintro ⟨a, ha, hm, hadm⟩
        exact ⟨a, hperm.mem_iff.mp ha, hm, hadm⟩
    simp only [validateIP, hloop, hperm.length_eq]

/-- C12 amended, on the allow-list `10.0.0.1/33`, `*` and its reordering, for a client at
`10.0.0.5`: the malformed first entry is skipped and `*` admits, in both
orders. -/
theorem validateIP_admits_iff_witness :
    validateIP middleware.stubLib (middleware.allowListConfig ["*", "10.0.0.1/33"])
        (middleware.requestFrom "10.0.0.5") =
      validateIP middleware.stubLib (middleware.allowListConfig ["10.0.0.1/33", "*"])
        (middleware.requestFrom "10.0.0.5") :=
  (validateIP_admits_iff middleware.stubLib (middleware.allowListConfig ["10.0.0.1/33", "*"])
    (middleware.requestFrom "10.0.0.5")).2.2
    (middleware.allowListConfig ["*", "10.0.0.1/33"]) (List.Perm.swap _ _ _)

/-- C12, refuted: the allow-list holds the single entry `10.0.0.1/33`, which has
a slash and which `net.ParseCIDR` rejects (the mask is out of range); a
request arrives with `X-Real-IP: 10.0.0.1/33`. The allow-list contains an entry
equal to the client IP string, and `validateIP` rejects the request: the
`continue` on the parse error skips the direct comparison. -/
theorem validateIP_malformed_entry_skipped :
    getClientIP middleware.stubLib (middleware.requestFrom "10.0.0.1/33") = "10.0.0.1/33" ∧
      "10.0.0.1/33" ∈ (middleware.allowListConfig ["10.0.0.1/33"]).Security.AllowedOrigins ∧
      middleware.stubLib.ParseCIDR "10.0.0.1/33" = none ∧
      validateIP middleware.stubLib (middleware.allowListConfig ["10.0.0.1/33"])
          (middleware.requestFrom "10.0.0.1/33") =
        some "IP 10.0.0.1/33 not in whitelist" := by
  refine ⟨rfl, ?_, rfl, rfl⟩
  simp [middleware.allowListConfig]

end validator

/-! ## Properties of `strings` and `path` on clean rooted paths -/

namespace strings

/-- A list without the separator is one piece. -/
theorem splitChars_of_not_mem (sep : Char) (l : List Char) (h : sep ∉ l) :
    splitChars sep l = [l] := by
  induction l with
  | nil => rfl
  | cons c cs ih =>
    have hc : ¬ c = sep := fun hc => h (by simp [hc])
    have hcs : sep ∉ cs := fun hm => h (List.mem_cons_of_mem _ hm)
    simp [splitChars, hc, ih hcs]

/-- Splitting cuts at the first separator. -/
theorem splitChars_append_sep (sep : Char) (l m : List Char) (h : sep ∉ l) :
    splitChars sep (l ++ sep :: m) = l :: splitChars sep m := by
  induction l with
  | nil => simp [splitChars]
  | cons c cs ih =>
    have hc : ¬ c = sep := fun hc => h (by simp [hc])
    have hcs : sep ∉ cs := fun hm => h (List.mem_cons_of_mem _ hm)
    simp [splitChars, hc, ih hcs]

/-- Splitting a string that starts with the separator. -/
theorem Split_slash_append (p : String) :
    Split ("/" ++ p) '/' = "" :: Split p '/' := by
  simp [Split, String.toList, splitChars]

end strings

namespace path

/-- Splitting joined slash-free elements gives the elements back. -/
theorem splitChars_joinChars (segs : List String) (hne : segs ≠ [])
    (hs : ∀ s ∈ segs, '/' ∉ s.toList) :
    strings.splitChars '/' (joinChars segs) = segs.map String.toList := by
  induction segs with
  | nil => exact absurd rfl hne
  | cons s rest ih =>
    cases rest with
    | nil =>
      have h1 := strings.splitChars_of_not_mem '/' s.toList (hs s (by simp))
      simp only [joinChars, h1, List.map_cons, List.map_nil]
    | cons t rest =>
      have h1 : '/' ∉ s.toList := hs s (by simp)
      have h2 := ih (by simp) (fun x hx => hs x (List.mem_cons_of_mem _ hx))
      simp only [joinChars, strings.splitChars_append_sep '/' _ _ h1, List.map_cons]
      rw [← List.map_cons, ← h2]

/-- The parts of a clean rooted path. -/
theorem Split_joinPath (segs : List String) (hc : CleanSegments segs) :
    strings.Split (joinPath segs) '/' = rootedParts segs := by
  by_cases hne : segs = []
  · subst hne; decide
  · have hs : ∀ s ∈ segs, '/' ∉ s.toList := fun s h => (hc s h).2.2.2
    have h := splitChars_joinChars segs hne hs
    simp only [strings.Split, joinPath, String.toList, strings.splitChars, rootedParts, hne,
      if_true, if_false, List.map_cons]
    simp only [String.toList] at h
    rw [h, List.map_map]
    congr 1
    exact List.map_id _

/-- On clean elements `path.Clean` keeps every element. -/
theorem foldl_cleanStep_clean (segs : List String) (hc : CleanSegments segs) :
    ∀ acc : List String, segs.foldl cleanStep acc = acc ++ segs := by
  induction segs with
  | nil => intro acc; simp
  | cons s rest ih =>
    intro acc
    obtain ⟨h1, h2, h3, _⟩ := hc s (by simp)
    have hrest : CleanSegments rest := fun x hx => hc x (List.mem_cons_of_mem _ hx)
    simp [List.foldl_cons, cleanStep, h1, h2, h3, ih hrest]

/-- A path in clean form is left as it is by `path.Clean("/" + p)`. -/
theorem Clean_joinPath (segs : List String) (hc : CleanSegments segs) :
    Clean ("/" ++ joinPath segs) = joinPath segs := by
  unfold Clean
  rw [strings.Split_slash_append, Split_joinPath segs hc]
  by_cases hne : segs = []
  · subst hne; decide
  · simp only [rootedParts, hne, if_false, cleanSegments, List.foldl_cons]
    have h0 : cleanStep [] "" = [] := by decide
    rw [h0, h0, foldl_cleanStep_clean segs hc]
    simp

end path

/-! ## Properties of the route matchers -/

namespace service

/-- Literal pattern parts followed by `**` match a route that has the same
parts and at least one more. -/
theorem matchParts_literal_then_rest (A : List String) (hA : path.LiteralSegments A)
    (X : List String) (e : String) (Y : List String) :
    matchParts (A ++ "**" :: X) (A ++ e :: Y) = some true := by
  induction A with
  | nil => simp [matchParts]
  | cons a rest ih =>
    obtain ⟨h1, h2⟩ := hA a (by simp)
    have hrest : path.LiteralSegments rest := fun x hx => hA x (List.mem_cons_of_mem _ hx)
    simp [matchParts, h1, h2, ih hrest]

/-- Literal pattern parts reject a route that differs from them at some
position. -/
theorem matchParts_literal_differs (A : List String) (hA : path.LiteralSegments A)
    (X : List String) :
    ∀ (B : List String) (i : Nat) (s t : String), A[i]? = some s → B[i]? = some t → s ≠ t →
      matchParts (A ++ X) B = some false := by
  induction A with
  | nil => intro B i s t h; simp at h
  | cons a rest ih =>
    intro B i s t hs ht hne
    obtain ⟨h1, h2⟩ := hA a (by simp)
    have hrest : path.LiteralSegments rest := fun x hx => hA x (List.mem_cons_of_mem _ hx)
    cases B with
    | nil => simp at ht
    | cons b Brest =>
      by_cases hab : a = b
      · cases i with
        | zero =>
          simp at hs ht
          exact absurd (hs ▸ ht ▸ hab) hne
        | succ j =>
          simp at hs ht
          have := ih hrest Brest j s t hs ht hne
          subst hab
          simp [matchParts, h1, h2, this]
      · simp [matchParts, h1, h2, hab]

/-- Literal pattern parts match exactly the route with the same parts. -/
theorem matchParts_literal_iff (A : List String) (hA : path.LiteralSegments A) :
    ∀ B : List String,
      (match matchParts A B with
        | some b => b
        | none => decide (B.length = A.length)) = true ↔ A = B := by
  induction A with
  | nil =>
    intro B
    cases B <;> simp [matchParts]
  | cons a rest ih =>
    intro B
    obtain ⟨h1, h2⟩ := hA a (by simp)
    have hrest : path.LiteralSegments rest := fun x hx => hA x (List.mem_cons_of_mem _ hx)
    cases B with
    | nil => simp [matchParts]
    | cons b Brest =>
      by_cases hab : a = b
      · subst hab
        have := ih hrest Brest
        simp only [matchParts, h1, h2, if_false, ne_eq, not_true_eq_false, List.length_cons,
          add_left_inj, List.cons.injEq, true_and]
        exact this
      · simp [matchParts, h1, h2, hab]

/-- The last element of a rooted path closes its characters. -/
theorem joinChars_append_last (P : List String) (x : String) :
    ∃ front : List Char, '/' :: path.joinChars (P ++ [x]) = front ++ '/' :: x.toList := by
  induction P with
  | nil => exact ⟨[], by simp [path.joinChars]⟩
  | cons a rest ih =>
    obtain ⟨front, hf⟩ := ih
    cases rest with
    | nil =>
      exact ⟨'/' :: a.toList, by simp [path.joinChars]⟩
    | cons b rest2 =>
      refine ⟨'/' :: a.toList ++ front, ?_⟩
      have hj : path.joinChars (a :: b :: (rest2 ++ [x])) =
          a.toList ++ '/' :: path.joinChars (b :: (rest2 ++ [x])) := rfl
      rw [List.cons_append] at hf
      show '/' :: path.joinChars (a :: b :: (rest2 ++ [x])) = _
      rw [hj, hf]
      simp

/-- A pattern that ends in the element `**` has the suffix `/**`. -/
theorem HasSuffix_double_star (P : List String) :
    strings.HasSuffix (path.joinPath (P ++ ["**"])) "/**" = true := by
  obtain ⟨front, hf⟩ := joinChars_append_last P "**"
  simp only [strings.HasSuffix, path.joinPath, String.toList, List.isSuffixOf_iff_suffix]
  simp only [String.toList] at hf
  exact ⟨front, hf.symm⟩

/-- On paths in clean form `matchRoute` works on their parts. -/
theorem matchRoute_clean (P R : List String) (hP : path.CleanSegments P)
    (hR : path.CleanSegments R) :
    matchRoute (path.joinPath P) (path.joinPath R) =
      if (path.rootedParts P).length ≠ (path.rootedParts R).length ∧
          ¬ strings.HasSuffix (path.joinPath P) "/**" then false
      else
        match matchParts (path.rootedParts P) (path.rootedParts R) with
        | some b => b
        | none => decide ((path.rootedParts R).length = (path.rootedParts P).length) := by
  simp only [matchRoute, path.Clean_joinPath P hP, path.Clean_joinPath R hR,
    path.Split_joinPath P hP, path.Split_joinPath R hR]

end service

namespace path

/-- The wildcard `**` is an element of clean form. -/
theorem CleanSegments_append_double_star (P : List String) (hP : CleanSegments P) :
    CleanSegments (P ++ ["**"]) := by
  intro s hs
  rcases List.mem_append.mp hs with h | h
  · exact hP s h
  · simp at h; subst h; decide

/-- The parts of a clean path are literal when its elements are. -/
theorem LiteralSegments_rootedParts (P : List String) (hP : LiteralSegments P) :
    LiteralSegments (rootedParts P) := by
  intro s hs
  unfold rootedParts at hs
  split_ifs at hs with h
  · simp at hs; subst hs; decide
  · rcases List.mem_cons.mp hs with h1 | h1
    · subst h1; decide
    · exact hP s h1

/-- Clean paths with the same parts have the same elements. -/
theorem rootedParts_inj (P R : List String) (hP : CleanSegments P) (hR : CleanSegments R)
    (h : rootedParts P = rootedParts R) : P = R := by
  unfold rootedParts at h
  split_ifs at h with h1 h2 h2
  · rw [h1, h2]
  · cases R with
    | nil => exact absurd rfl h2
    | cons r rest =>
      have hr := (hR r (by simp)).1
      simp at h
      exact absurd h.1.symm hr
  · cases P with
    | nil => exact absurd rfl h1
    | cons q rest =>
      have hq := (hP q (by simp)).1
      simp at h
      exact absurd h.1 hq
  · simpa using h

end path

namespace service

/-- C14: for literal clean segments `P`, the pattern `P/**` matches every clean
route made of the segments of `P` followed by one or more further segments,
and matches no clean route that differs from `P` at one of its leading
segments; `/orders/**` matches `/orders/123` and `/orders/123/items`. -/
theorem trailing_double_star_matches_rest (P : List String) (hP : path.CleanSegments P)
    (hlit : path.LiteralSegments P) :
    (∀ E : List String, E ≠ [] → path.CleanSegments E →
        matchRoute (path.joinPath (P ++ ["**"])) (path.joinPath (P ++ E)) = true) ∧
      (∀ R : List String, path.CleanSegments R →
        (∃ (i : Nat) (s t : String), P[i]? = some s ∧ R[i]? = some t ∧ s ≠ t) →
        matchRoute (path.joinPath (P ++ ["**"])) (path.joinPath R) = false) ∧
      matchRoute "/orders/**" "/orders/123" = true ∧
      matchRoute "/orders/**" "/orders/123/items" = true := by
  have hPs := path.CleanSegments_append_double_star P hP
  have hparts : path.rootedParts (P ++ ["**"]) = ("" :: P) ++ "**" :: [] := by
    simp [path.rootedParts]
  have hlit0 : path.LiteralSegments ("" :: P) := by
    intro s hs
    rcases List.mem_cons.mp hs with h | h
    · subst h; decide
    · exact hlit s h
  refine ⟨?_, ?_, by decide, by decide⟩
  · intro E hE hEc
    have hPE : path.CleanSegments (P ++ E) := by
      intro s hs
      rcases List.mem_append.mp hs with h | h
      · exact hP s h
      · exact hEc s h
    obtain ⟨e, Y, rfl⟩ : ∃ e Y, E = e :: Y := by
      cases E with
      | nil => exact absurd rfl hE
      | cons e Y => exact ⟨e, Y, rfl⟩
    have hpartsR : path.rootedParts (P ++ e :: Y) = ("" :: P) ++ e :: Y := by
      simp [path.rootedParts]
    rw [matchRoute_clean _ _ hPs hPE, HasSuffix_double_star, hparts, hpartsR,
      matchParts_literal_then_rest _ hlit0]
    simp
  · intro R hR hdiff
    obtain ⟨i, s, t, hs, ht, hne⟩ := hdiff
    have hRne : R ≠ [] := by
      intro h; subst h; simp at ht
    have hpartsR : path.rootedParts R = "" :: R := by simp [path.rootedParts, hRne]
    have hm := matchParts_literal_differs ("" :: P) hlit0 ("**" :: []) ("" :: R) (i + 1) s t
      (by simpa using hs) (by simpa using ht) hne
    rw [matchRoute_clean _ _ hPs hR, hparts, hpartsR, hm]
    simp

/-- C14 on the pattern `/orders/**` and the routes `/orders/123/items` and
`/invoices/123`. -/
theorem trailing_double_star_matches_rest_witness :
    matchRoute (path.joinPath (["orders"] ++ ["**"]))
        (path.joinPath (["orders"] ++ ["123", "items"])) = true ∧
      matchRoute (path.joinPath (["orders"] ++ ["**"])) (path.joinPath ["invoices", "123"]) =
        false :=
  have h := trailing_double_star_matches_rest ["orders"] (by
      intro s hs
      simp at hs
      subst hs
      decide) (by
      intro s hs
      simp at hs
      subst hs
      decide)
  ⟨h.1 ["123", "items"] (by simp) (by
      intro s hs
      simp at hs
      rcases hs with h | h <;> subst h <;> decide),
    h.2.1 ["invoices", "123"] (by
      intro s hs
      simp at hs
      rcases hs with h | h <;> subst h <;> decide)
      ⟨0, "orders", "invoices", rfl, rfl, by decide⟩⟩

end service

/-! ## Properties of the matcher of `pkg/utils` -/

namespace strings

/-- Splitting never gives the empty list. -/
theorem splitChars_ne_nil (sep : Char) (l : List Char) : splitChars sep l ≠ [] := by
  cases l with
  | nil => simp [splitChars]
  | cons c cs =>
    simp only [splitChars]
    split_ifs
    · simp
    · split <;> simp

/-- Splitting distributes over a separator. -/
theorem splitChars_append_cons (sep : Char) (a b : List Char) :
    splitChars sep (a ++ sep :: b) = splitChars sep a ++ splitChars sep b := by
  induction a with
  | nil => simp [splitChars]
  | cons c cs ih =>
    by_cases hc : c = sep
    · simp [splitChars, hc, ih]
    · rcases hsp : splitChars sep cs with _ | ⟨h, t⟩
      · exact absurd hsp (splitChars_ne_nil sep cs)
      · simp [splitChars, hc, ih, hsp]

end strings

namespace path

/-- The characters of a non-empty string. -/
theorem toList_ne_nil (s : String) (h : s ≠ "") : s.toList ≠ [] := by
  intro hl
  apply h
  cases s
  simp only [String.toList] at hl
  subst hl
  rfl

/-- The joined characters of clean elements do not start with a slash. -/
theorem joinChars_head (s : String) (rest : List String) (hc : CleanSegments (s :: rest)) :
    ∃ c cs, joinChars (s :: rest) = c :: cs ∧ c ≠ '/' := by
  obtain ⟨h1, _, _, h4⟩ := hc s (by simp)
  rcases hs : s.toList with _ | ⟨c, cs⟩
  · exact absurd hs (toList_ne_nil s h1)
  · have hcne : c ≠ '/' := by
      intro h; apply h4; rw [hs, h]; simp
    cases rest with
    | nil => exact ⟨c, cs, hs, hcne⟩
    | cons t rest2 =>
      refine ⟨c, cs ++ '/' :: joinChars (t :: rest2), ?_, hcne⟩
      show s.toList ++ '/' :: joinChars (t :: rest2) = _
      rw [hs]
      rfl

/-- The joined characters of clean elements do not end with a slash. -/
theorem joinChars_last (segs : List String) (hne : segs ≠ []) (hc : CleanSegments segs) :
    ∃ front c, joinChars segs = front ++ [c] ∧ c ≠ '/' := by
  induction segs with
  | nil => exact absurd rfl hne
  | cons s rest ih =>
    cases rest with
    | nil =>
      obtain ⟨h1, _, _, h4⟩ := hc s (by simp)
      have hnil := toList_ne_nil s h1
      obtain ⟨front, hfront⟩ := List.getLast?_eq_some_iff.mp
        (List.getLast?_eq_getLast _ hnil)
      refine ⟨front, s.toList.getLast hnil, by simpa [joinChars] using hfront, ?_⟩
      intro h
      apply h4
      rw [← h]
      exact List.getLast_mem hnil
    | cons t rest2 =>
      obtain ⟨front, c, hf, hcne⟩ := ih (by simp)
        (fun x hx => hc x (List.mem_cons_of_mem _ hx))
      refine ⟨s.toList ++ '/' :: front, c, ?_, hcne⟩
      have hj : joinChars (s :: t :: rest2) = s.toList ++ '/' :: joinChars (t :: rest2) := rfl
      rw [hj, hf]
      simp

/-- Trimming the slashes of a clean rooted path leaves its joined elements. -/
theorem Trim_joinPath (segs : List String) (hc : CleanSegments segs) :
    strings.Trim (joinPath segs) '/' = String.mk (joinChars segs) := by
  cases segs with
  | nil => decide
  | cons s rest =>
    obtain ⟨c, cs, hhead, hcne⟩ := joinChars_head s rest hc
    obtain ⟨front, d, hlast, hdne⟩ := joinChars_last (s :: rest) (by simp) hc
    have h1 : List.dropWhile (fun x => decide (x = '/')) ('/' :: joinChars (s :: rest)) =
        joinChars (s :: rest) := by
      rw [hhead]
      simp [List.dropWhile, hcne]
    have h2 : List.dropWhile (fun x => decide (x = '/')) (joinChars (s :: rest)).reverse =
        (joinChars (s :: rest)).reverse := by
      rw [hlast]
      simp [List.dropWhile, hdne]
    simp only [strings.Trim, joinPath, String.toList, h1, h2, List.reverse_reverse]

/-- The parts of a trimmed clean rooted path. -/
theorem Split_Trim_joinPath (segs : List String) (hc : CleanSegments segs) :
    strings.Split (strings.Trim (joinPath segs) '/') '/' = trimmedParts segs := by
  rw [Trim_joinPath segs hc]
  by_cases hne : segs = []
  · subst hne; decide
  · have hs : ∀ s ∈ segs, '/' ∉ s.toList := fun s h => (hc s h).2.2.2
    have h := splitChars_joinChars segs hne hs
    simp only [strings.Split, String.toList, trimmedParts, hne, if_false]
    simp only [String.toList] at h
    rw [h, List.map_map]
    exact List.map_id _

/-- A clean rooted path with the suffix `/**` has `**` as its last element. -/
theorem mem_of_HasSuffix (segs : List String) (hc : CleanSegments segs)
    (h : strings.HasSuffix (joinPath segs) "/**" = true) : "**" ∈ segs := by
  simp only [strings.HasSuffix, joinPath, String.toList, List.isSuffixOf_iff_suffix] at h
  obtain ⟨t, ht⟩ := h
  have hsplit := congrArg (strings.splitChars '/') ht
  rw [strings.splitChars_append_cons] at hsplit
  have hstar : strings.splitChars '/' ['*', '*'] = [['*', '*']] := by decide
  rw [hstar] at hsplit
  have hlastL : (strings.splitChars '/' t ++ [['*', '*']]).getLast? = some ['*', '*'] :=
    List.getLast?_concat _
  rw [hsplit] at hlastL
  by_cases hne : segs = []
  · subst hne
    have : strings.splitChars '/' ('/' :: joinChars []) = [[], []] := by decide
    rw [this] at hlastL
    simp at hlastL
  · have hs : ∀ s ∈ segs, '/' ∉ s.toList := fun s h => (hc s h).2.2.2
    have hj := splitChars_joinChars segs hne hs
    have hx : strings.splitChars '/' ('/' :: joinChars segs) =
        [] :: segs.map String.toList := by
      simp [strings.splitChars, hj]
    rw [hx] at hlastL
    have hmem := List.mem_of_getLast?_eq_some hlastL
    rcases List.mem_cons.mp hmem with h0 | h0
    · exact absurd h0 (by decide)
    · obtain ⟨s, hsmem, hseq⟩ := List.mem_map.mp h0
      have : s = "**" := by
        cases s
        simp only [String.toList] at hseq
        subst hseq
        rfl
      rw [← this]
      exact hsmem

/-- The trimmed parts of a clean path are literal when its parts are. -/
theorem LiteralSegments_trimmedParts (P : List String) (hP : LiteralSegments P) :
    LiteralSegments (trimmedParts P) := by
  intro s hs
  unfold trimmedParts at hs
  split_ifs at hs with h
  · simp at hs; subst hs; decide
  · exact hP s hs

/-- Clean paths with the same trimmed parts have the same elements. -/
theorem trimmedParts_inj (P R : List String) (hP : CleanSegments P) (hR : CleanSegments R)
    (h : trimmedParts P = trimmedParts R) : P = R := by
  unfold trimmedParts at h
  split_ifs at h with h1 h2 h2
  · rw [h1, h2]
  · cases R with
    | nil => exact absurd rfl h2
    | cons r rest =>
      have hr := (hR r (by simp)).1
      simp at h
      exact absurd h.1.symm hr
  · cases P with
    | nil => exact absurd rfl h1
    | cons q rest =>
      have hq := (hP q (by simp)).1
      simp at h
      exact absurd h.1 hq
  · exact h

end path

namespace utils

/-- Literal pattern parts pass the loop of `matchWildcardPattern` only on the
route with the same parts. -/
theorem wildcardLoop_literal (A : List String) (hA : path.LiteralSegments A) :
    ∀ B : List String, A.length = B.length → wildcardLoop A B = true → A = B := by
  induction A with
  | nil =>
    intro B hlen _
    cases B with
    | nil => rfl
    | cons b rest => simp at hlen
  | cons a rest ih =>
    intro B hlen hw
    obtain ⟨h1, _⟩ := hA a (by simp)
    have hrest : path.LiteralSegments rest := fun x hx => hA x (List.mem_cons_of_mem _ hx)
    cases B with
    | nil => simp at hlen
    | cons b Brest =>
      by_cases hab : a = b
      · subst hab
        simp only [wildcardLoop, ne_eq, not_true_eq_false, and_false, if_false] at hw
        rw [ih hrest Brest (by simpa using hlen) hw]
      · simp [wildcardLoop, h1, hab] at hw

/-- On paths in clean form `matchWildcardPattern` works on their trimmed
parts. -/
theorem matchWildcardPattern_clean (P R : List String) (hP : path.CleanSegments P)
    (hR : path.CleanSegments R) :
    matchWildcardPattern (path.joinPath P) (path.joinPath R) =
      if (path.trimmedParts P).length ≠ (path.trimmedParts R).length then false
      else wildcardLoop (path.trimmedParts P) (path.trimmedParts R) := by
  simp only [matchWildcardPattern, path.Split_Trim_joinPath P hP, path.Split_Trim_joinPath R hR]

end utils

namespace utils

/-- C15: for a pattern `p` without `*` or `**` segments and a route `r`, both in
clean form, `matchRoute(p, r)` is true iff `r = p`, and
`utils.IsRouteAllowed(r, [p])` is true iff `r = p`. -/
theorem exact_pattern_matches_itself (p r : String) (hp : path.IsClean p)
    (hr : path.IsClean r) (hnw : path.NoWildcard p) :
    (service.matchRoute p r = true ↔ r = p) ∧ (IsRouteAllowed r [p] = true ↔ r = p) := by
  obtain ⟨P, hP, rfl⟩ := hp
  obtain ⟨R, hR, rfl⟩ := hr
  have hparts : path.LiteralSegments (path.rootedParts P) := by
    intro s hs
    rw [← path.Split_joinPath P hP] at hs
    exact ⟨fun h => hnw.1 (h ▸ hs), fun h => hnw.2 (h ▸ hs)⟩
  have hlit : path.LiteralSegments P := by
    intro s hs
    apply hparts
    unfold path.rootedParts
    split_ifs with h
    · rw [h] at hs; simp at hs
    · exact List.mem_cons_of_mem _ hs
  refine ⟨?_, ?_⟩
  · rw [service.matchRoute_clean P R hP hR]
    constructor
    · intro h
      split_ifs at h with hc
      have := (service.matchParts_literal_iff _ hparts (path.rootedParts R)).mp h
      rw [path.rootedParts_inj P R hP hR this]
    · intro h
      have hPR : P = R := by
        have h1 := path.Split_joinPath P hP
        have h2 := path.Split_joinPath R hR
        rw [h] at h2
        exact path.rootedParts_inj P R hP hR (h1.symm.trans h2)
      subst hPR
      have := (service.matchParts_literal_iff _ hparts (path.rootedParts P)).mpr rfl
      rw [if_neg (fun hc => hc.1 rfl)]
      exact this
  · have hsuf : strings.HasSuffix (path.joinPath P) "/**" = false := by
      by_contra hs
      have := path.mem_of_HasSuffix P hP (by simpa using hs)
      exact (hlit "**" this).2 rfl
    simp only [IsRouteAllowed, allowedLoop, path.Clean_joinPath P hP, path.Clean_joinPath R hR,
      hsuf]
    constructor
    · intro h
      by_cases heq : path.joinPath P = path.joinPath R
      · exact heq.symm
      · simp only [heq, if_false, Bool.false_eq_true, false_and] at h
        split_ifs at h with hw
        have hm := hw.2
        rw [matchWildcardPattern_clean P R hP hR] at hm
        split_ifs at hm with hlen
        have hPR := wildcardLoop_literal _ (path.LiteralSegments_trimmedParts P hlit) _
          (by simpa using hlen) hm
        rw [path.trimmedParts_inj P R hP hR hPR]
    · intro h
      simp [h]

/-- C15 on the pattern and route `/orders/list`. -/
theorem exact_pattern_matches_itself_witness :
    (service.matchRoute "/orders/list" "/orders/list" = true ↔
        ("/orders/list" : String) = "/orders/list") ∧
      (IsRouteAllowed "/orders/list" ["/orders/list"] = true ↔
        ("/orders/list" : String) = "/orders/list") :=
  exact_pattern_matches_itself "/orders/list" "/orders/list"
    ⟨["orders", "list"], by
      intro s hs
      simp at hs
      rcases hs with h | h <;> subst h <;> decide, by decide⟩
    ⟨["orders", "list"], by
      intro s hs
      simp at hs
      rcases hs with h | h <;> subst h <;> decide, by decide⟩
    ⟨by decide, by decide⟩

end utils

/-! ## The single-segment wildcard -/

namespace strings

/-- No piece of a split holds the separator. -/
theorem not_mem_of_mem_splitChars (sep : Char) (l : List Char) :
    ∀ x ∈ splitChars sep l, sep ∉ x := by
  induction l with
  | nil => intro x hx; simp [splitChars] at hx; subst hx; simp
  | cons c cs ih =>
    intro x hx
    simp only [splitChars] at hx
    split_ifs at hx with hc
    · rcases List.mem_cons.mp hx with h | h
      · subst h; simp
      · exact ih x h
    · rcases hsp : splitChars sep cs with _ | ⟨h, t⟩
      · exact absurd hsp (splitChars_ne_nil sep cs)
      · rw [hsp] at hx ih
        rcases List.mem_cons.mp hx with h1 | h1
        · subst h1
          intro hm
          rcases List.mem_cons.mp hm with h2 | h2
          · exact hc h2.symm
          · exact ih h (by simp) h2
        · exact ih x (List.mem_cons_of_mem _ h1)

end strings

namespace path

/-- What `path.Clean` keeps of a rooted path is in clean form. -/
theorem CleanSegments_routeSegments (r : String) : CleanSegments (routeSegments r) := by
  have hstep : ∀ (segs acc : List String), (∀ s ∈ segs, '/' ∉ s.toList) → CleanSegments acc →
      CleanSegments (segs.foldl cleanStep acc) := by
    intro segs
    induction segs with
    | nil => intro acc _ h; exact h
    | cons s rest ih =>
      intro acc hs hacc
      refine ih _ (fun x hx => hs x (List.mem_cons_of_mem _ hx)) ?_
      unfold cleanStep
      split_ifs with h1 h2
      · exact hacc
      · exact fun x hx => hacc x (List.mem_of_mem_dropLast hx)
      · intro x hx
        rcases List.mem_append.mp hx with h | h
        · exact hacc x h
        · simp at h
          subst h
          exact ⟨fun h => h1 (Or.inl h), fun h => h1 (Or.inr h), h2, hs x (by simp)⟩
  refine hstep _ [] ?_ (fun s hs => by simp at hs)
  intro s hs
  obtain ⟨x, hx, rfl⟩ := List.mem_map.mp hs
  exact strings.not_mem_of_mem_splitChars '/' _ x hx

end path

namespace service

/-- Pattern parts without `**` match exactly the routes that agree with them
part by part, `*` standing for any one part. -/
theorem matchParts_star_iff (A : List String) (hA : "**" ∉ A) :
    ∀ B : List String,
      (match matchParts A B with
        | some b => b
        | none => decide (B.length = A.length)) = true ↔ path.StarMatches A B := by
  induction A with
  | nil =>
    intro B
    cases B <;> simp [matchParts, path.StarMatches]
  | cons a rest ih =>
    intro B
    have h2 : a ≠ "**" := fun h => hA (by simp [h])
    have hrest : "**" ∉ rest := fun h => hA (List.mem_cons_of_mem _ h)
    cases B with
    | nil => simp [matchParts, path.StarMatches]
    | cons b Brest =>
      have hrec := ih hrest Brest
      unfold path.StarMatches at hrec ⊢
      rw [List.forall₂_cons]
      by_cases h1 : a = "*"
      · simp only [matchParts, h1, if_true, List.length_cons, add_left_inj, true_or, true_and]
        exact hrec
      · by_cases hab : a = b
        · subst hab
          simp only [matchParts, h1, h2, if_false, ne_eq, not_true_eq_false, List.length_cons,
            add_left_inj, or_true, true_and]
          exact hrec
        · simp [matchParts, h1, h2, hab]

/-- The routes a clean pattern without `**` matches: those that agree with it
segment by segment, and, for the pattern `/*` alone, also the routes that
clean to the root `/`. -/
theorem matchRoute_star_iff (P : List String) (hP : path.CleanSegments P) (hne : P ≠ [])
    (hstar : "**" ∉ P) (r : String) :
    matchRoute (path.joinPath P) r = true ↔
      path.StarMatches P (path.routeSegments r) ∨ (P = ["*"] ∧ path.routeSegments r = []) := by
  have hR := path.CleanSegments_routeSegments r
  have hroute : path.Clean ("/" ++ r) = path.joinPath (path.routeSegments r) := rfl
  have hA : "**" ∉ path.rootedParts P := by
    simp only [path.rootedParts, hne, if_false, List.mem_cons, not_or]
    exact ⟨by decide, hstar⟩
  have hm := matchParts_star_iff (path.rootedParts P) hA (path.rootedParts (path.routeSegments r))
  have hkey : matchRoute (path.joinPath P) r = true ↔
      path.StarMatches (path.rootedParts P) (path.rootedParts (path.routeSegments r)) := by
    simp only [matchRoute, path.Clean_joinPath P hP, hroute, path.Split_joinPath P hP,
      path.Split_joinPath _ hR]
    constructor
    · intro h
      split_ifs at h with hc
      exact hm.mp h
    · intro h
      have hlen := List.Forall₂.length_eq h
      rw [if_neg (fun hc => hc.1 hlen)]
      exact hm.mpr h
  rw [hkey]
  unfold path.StarMatches
  by_cases hRe : path.routeSegments r = []
  · rw [hRe]
    have hp : path.rootedParts P = "" :: P := by simp [path.rootedParts, hne]
    have hr : path.rootedParts [] = ["", ""] := rfl
    rw [hp, hr]
    constructor
    · intro h
      cases P with
      | nil => exact absurd rfl hne
      | cons a rest =>
        rw [List.forall₂_cons, List.forall₂_cons] at h
        obtain ⟨_, h1, h2⟩ := h
        have hrest : rest = [] := List.forall₂_nil_right_iff.mp h2
        have ha : a = "*" := by
          rcases h1 with h1 | h1
          · exact h1
          · exact absurd h1 (hP a (by simp)).1
        right
        exact ⟨by rw [ha, hrest], rfl⟩
    · rintro (h | ⟨h, _⟩)
      · exact absurd (List.forall₂_nil_right_iff.mp h) hne
      · rw [h]
        simp
  · simp only [path.rootedParts, hne, hRe, if_false, List.forall₂_cons, or_true, true_and,
      and_false, or_false]

/-- C13 at the failing input: the pattern `/*` matches the root route `/`
(and the empty route, which cleans to `/`), a route with no segment at all.
`/orders/*` matches `/orders/123` and not `/orders/123/items`. -/
theorem star_matches_root :
    matchRoute "/*" "/" = true ∧ matchRoute "/*" "" = true ∧
      path.routeSegments "/" = [] ∧
      ¬ path.StarMatches ["*"] (path.routeSegments "/") ∧
      matchRoute "/orders/*" "/orders/123" = true ∧
      matchRoute "/orders/*" "/orders/123/items" = false := by
  refine ⟨by decide, by decide, by decide, ?_, by decide, by decide⟩
  have h : path.routeSegments "/" = [] := by decide
  rw [h]
  intro hm
  cases hm

end service

namespace utils

/-- C16 at the failing input: against the allowed route `/api/**`, the route
`/apix/secret` is allowed by `utils.IsRouteAllowed`, through the string test
`HasPrefix(routePath, "/api")`, and passes the proxy middleware, although its
first segment is `apix`; the segment-wise `matchRoute` rejects it. And against
`/*` the root route `/`, which has no segment, is allowed. -/
theorem prefix_route_allowed :
    IsRouteAllowed "/apix/secret" ["/api/**"] = true ∧
      Proxy (some ["/api/**"]) "/apix/secret" = none ∧
      matchWildcardPattern "/api/**" "/apix/secret" = false ∧
      strings.HasPrefix "/apix/secret" (strings.TrimSuffix "/api/**" "/**") = true ∧
      service.matchRoute "/api/**" "/apix/secret" = false ∧
      IsRouteAllowed "/" ["/*"] = true := by
  refine ⟨by decide, by decide, by decide, by decide, by decide, by decide⟩

end utils

/-! ## Properties of the token service -/

namespace service

/-- A cache hit of `VerifyToken` returns the cached claims. -/
theorem VerifyToken_hit (s : AuthService) (c : cache.RedisCache) (token : String)
    (tGet tValidate tAdd tUntil tSet : Time) (claims : jwt.Claims)
    (h : cache.GetTokenClaims s.json c token tGet = some claims) :
    VerifyToken s c token tGet tValidate tAdd tUntil tSet = (c, Except.ok claims) := by
  simp only [VerifyToken, h]

/-- The first verification of `token-1` at time `t`, before its expiry, with
customer `C1` active: the claims are cached for 24 hours from `t`. -/
theorem VerifyToken_first (t : Time) (ht : t < 86400) :
    VerifyToken (authWith activeCustomer) emptyCache "token-1" t t t t t =
      ({ entries := [{ key := "token:token-1", data := "claims:C1",
                       expiresAt := some (t + 86400) }] },
        Except.ok sampleClaims) := by
  have hv : sampleValidate "token-1" t = Except.ok sampleClaims := by
    simp [sampleValidate, sampleClaims, ht]
  have hget : cache.GetTokenClaims sampleJson emptyCache "token-1" t = none := rfl
  have hc : (authWith activeCustomer).GetCustomer sampleClaims.CustomerID =
      Except.ok activeCustomer := rfl
  have hs : ¬ activeCustomer.Status ≠ "active" := by decide
  simp only [VerifyToken, authWith, hget, hv, hs, if_false]
  simp only [authWith] at hc
  rw [hc]
  simp only [hs, if_false, cache.SetTokenClaims, cache.clientSet, tokenCacheTTL, emptyCache]
  norm_num
  exact ⟨by decide, rfl⟩

/-- The claims cached by the first verification are read back until the key
expires, 24 hours after it was written. -/
theorem GetTokenClaims_cached (t now : Time) (hnow : now < t + 86400) :
    cache.GetTokenClaims sampleJson
        { entries := [{ key := "token:token-1", data := "claims:C1",
                        expiresAt := some (t + 86400) }] } "token-1" now =
      some sampleClaims := by
  have hk : ("token:" ++ "token-1" : String) = "token:token-1" := by decide
  simp [cache.GetTokenClaims, cache.clientGet, hk, hnow, sampleJson]

/-- C17, refuted: the token `token-1` of customer `C1` is verified at time 100
while `C1` is active, which caches its claims; `C1` is then deactivated in the
directory, and `VerifyToken` at time 200 still returns the claims. -/
theorem VerifyToken_cached_after_deactivation :
    (VerifyToken (authWith activeCustomer) emptyCache "token-1" 100 100 100 100 100).2 =
        Except.ok sampleClaims ∧
      (authWith inactiveCustomer).GetCustomer sampleClaims.CustomerID =
        Except.ok inactiveCustomer ∧
      inactiveCustomer.Status ≠ "active" ∧
      (VerifyToken (authWith inactiveCustomer)
        (VerifyToken (authWith activeCustomer) emptyCache "token-1" 100 100 100 100 100).1
        "token-1" 200 200 200 200 200).2 = Except.ok sampleClaims := by
  rw [VerifyToken_first 100 (by norm_num)]
  refine ⟨rfl, rfl, by decide, ?_⟩
  rw [VerifyToken_hit _ _ _ _ _ _ _ _ sampleClaims
    (GetTokenClaims_cached 100 200 (by norm_num))]

/-- C17, amended: when the claims of a token are not in the token cache and the
customer of the token is deactivated in the directory, `VerifyToken` fails with
`ErrCustomerInactive` and caches nothing; when the claims are in the cache,
`VerifyToken` returns them, whatever the directory says. -/
theorem VerifyToken_inactive_on_miss (s : AuthService) (c : cache.RedisCache)
    (token : String) (tGet tValidate tAdd tUntil tSet : Time) :
    (cache.GetTokenClaims s.json c token tGet = none →
        ∀ (claims : jwt.Claims) (customer : models.Customer),
          s.ValidateToken token tValidate = Except.ok claims →
          s.GetCustomer claims.CustomerID = Except.ok customer →
          customer.Status ≠ "active" →
          VerifyToken s c token tGet tValidate tAdd tUntil tSet =
            (c, Except.error ErrCustomerInactive)) ∧
      (∀ claims : jwt.Claims, cache.GetTokenClaims s.json c token tGet = some claims →
        VerifyToken s c token tGet tValidate tAdd tUntil tSet = (c, Except.ok claims)) := by
  refine ⟨?_, ?_⟩
  · intro hmiss claims customer hv hc hst
    simp only [VerifyToken, hmiss, hv, hc]
    rw [if_pos hst]
  · intro claims h
    exact VerifyToken_hit s c token tGet tValidate tAdd tUntil tSet claims h

/-- C17 amended, on a first verification of `token-1` after `C1` was
deactivated: it fails. -/
theorem VerifyToken_inactive_on_miss_witness :
    VerifyToken (authWith inactiveCustomer) emptyCache "token-1" 100 100 100 100 100 =
      (emptyCache, Except.error ErrCustomerInactive) :=
  (VerifyToken_inactive_on_miss (authWith inactiveCustomer) emptyCache "token-1"
    100 100 100 100 100).1 rfl sampleClaims inactiveCustomer
    (by simp [authWith, sampleValidate, sampleClaims]; norm_num) rfl (by decide)

end service

namespace service

/-- The expiration passed to the token cache is the configured token lifetime,
less the time between the two clock readings; the expiry of the token being
cached does not enter it. -/
theorem tokenCacheTTL_eq (s : AuthService) (tAdd tUntil : Time) :
    tokenCacheTTL s tAdd tUntil = (s.ExpirationHours : ℚ) * 3600 - (tUntil - tAdd) := by
  unfold tokenCacheTTL
  ring

/-- A cache miss that verifies caches the claims under `tokenCacheTTL`. -/
theorem VerifyToken_miss_success (s : AuthService) (c : cache.RedisCache) (token : String)
    (tGet tValidate tAdd tUntil tSet : Time) (claims : jwt.Claims) (customer : models.Customer)
    (hmiss : cache.GetTokenClaims s.json c token tGet = none)
    (hv : s.ValidateToken token tValidate = Except.ok claims)
    (hc : s.GetCustomer claims.CustomerID = Except.ok customer)
    (hst : customer.Status = "active") :
    VerifyToken s c token tGet tValidate tAdd tUntil tSet =
      (cache.SetTokenClaims s.json c token claims (tokenCacheTTL s tAdd tUntil) tSet,
        Except.ok claims) := by
  simp only [VerifyToken, hmiss, hv, hc]
  rw [if_neg (not_not.mpr hst)]

/-- C18 at the failing input: tokens last 24 hours; `token-1` was issued at
time 0 and expires at 86400 s. Its first verification, at 82800 s (23 h), is a
cache miss that succeeds: the expiration passed to the cache is 86400 s, not
the 3600 s left until the token expires, and the key lives until 169200 s. At
90000 s (25 h) the token check rejects the expired token, yet `VerifyToken`
returns its claims from the cache. -/
theorem cached_claims_outlive_token :
    sampleClaims.ExpiresAt = 86400 ∧
      tokenCacheTTL (authWith activeCustomer) 82800 82800 = 86400 ∧
      sampleClaims.ExpiresAt - 82800 = 3600 ∧
      (VerifyToken (authWith activeCustomer) emptyCache "token-1"
        82800 82800 82800 82800 82800).1 =
        { entries := [{ key := "token:token-1", data := "claims:C1",
                        expiresAt := some (82800 + 86400) }] } ∧
      (authWith activeCustomer).ValidateToken "token-1" 90000 =
        Except.error "token is invalid or expired" ∧
      (VerifyToken (authWith activeCustomer)
        (VerifyToken (authWith activeCustomer) emptyCache "token-1"
          82800 82800 82800 82800 82800).1
        "token-1" 90000 90000 90000 90000 90000).2 = Except.ok sampleClaims := by
  rw [VerifyToken_first 82800 (by norm_num)]
  refine ⟨rfl, ?_, ?_, rfl, ?_, ?_⟩
  · rw [tokenCacheTTL_eq]; norm_num [authWith]
  · norm_num [sampleClaims]
  · simp [authWith, sampleValidate, sampleClaims]
    norm_num
  · rw [VerifyToken_hit _ _ _ _ _ _ _ _ sampleClaims
      (GetTokenClaims_cached 82800 90000 (by norm_num))]

end service

/-! ## Properties of the route-permission cache -/

namespace cache

/-- A key written with a positive expiration is read back until it expires. -/
theorem clientGet_clientSet (c : RedisCache) (key data : String) (expiration : Duration)
    (tSet now : Time) (hpos : 0 < expiration) (hnow : now < tSet + expiration) :
    clientGet (clientSet c key data expiration tSet) key now = some data := by
  simp [clientGet, clientSet, hpos, hnow]

end cache

namespace service

/-- C19: `IsRouteAllowed` is cache-first. A cached decision for
`(customerID, route)` is returned, whatever the directory holds, with the cache
unchanged. On a miss with a successful directory lookup the result is true iff
one of the customer's allowed-route patterns matches the route under
`matchRoute`, it is written under `(customerID, route)` for one hour, and it is
read back during that hour. On a miss with a failed lookup the result is false
and nothing is written. -/
theorem IsRouteAllowed_cache_first (s : AuthService) (c : cache.RedisCache)
    (customerID route : String) (tGet tSet : Time) :
    (∀ val, cache.clientGet c (cache.routePermissionKey customerID route) tGet = some val →
        IsRouteAllowed s c customerID route tGet tSet = (c, decide (val = "true"))) ∧
      (cache.clientGet c (cache.routePermissionKey customerID route) tGet = none →
        ∀ customer, s.GetCustomer customerID = Except.ok customer →
          ((IsRouteAllowed s c customerID route tGet tSet).2 = true ↔
            ∃ allowedRoute ∈ customer.AllowedRoutes, matchRoute allowedRoute route = true) ∧
          (IsRouteAllowed s c customerID route tGet tSet).1 =
            cache.SetRoutePermission c customerID route
              (IsRouteAllowed s c customerID route tGet tSet).2 3600 tSet ∧
          ∀ now, now < tSet + 3600 →
            cache.GetRoutePermission (IsRouteAllowed s c customerID route tGet tSet).1
              customerID route now = ((IsRouteAllowed s c customerID route tGet tSet).2, true)) ∧
      (cache.clientGet c (cache.routePermissionKey customerID route) tGet = none →
        ∀ err, s.GetCustomer customerID = Except.error err →
          IsRouteAllowed s c customerID route tGet tSet = (c, false)) := by
  refine ⟨?_, ?_, ?_⟩
  · intro val h
    simp only [IsRouteAllowed, cache.GetRoutePermission, h]
  · intro h customer hc
    have hres : IsRouteAllowed s c customerID route tGet tSet =
        (cache.SetRoutePermission c customerID route
          (customer.AllowedRoutes.any (fun allowedRoute => matchRoute allowedRoute route))
          3600 tSet,
         customer.AllowedRoutes.any (fun allowedRoute => matchRoute allowedRoute route)) := by
      simp only [IsRouteAllowed, cache.GetRoutePermission, h, hc]
    rw [hres]
    refine ⟨by simp [List.any_eq_true], rfl, ?_⟩
    intro now hnow
    have hget := cache.clientGet_clientSet c (cache.routePermissionKey customerID route)
      (if customer.AllowedRoutes.any (fun allowedRoute => matchRoute allowedRoute route) = true
        then "true" else "false") 3600 tSet now (by norm_num) hnow
    simp only [cache.GetRoutePermission, cache.SetRoutePermission, hget]
    cases customer.AllowedRoutes.any (fun allowedRoute => matchRoute allowedRoute route) <;>
      simp
  · intro h err hc
    simp only [IsRouteAllowed, cache.GetRoutePermission, h, hc]

/-- C19 on customer `C1`, allowed on `/api/**`, asking for `/api/widgets` with an
empty cache: the decision is true. -/
theorem IsRouteAllowed_cache_first_witness :
    (IsRouteAllowed (authWith activeCustomer) emptyCache "C1" "/api/widgets" 0 0).2 = true :=
  (((IsRouteAllowed_cache_first (authWith activeCustomer) emptyCache "C1" "/api/widgets"
    0 0).2.1 rfl activeCustomer rfl).1).mpr ⟨"/api/**", by decide, by decide⟩

end service

/-! ## Properties of the agent handshake -/

namespace agent

/-- Once the lookups and the format check have passed, the handshake accepts
exactly the credential that `generateAgentToken` builds at the time of the
check: the expected credential carries the current Unix second, not the
timestamp of the presented one. -/
theorem validateAgentCredentials_accepts_iff (h : AgentHandler) (c : cache.RedisCache)
    (agentID customerID token : String) (tGet tFormat tGen tSet : Time)
    (customer : models.Customer) (agent : models.Agent)
    (hid : ¬ (agentID = "" ∨ customerID = "" ∨ token = ""))
    (hmiss : cache.RedisCache.Get c (TokenCachePrefix ++ customerID ++ "_" ++ agentID) tGet ≠
      some token)
    (hc : h.GetCustomer customerID = Except.ok customer) (hcs : customer.Status = "active")
    (ha : h.GetAgent agentID = Except.ok agent) (hown : agent.CustomerID = customerID)
    (has : agent.Status = "active") (hfmt : validateTokenFormat token tFormat = none) :
    (validateAgentCredentials h c agentID customerID token tGet tFormat tGen tSet).2 = none ↔
      token = generateAgentToken h agent customer.APIKey tGen := by
  simp only [validateAgentCredentials, hid, if_false, hmiss, hc, hcs, ha, hown, has, hfmt,
    ne_eq, not_true_eq_false, compareTokens]
  by_cases heq : token = generateAgentToken h agent customer.APIKey tGen
  · simp [heq]
  · simp [heq]

/-- The sample credential for the Unix second 1700000000. -/
theorem credentialAt_earlier :
    credentialAt 1700000000 = "1700000000.key1A1C11700000000" := by
  decide

/-- The credential the handler expects at the instant 1700000100. -/
theorem generateAgentToken_now :
    generateAgentToken sampleHandler sampleAgent service.activeCustomer.APIKey 1700000100 =
      "1700000100.key1A1C11700000100" := by
  have hfloor : ⌊(1700000100 : ℚ)⌋ = 1700000100 := by
    rw [show (1700000100 : ℚ) = ((1700000100 : ℤ) : ℚ) by norm_num, Int.floor_intCast]
  simp only [generateAgentToken, hfloor]
  decide

/-- C20 at the failing input: customer `C1` and its agent `A1` are active; at
the instant 1700000100 the agent presents the credential of the claim for the
timestamp 1700000000, 100 s earlier and well inside the 24 hours. The format
and expiry check passes, but the expected credential is built from the current
second, so the handshake fails with `invalid token signature`. -/
theorem handshake_rejects_earlier_timestamp :
    validateTokenFormat (credentialAt 1700000000) 1700000100 = none ∧
      validateAgentCredentials sampleHandler service.emptyCache "A1" "C1"
        (credentialAt 1700000000) 1700000100 1700000100 1700000100 1700000100 =
        (service.emptyCache, some "invalid token signature") := by
  have hparts : strings.Split "1700000000.key1A1C11700000000" '.' =
      ["1700000000", "key1A1C11700000000"] := by decide
  have hparse : strconv.ParseInt "1700000000" = some 1700000000 := by decide
  have hfmt : validateTokenFormat (credentialAt 1700000000) 1700000100 = none := by
    have hadd : unixAddSeconds 1700000000 86400 = 63835683200 := by decide
    rw [credentialAt_earlier]
    simp only [validateTokenFormat, hparts, List.length_cons, List.length_nil, List.headD_cons,
      hparse, hadd, unixToInternal]
    norm_num
  refine ⟨hfmt, ?_⟩
  have hid : ¬ (("A1" : String) = "" ∨ ("C1" : String) = "" ∨
      credentialAt 1700000000 = "") := by
    rw [credentialAt_earlier]; decide
  have hc : sampleHandler.GetCustomer "C1" = Except.ok service.activeCustomer := rfl
  have ha : sampleHandler.GetAgent "A1" = Except.ok sampleAgent := rfl
  have hmiss : cache.RedisCache.Get service.emptyCache
      (TokenCachePrefix ++ "C1" ++ "_" ++ "A1") 1700000100 ≠
        some (credentialAt 1700000000) := by
    simp [cache.RedisCache.Get, cache.clientGet, service.emptyCache]
  have hne : ¬ credentialAt 1700000000 =
      generateAgentToken sampleHandler sampleAgent service.activeCustomer.APIKey 1700000100 := by
    rw [credentialAt_earlier, generateAgentToken_now]; decide
  have hcs : ¬ service.activeCustomer.Status ≠ "active" := by decide
  have hown : ¬ sampleAgent.CustomerID ≠ "C1" := by decide
  have has : ¬ sampleAgent.Status ≠ "active" := by decide
  simp only [validateAgentCredentials, hid, if_false, hmiss, hc, ha, hcs, hown, has, hfmt,
    compareTokens, hne, decide_False, Bool.false_eq_true, not_false_eq_true, if_true]

end agent

namespace agent

/-- The largest `int64` timestamp: `time.Unix` wraps it to an instant before
the year 1, and the format check answers `token expired`. -/
theorem validateTokenFormat_wraps :
    validateTokenFormat "9223372036854775807.0" 1700000000 = some "token expired" := by
  have hparts : strings.Split "9223372036854775807.0" '.' = ["9223372036854775807", "0"] := by
    decide
  have hparse : strconv.ParseInt "9223372036854775807" = some 9223372036854775807 := by decide
  have hadd : unixAddSeconds 9223372036854775807 86400 = -9223371974719092609 := by decide
  simp only [validateTokenFormat, hparts, List.length_cons, List.length_nil, List.headD_cons,
    hparse, hadd, unixToInternal]
  norm_num

end agent

/-! ## Invariants of the token bucket -/

namespace validator

end validator

/-! ## The string round trip of the cache and the handshake cache -/

namespace cache

/-- What `Get` returns for a key written by `Set` with a positive expiration,
until it expires: the JSON text of the value. -/
theorem Get_Set_json_text (json : Json) (c : RedisCache) (key value : String)
    (expiration : Duration) (tSet now : Time) (hpos : 0 < expiration)
    (hnow : now < tSet + expiration) :
    RedisCache.Get (RedisCache.Set json c key value expiration tSet) key now =
      some (json.marshalString value) := by
  simp [RedisCache.Get, RedisCache.Set, clientGet, clientSet, hpos, hnow]

end cache

namespace agent

/-- The sample credential for the Unix second 1700000100. -/
theorem credentialAt_now :
    credentialAt 1700000100 = "1700000100.key1A1C11700000100" := by
  decide

/-- The credential the handler expects at the instant 1700000160. -/
theorem generateAgentToken_later :
    generateAgentToken sampleHandler sampleAgent service.activeCustomer.APIKey 1700000160 =
      "1700000160.key1A1C11700000160" := by
  have hfloor : ⌊(1700000160 : ℚ)⌋ = 1700000160 := by
    rw [show (1700000160 : ℚ) = ((1700000160 : ℤ) : ℚ) by norm_num, Int.floor_intCast]
  simp only [generateAgentToken, hfloor]
  decide

/-- The format check of the sample credential for 1700000100 passes at the
instant `now` up to 24 hours later. -/
theorem validateTokenFormat_now (now : Time) (h : now ≤ 1700000100 + 24 * 3600) :
    validateTokenFormat (credentialAt 1700000100) now = none := by
  have hparts : strings.Split "1700000100.key1A1C11700000100" '.' =
      ["1700000100", "key1A1C11700000100"] := by decide
  have hparse : strconv.ParseInt "1700000100" = some 1700000100 := by decide
  have hadd : unixAddSeconds 1700000100 86400 = 63835683300 := by decide
  rw [credentialAt_now]
  simp only [validateTokenFormat, hparts, List.length_cons, List.length_nil, List.headD_cons,
    hparse, hadd, unixToInternal]
  have hlt : ¬ (((63835683300 : Int) : ℚ) < now + ((62135596800 : Int) : ℚ)) := by
    push_cast; linarith
  rw [if_neg hlt]
  simp

/-- The cache after the sample credential for 1700000100 has been accepted at
that instant. -/
theorem cacheAfterHandshake_eq :
    cache.RedisCache.Set sampleHandler.json service.emptyCache
        (TokenCachePrefix ++ "C1" ++ "_" ++ "A1") (credentialAt 1700000100) (15 * 60)
        1700000100 =
      { entries := [{ key := "agent_token:C1_A1",
                      data := "\"1700000100.key1A1C11700000100\"",
                      expiresAt := some (1700000100 + 15 * 60) }] } := by
  rw [credentialAt_now]
  have hkey : TokenCachePrefix ++ "C1" ++ "_" ++ "A1" = "agent_token:C1_A1" := by decide
  have hdata : sampleHandler.json.marshalString "1700000100.key1A1C11700000100" =
      "\"1700000100.key1A1C11700000100\"" := by decide
  rw [hkey]
  simp only [cache.RedisCache.Set, cache.clientSet, hdata, service.emptyCache, List.filter_nil]
  norm_num

/-- C21 at the failing input. `Set("k", "abc", 15 min)` at time 0 stores the
JSON text of the string, so `Get("k")` one second later returns `"abc"` with
its double quotes, not `abc`. In the handshake, customer `C1` and agent `A1`
are active and the credential for the Unix second 1700000100 is accepted at
that instant and cached; when the same credential is presented 60 s later the
cache holds its JSON text, the comparison with the presented credential fails,
the credential is not recognised as recently validated, and the full check
rejects it with `invalid token signature`. -/
theorem cached_credential_not_recognised :
    cache.RedisCache.Get
        (cache.RedisCache.Set service.sampleJson service.emptyCache "k" "abc" (15 * 60) 0)
        "k" 1 = some "\"abc\"" ∧
      validateAgentCredentials sampleHandler service.emptyCache "A1" "C1"
          (credentialAt 1700000100) 1700000100 1700000100 1700000100 1700000100 =
        (cache.RedisCache.Set sampleHandler.json service.emptyCache
          (TokenCachePrefix ++ "C1" ++ "_" ++ "A1") (credentialAt 1700000100) (15 * 60)
          1700000100, none) ∧
      cache.RedisCache.Get
          (cache.RedisCache.Set sampleHandler.json service.emptyCache
            (TokenCachePrefix ++ "C1" ++ "_" ++ "A1") (credentialAt 1700000100) (15 * 60)
            1700000100)
          (TokenCachePrefix ++ "C1" ++ "_" ++ "A1") 1700000160 =
        some ("\"" ++ credentialAt 1700000100 ++ "\"") ∧
      validateAgentCredentials sampleHandler
          (cache.RedisCache.Set sampleHandler.json service.emptyCache
            (TokenCachePrefix ++ "C1" ++ "_" ++ "A1") (credentialAt 1700000100) (15 * 60)
            1700000100)
          "A1" "C1" (credentialAt 1700000100) 1700000160 1700000160 1700000160 1700000160 =
        (cache.RedisCache.Set sampleHandler.json service.emptyCache
          (TokenCachePrefix ++ "C1" ++ "_" ++ "A1") (credentialAt 1700000100) (15 * 60)
          1700000100, some "invalid token signature") := by
  have hid : ¬ (("A1" : String) = "" ∨ ("C1" : String) = "" ∨
      credentialAt 1700000100 = "") := by
    rw [credentialAt_now]; decide
  have hc : sampleHandler.GetCustomer "C1" = Except.ok service.activeCustomer := rfl
  have ha : sampleHandler.GetAgent "A1" = Except.ok sampleAgent := rfl
  have hcs : ¬ service.activeCustomer.Status ≠ "active" := by decide
  have hown : ¬ sampleAgent.CustomerID ≠ "C1" := by decide
  have has : ¬ sampleAgent.Status ≠ "active" := by decide
  have hfmt1 := validateTokenFormat_now 1700000100 (by norm_num)
  have hfmt2 := validateTokenFormat_now 1700000160 (by norm_num)
  have hmiss1 : cache.RedisCache.Get service.emptyCache
      (TokenCachePrefix ++ "C1" ++ "_" ++ "A1") 1700000100 ≠
        some (credentialAt 1700000100) := by
    simp [cache.RedisCache.Get, cache.clientGet, service.emptyCache]
  have hget : cache.RedisCache.Get
      (cache.RedisCache.Set sampleHandler.json service.emptyCache
        (TokenCachePrefix ++ "C1" ++ "_" ++ "A1") (credentialAt 1700000100) (15 * 60)
        1700000100)
      (TokenCachePrefix ++ "C1" ++ "_" ++ "A1") 1700000160 =
        some ("\"" ++ credentialAt 1700000100 ++ "\"") := by
    rw [cache.Get_Set_json_text _ _ _ _ _ _ _ (by norm_num) (by norm_num)]
    rfl
  have hmiss2 : cache.RedisCache.Get
      (cache.RedisCache.Set sampleHandler.json service.emptyCache
        (TokenCachePrefix ++ "C1" ++ "_" ++ "A1") (credentialAt 1700000100) (15 * 60)
        1700000100)
      (TokenCachePrefix ++ "C1" ++ "_" ++ "A1") 1700000160 ≠
        some (credentialAt 1700000100) := by
    rw [hget, credentialAt_now]; decide
  have heq : credentialAt 1700000100 =
      generateAgentToken sampleHandler sampleAgent service.activeCustomer.APIKey 1700000100 := by
    rw [credentialAt_now, generateAgentToken_now]
  have hne : ¬ credentialAt 1700000100 =
      generateAgentToken sampleHandler sampleAgent service.activeCustomer.APIKey 1700000160 := by
    rw [credentialAt_now, generateAgentToken_later]; decide
  refine ⟨?_, ?_, hget, ?_⟩
  · rw [cache.Get_Set_json_text _ _ _ _ _ _ _ (by norm_num) (by norm_num)]
    rfl
  · simp only [validateAgentCredentials, hid, if_false, hmiss1, hc, ha, hcs, hown, has, hfmt1,
      compareTokens, ← heq, decide_True, not_true_eq_false]
  · simp only [validateAgentCredentials, hid, if_false, hmiss2, hc, ha, hcs, hown, has, hfmt2,
      compareTokens, hne, decide_False, Bool.false_eq_true, not_false_eq_true, if_true]

end agent

/-! ## Properties of the agent registry -/

namespace websocket

/-- After `Close` the connection is closed, whatever `Close` returns. -/
theorem Close_mem (w : Sockets) (conn : Conn) : conn ∈ (Close w conn).1.closed := by
  unfold Close
  split_ifs with h
  · exact h
  · simp

/-- `Close` closes nothing that was closed before. -/
theorem Close_mono (w : Sockets) (conn other : Conn) (h : other ∈ w.closed) :
    other ∈ (Close w conn).1.closed := by
  unfold Close
  split_ifs with hc
  · exact h
  · simp [h]

/-- `Close` of an open connection returns `nil`. -/
theorem Close_open (w : Sockets) (conn : Conn) (h : conn ∉ w.closed) :
    Close w conn = ({ closed := conn :: w.closed }, none) := by
  simp [Close, h]

/-- `Close` of a closed connection returns an error and changes nothing. -/
theorem Close_closed (w : Sockets) (conn : Conn) (h : conn ∈ w.closed) :
    Close w conn = (w, some errClosed) := by
  simp [Close, h]

end websocket

namespace agent

/-- A deleted key is not found. -/
theorem lookup_remove_self (am : AgentManager) (agentID : String) :
    (am.remove agentID).lookup agentID = none := by
  cases am with
  | mk l =>
    simp only [AgentManager.remove, AgentManager.lookup]
    induction l with
    | nil => rfl
    | cons e l ih =>
      rcases e with ⟨k, v⟩
      by_cases h : k = agentID
      · rw [List.filter_cons_of_neg (by simp [h])]
        exact ih
      · have hne : (agentID == k) = false := beq_eq_false_iff_ne.mpr (fun hc => h hc.symm)
        rw [List.filter_cons_of_pos (by simp [h])]
        simp only [List.lookup_cons, hne]
        exact ih

/-- Deleting a key leaves the other keys as they were. -/
theorem lookup_remove_ne (am : AgentManager) (agentID other : String) (hne : other ≠ agentID) :
    (am.remove agentID).lookup other = am.lookup other := by
  cases am with
  | mk l =>
    simp only [AgentManager.remove, AgentManager.lookup]
    induction l with
    | nil => rfl
    | cons e l ih =>
      rcases e with ⟨k, v⟩
      by_cases h : k = agentID
      · have hk : (other == k) = false := beq_eq_false_iff_ne.mpr (fun hc => hne (hc.trans h))
        rw [List.filter_cons_of_neg (by simp [h])]
        simp only [List.lookup_cons, hk]
        exact ih
      · rw [List.filter_cons_of_pos (by simp [h])]
        simp only [List.lookup_cons]
        cases hk : (other == k)
        · exact ih
        · rfl

/-- A stored entry is found under its key. -/
theorem lookup_store_self (am : AgentManager) (agentID : String) (agent : AgentConnection) :
    (am.store agentID agent).lookup agentID = some agent := by
  simp [AgentManager.store, AgentManager.lookup, List.lookup_cons]

/-- Storing under a key leaves the other keys as they were. -/
theorem lookup_store_ne (am : AgentManager) (agentID other : String) (agent : AgentConnection)
    (hne : other ≠ agentID) : (am.store agentID agent).lookup other = am.lookup other := by
  have hk : (other == agentID) = false := by
    simp only [beq_eq_false_iff_ne, ne_eq]
    exact hne
  have h := lookup_remove_ne am agentID other hne
  simp only [AgentManager.remove, AgentManager.lookup] at h
  simp only [AgentManager.store, AgentManager.lookup, List.lookup_cons, hk]
  exact h

/-- After a store the map holds one entry under the key. -/
theorem store_one_entry (am : AgentManager) (agentID : String) (agent : AgentConnection) :
    ((am.store agentID agent).connections.filter (fun e => e.1 = agentID)).length = 1 := by
  simp [AgentManager.store, List.filter_cons, List.filter_filter]

/-- After a store the entries of the other keys are the ones from before. -/
theorem store_others (am : AgentManager) (agentID : String) (agent : AgentConnection) :
    (am.store agentID agent).connections.filter (fun e => e.1 ≠ agentID) =
      am.connections.filter (fun e => e.1 ≠ agentID) := by
  simp [AgentManager.store, List.filter_cons, List.filter_filter]

/-- Deleting a key twice is deleting it once. -/
theorem remove_remove (am : AgentManager) (agentID : String) :
    (am.remove agentID).remove agentID = am.remove agentID := by
  simp [AgentManager.remove, List.filter_filter]

/-- C22: for every registry, sockets, agent identifier, customer, connection
and time, `RegisterAgent` returns `nil`; afterwards the registry finds under
the identifier the entry with that customer, that connection, status
`connected` and `LastPing` the time of the call, and holds exactly one entry
under the identifier; the connection of an entry that was registered before is
closed; the other identifiers and their entries are as before. -/
theorem RegisterAgent_replaces_entry (am : AgentManager) (w : websocket.Sockets)
    (agentID customerID : String) (conn : websocket.Conn) (now : Time) :
    (RegisterAgent am w agentID customerID conn now).2.2 = none ∧
      (RegisterAgent am w agentID customerID conn now).1.lookup agentID =
        some { AgentID := agentID, CustomerID := customerID, Connection := conn,
               Status := "connected", LastPing := now } ∧
      ((RegisterAgent am w agentID customerID conn now).1.connections.filter
        (fun e => e.1 = agentID)).length = 1 ∧
      (∀ existing : AgentConnection, am.lookup agentID = some existing →
        existing.Connection ∈ (RegisterAgent am w agentID customerID conn now).2.1.closed) ∧
      (∀ other : String, other ≠ agentID →
        (RegisterAgent am w agentID customerID conn now).1.lookup other = am.lookup other) ∧
      (RegisterAgent am w agentID customerID conn now).1.connections.filter
          (fun e => e.1 ≠ agentID) =
        am.connections.filter (fun e => e.1 ≠ agentID) := by
  cases hl : am.lookup agentID with
  | none =>
    have heq : RegisterAgent am w agentID customerID conn now =
        (am.store agentID { AgentID := agentID, CustomerID := customerID, Connection := conn,
                            Status := "connected", LastPing := now }, w, none) := by
      simp only [RegisterAgent, hl]
    rw [heq]
    refine ⟨rfl, lookup_store_self _ _ _, store_one_entry _ _ _, ?_, ?_, store_others _ _ _⟩
    · intro existing hex
      exact absurd hex (by simp)
    · intro other hne
      exact lookup_store_ne _ _ _ _ hne
  | some existing =>
    have heq : RegisterAgent am w agentID customerID conn now =
        ((am.remove agentID).store agentID
          { AgentID := agentID, CustomerID := customerID, Connection := conn,
            Status := "connected", LastPing := now },
          (websocket.Close w existing.Connection).1, none) := by
      simp only [RegisterAgent, hl]
    rw [heq]
    refine ⟨rfl, lookup_store_self _ _ _, store_one_entry _ _ _, ?_, ?_, ?_⟩
    · intro e hex
      have he : existing = e := Option.some.inj hex
      rw [← he]
      exact websocket.Close_mem w existing.Connection
    · intro other hne
      rw [lookup_store_ne _ _ _ _ hne, lookup_remove_ne _ _ _ hne]
    · rw [store_others]
      simp [AgentManager.remove, List.filter_filter]

/-- C22 on a registry that holds `A1` on connection 1: registering `A1` again
on connection 2 at time 10. -/
theorem RegisterAgent_replaces_entry_witness :
    registeredOnce.lookup "A1" = some (entryOf 1 0) ∧
      (entryOf 1 0).Connection ∈
        (RegisterAgent registeredOnce noSockets "A1" "C1" 2 10).2.1.closed ∧
      (RegisterAgent registeredOnce noSockets "A1" "C1" 2 10).1.lookup "A1" =
        some { AgentID := "A1", CustomerID := "C1", Connection := 2, Status := "connected",
               LastPing := 10 } :=
  ⟨rfl,
    (RegisterAgent_replaces_entry registeredOnce noSockets "A1" "C1" 2 10).2.2.2.1
      (entryOf 1 0) rfl,
    (RegisterAgent_replaces_entry registeredOnce noSockets "A1" "C1" 2 10).2.1⟩

/-- C24: when the agent is registered for another customer than the caller,
`DeregisterAgent` returns the unauthorized error and leaves the registry and
the sockets as they were, so the connection of the agent is not closed; when
the agent is not registered it returns the not-found error and leaves both as
they were. -/
theorem DeregisterAgent_rejections (am : AgentManager) (w : websocket.Sockets)
    (agentID customerID : String) :
    (∀ agent : AgentConnection, am.lookup agentID = some agent →
        agent.CustomerID ≠ customerID →
        DeregisterAgent am w agentID customerID =
          (am, w, some "unauthorized deregistration attempt")) ∧
      (am.lookup agentID = none →
        DeregisterAgent am w agentID customerID = (am, w, some "agent not found")) := by
  constructor
  · intro agent hl hne
    simp only [DeregisterAgent, hl, hne, ne_eq, not_false_eq_true, if_true]
  · intro hl
    simp only [DeregisterAgent, hl]

/-- C24 on the registry that holds `A1` of customer `C1` on connection 1: a
call for customer `C2`, and a call for the unregistered `A9`. -/
theorem DeregisterAgent_rejections_witness :
    (registeredOnce.lookup "A1" = some (entryOf 1 0) ∧ (entryOf 1 0).CustomerID ≠ "C2" ∧
        DeregisterAgent registeredOnce noSockets "A1" "C2" =
          (registeredOnce, noSockets, some "unauthorized deregistration attempt")) ∧
      (registeredOnce.lookup "A9" = none ∧
        DeregisterAgent registeredOnce noSockets "A9" "C1" =
          (registeredOnce, noSockets, some "agent not found")) :=
  ⟨⟨rfl, by decide,
      (DeregisterAgent_rejections registeredOnce noSockets "A1" "C2").1 (entryOf 1 0) rfl
        (by decide)⟩,
    ⟨rfl, (DeregisterAgent_rejections registeredOnce noSockets "A9" "C1").2 rfl⟩⟩

end agent

namespace agent

/-- With a matching owner, `DeregisterAgent` deletes the entry exactly when the
close of its connection returns `nil`, that is when the connection was not
closed before. -/
theorem DeregisterAgent_owner (am : AgentManager) (w : websocket.Sockets)
    (agentID customerID : String) (agent : AgentConnection)
    (hreg : am.lookup agentID = some agent) (hown : agent.CustomerID = customerID) :
    DeregisterAgent am w agentID customerID =
      if agent.Connection ∈ w.closed then
        (am, w, some ("error closing connection: " ++ websocket.errClosed))
      else (am.remove agentID, { closed := agent.Connection :: w.closed }, none) := by
  by_cases hc : agent.Connection ∈ w.closed
  · simp only [DeregisterAgent, hreg, hown, ne_eq, not_true_eq_false, if_false,
      websocket.Close_closed w _ hc, hc, if_true]
  · simp only [DeregisterAgent, hreg, hown, ne_eq, not_true_eq_false, if_false,
      websocket.Close_open w _ hc, hc]

/-- `RecordAgentConnection` returns: it gives one value to a gauge declared
with one label, so `RegisterAgent` does not panic. -/
theorem RecordAgentConnection_returns (customerID : String) :
    metrics.RecordAgentConnection customerID = none := by
  simp [metrics.RecordAgentConnection, metrics.WithLabelValues]

/-- `RecordAgentDisconnection` panics: it gives one value to a counter declared
with two labels. -/
theorem RecordAgentDisconnection_panics (customerID : String) :
    metrics.RecordAgentDisconnection customerID = some metrics.errInconsistentCardinality := by
  simp [metrics.RecordAgentDisconnection, metrics.WithLabelValues]

/-- `RecordAgentHeartbeat` panics: it gives two values to a gauge declared with
one label. -/
theorem RecordAgentHeartbeat_panics (customerID agentID : String) :
    metrics.RecordAgentHeartbeat customerID agentID =
      some metrics.errInconsistentCardinality := by
  simp [metrics.RecordAgentHeartbeat, metrics.WithLabelValues]

/-- `handleAgentDisconnection` on a registered identifier panics in
`RecordAgentDisconnection`, before the close and the delete: the registry and
the sockets are as before. -/
theorem handleAgentDisconnection_panics (am : AgentManager) (w : websocket.Sockets)
    (agentID : String) (agent : AgentConnection) (hreg : am.lookup agentID = some agent) :
    handleAgentDisconnection am w agentID = (am, w, some metrics.errInconsistentCardinality) := by
  simp only [handleAgentDisconnection, hreg, RecordAgentDisconnection_panics]

/-- `handleDisconnection` runs `DeregisterAgent` and then panics in
`RecordAgentDisconnection`, before the close of the connection of the record. -/
theorem handleDisconnection_eq (am : AgentManager) (w : websocket.Sockets)
    (agent : models.AgentConnection) :
    handleDisconnection am w agent =
      ((DeregisterAgent am w agent.ID agent.CustomerID).1,
        (DeregisterAgent am w agent.ID agent.CustomerID).2.1,
        some metrics.errInconsistentCardinality) := by
  simp only [handleDisconnection, RecordAgentDisconnection_panics]

/-- `RegisterAgent` on an identifier that is registered. -/
theorem RegisterAgent_existing (am : AgentManager) (w : websocket.Sockets)
    (agentID customerID : String) (conn : websocket.Conn) (now : Time)
    (existing : AgentConnection) (h : am.lookup agentID = some existing) :
    RegisterAgent am w agentID customerID conn now =
      ((am.remove agentID).store agentID
        { AgentID := agentID, CustomerID := customerID, Connection := conn,
          Status := "connected", LastPing := now },
        (websocket.Close w existing.Connection).1, none) := by
  simp only [RegisterAgent, h]

/-- After `RegisterAgent` the new entry is found under the identifier. -/
theorem RegisterAgent_lookup (am : AgentManager) (w : websocket.Sockets)
    (agentID customerID : String) (conn : websocket.Conn) (now : Time) :
    (RegisterAgent am w agentID customerID conn now).1.lookup agentID =
      some { AgentID := agentID, CustomerID := customerID, Connection := conn,
             Status := "connected", LastPing := now } := by
  cases hl : am.lookup agentID with
  | none => simp only [RegisterAgent, hl]; exact lookup_store_self _ _ _
  | some existing => simp only [RegisterAgent, hl]; exact lookup_store_self _ _ _

/-- After two registrations of an identifier the registry holds the second
entry and the first connection is closed. -/
theorem registerTwice_state (am : AgentManager) (w : websocket.Sockets)
    (agentID customerID : String) (conn1 conn2 : websocket.Conn) (t1 t2 : Time) :
    (registerTwice am w agentID customerID conn1 conn2 t1 t2).1.lookup agentID =
        some { AgentID := agentID, CustomerID := customerID, Connection := conn2,
               Status := "connected", LastPing := t2 } ∧
      conn1 ∈ (registerTwice am w agentID customerID conn1 conn2 t1 t2).2.closed := by
  have h1 := RegisterAgent_lookup am w agentID customerID conn1 t1
  unfold registerTwice
  generalize RegisterAgent am w agentID customerID conn1 t1 = r at h1 ⊢
  rw [RegisterAgent_existing r.1 r.2.1 agentID customerID conn2 t2 _ h1]
  exact ⟨lookup_store_self _ _ _, websocket.Close_mem _ conn1⟩

/-- C23, what the code does: an agent identifier is registered on `conn1` and
then again, for the same customer, on `conn2`, which is open afterwards. The
`handleDisconnection` of the old reader calls `DeregisterAgent` with the
identifier and the customer, which finds the new entry: the new entry is
removed from the registry and `conn2` is closed, and then
`RecordAgentDisconnection` panics. The tick of the old monitor fails its health
check on the closed `conn1` and calls `handleAgentDisconnection`, which also
finds the new entry but panics in `RecordAgentDisconnection` before it closes
or deletes anything. -/
theorem replaced_connection_cleanup_evicts_new_entry (am : AgentManager)
    (w : websocket.Sockets) (agentID customerID : String) (conn1 conn2 : websocket.Conn)
    (t1 t2 now : Time)
    (hopen : conn2 ∉ (registerTwice am w agentID customerID conn1 conn2 t1 t2).2.closed) :
    (registerTwice am w agentID customerID conn1 conn2 t1 t2).1.lookup agentID =
        some { AgentID := agentID, CustomerID := customerID, Connection := conn2,
               Status := "connected", LastPing := t2 } ∧
      (handleDisconnection (registerTwice am w agentID customerID conn1 conn2 t1 t2).1
          (registerTwice am w agentID customerID conn1 conn2 t1 t2).2
          { ID := agentID, CustomerID := customerID, Conn := conn1, StartTime := t1,
            LastPing := t1 }).1.lookup agentID = none ∧
      conn2 ∈ (handleDisconnection (registerTwice am w agentID customerID conn1 conn2 t1 t2).1
          (registerTwice am w agentID customerID conn1 conn2 t1 t2).2
          { ID := agentID, CustomerID := customerID, Conn := conn1, StartTime := t1,
            LastPing := t1 }).2.1.closed ∧
      (handleDisconnection (registerTwice am w agentID customerID conn1 conn2 t1 t2).1
          (registerTwice am w agentID customerID conn1 conn2 t1 t2).2
          { ID := agentID, CustomerID := customerID, Conn := conn1, StartTime := t1,
            LastPing := t1 }).2.2 = some metrics.errInconsistentCardinality ∧
      monitorAgentTick (registerTwice am w agentID customerID conn1 conn2 t1 t2).1
          (registerTwice am w agentID customerID conn1 conn2 t1 t2).2
          { AgentID := agentID, CustomerID := customerID, Connection := conn1,
            Status := "connected", LastPing := t1 } now =
        ((registerTwice am w agentID customerID conn1 conn2 t1 t2).1,
          (registerTwice am w agentID customerID conn1 conn2 t1 t2).2, false,
          some metrics.errInconsistentCardinality) := by
  have hst := registerTwice_state am w agentID customerID conn1 conn2 t1 t2
  generalize registerTwice am w agentID customerID conn1 conn2 t1 t2 = rt at hst hopen ⊢
  have hder := DeregisterAgent_owner rt.1 rt.2 agentID customerID _ hst.1 rfl
  simp only [hopen, if_false] at hder
  have hev := handleAgentDisconnection_panics rt.1 rt.2 agentID _ hst.1
  have hhealth : ∃ err, checkAgentHealth rt.2
      { AgentID := agentID, CustomerID := customerID, Connection := conn1,
        Status := "connected", LastPing := t1 } now = some err := by
    simp only [checkAgentHealth, websocket.WriteControl, hst.2, if_true]
    split_ifs
    · exact ⟨_, rfl⟩
    · exact ⟨_, rfl⟩
  obtain ⟨err, herr⟩ := hhealth
  refine ⟨hst.1, ?_, ?_, ?_, ?_⟩
  · rw [handleDisconnection_eq]
    simp only [hder]
    exact lookup_remove_self rt.1 agentID
  · rw [handleDisconnection_eq]
    simp only [hder]
    simp
  · rw [handleDisconnection_eq]
  · simp only [monitorAgentTick, herr, hev]

/-- C23 at the failing input: `A1` of customer `C1` registers on connection 1
at time 0 and again on connection 2 at time 10. The old reader's
`handleDisconnection` leaves no entry for `A1` and connection 2 closed, and
panics; the old monitor's tick at time 30 panics with the registry and the
sockets as they were. -/
theorem replaced_connection_cleanup_evicts_new_entry_witness :
    registerTwice emptyManager noSockets "A1" "C1" 1 2 0 10 = (registeredTwice, firstClosed) ∧
      handleDisconnection registeredTwice firstClosed (recordOf 1 0) =
        (emptyManager, { closed := [2, 1] }, some metrics.errInconsistentCardinality) ∧
      ((registerTwice emptyManager noSockets "A1" "C1" 1 2 0 10).1.lookup "A1" =
        some { AgentID := "A1", CustomerID := "C1", Connection := 2, Status := "connected",
               LastPing := 10 } ∧
      (handleDisconnection (registerTwice emptyManager noSockets "A1" "C1" 1 2 0 10).1
          (registerTwice emptyManager noSockets "A1" "C1" 1 2 0 10).2
          { ID := "A1", CustomerID := "C1", Conn := 1, StartTime := 0,
            LastPing := 0 }).1.lookup "A1" = none ∧
      2 ∈ (handleDisconnection (registerTwice emptyManager noSockets "A1" "C1" 1 2 0 10).1
          (registerTwice emptyManager noSockets "A1" "C1" 1 2 0 10).2
          { ID := "A1", CustomerID := "C1", Conn := 1, StartTime := 0,
            LastPing := 0 }).2.1.closed ∧
      (handleDisconnection (registerTwice emptyManager noSockets "A1" "C1" 1 2 0 10).1
          (registerTwice emptyManager noSockets "A1" "C1" 1 2 0 10).2
          { ID := "A1", CustomerID := "C1", Conn := 1, StartTime := 0,
            LastPing := 0 }).2.2 = some metrics.errInconsistentCardinality ∧
      monitorAgentTick (registerTwice emptyManager noSockets "A1" "C1" 1 2 0 10).1
          (registerTwice emptyManager noSockets "A1" "C1" 1 2 0 10).2
          { AgentID := "A1", CustomerID := "C1", Connection := 1,
            Status := "connected", LastPing := 0 } 30 =
        ((registerTwice emptyManager noSockets "A1" "C1" 1 2 0 10).1,
          (registerTwice emptyManager noSockets "A1" "C1" 1 2 0 10).2, false,
          some metrics.errInconsistentCardinality)) := by
  have hrt : registerTwice emptyManager noSockets "A1" "C1" 1 2 0 10 =
      (registeredTwice, firstClosed) := by decide
  exact ⟨hrt, by decide,
    replaced_connection_cleanup_evicts_new_entry emptyManager noSockets "A1" "C1" 1 2 0 10 30
      (by rw [hrt]; decide)⟩

end agent

namespace agent

/-- C25, what the code does: for a registered agent and a caller who owns it,
`DeregisterAgent` removes the entry and returns `nil` when the connection was
open; when the connection was already closed, the second close returns an
error, `DeregisterAgent` returns it wrapped and the registry still holds the
entry. -/
theorem DeregisterAgent_closed_connection_keeps_entry (am : AgentManager)
    (w : websocket.Sockets) (agentID customerID : String) (agent : AgentConnection)
    (hreg : am.lookup agentID = some agent) (hown : agent.CustomerID = customerID) :
    (agent.Connection ∉ w.closed →
        (DeregisterAgent am w agentID customerID).2.2 = none ∧
          (DeregisterAgent am w agentID customerID).1.lookup agentID = none) ∧
      (agent.Connection ∈ w.closed →
        DeregisterAgent am w agentID customerID =
            (am, w, some ("error closing connection: " ++ websocket.errClosed)) ∧
          (DeregisterAgent am w agentID customerID).1.lookup agentID = some agent) := by
  have h := DeregisterAgent_owner am w agentID customerID agent hreg hown
  constructor
  · intro hc
    rw [h, if_neg hc]
    exact ⟨rfl, lookup_remove_self am agentID⟩
  · intro hc
    rw [h, if_pos hc]
    exact ⟨rfl, hreg⟩

/-- C25 at the failing input: `A1` of customer `C1` is registered on
connection 1 at time 0 and sends no heartbeat; the tick of `monitorHeartbeat`
at 120 s closes connection 1; the reader's `DeregisterAgent("A1", "C1")` then
returns the close error and `A1` is still registered; `handleDisconnection`
drops that error and panics in `RecordAgentDisconnection`. -/
theorem DeregisterAgent_closed_connection_keeps_entry_witness :
    monitorHeartbeatTick noSockets (recordOf 1 0) 120 = (firstClosed, false) ∧
      registeredOnce.lookup "A1" = some (entryOf 1 0) ∧
      (entryOf 1 0).Connection ∈ firstClosed.closed ∧
      DeregisterAgent registeredOnce firstClosed "A1" "C1" =
        (registeredOnce, firstClosed,
          some ("error closing connection: " ++ websocket.errClosed)) ∧
      (DeregisterAgent registeredOnce firstClosed "A1" "C1").1.lookup "A1" =
        some (entryOf 1 0) ∧
      handleDisconnection registeredOnce firstClosed (recordOf 1 0) =
        (registeredOnce, firstClosed, some metrics.errInconsistentCardinality) := by
  have hmon : monitorHeartbeatTick noSockets (recordOf 1 0) 120 = (firstClosed, false) := by
    simp only [monitorHeartbeatTick, recordOf, HeartbeatInterval]
    norm_num
    decide
  have hder := (DeregisterAgent_closed_connection_keeps_entry registeredOnce firstClosed
    "A1" "C1" (entryOf 1 0) rfl rfl).2 (by decide)
  refine ⟨hmon, rfl, by decide, hder.1, hder.2, ?_⟩
  rw [handleDisconnection_eq]
  simp only [recordOf, hder.1]

/-- An entry registered more than 2 minutes ago fails the health check,
whatever the reader has handled since: the check reads the `LastPing` of the
registry entry, which is the time of registration. -/
theorem checkAgentHealth_timeout (w : websocket.Sockets) (agent : AgentConnection) (now : Time)
    (h : now - agent.LastPing > 2 * 60) : checkAgentHealth w agent now = some "agent timeout" := by
  simp only [checkAgentHealth, h, if_true]

/-- For every registry, record and time, `handleHeartbeat` sets `LastPing` of
the record of the handler and panics in `RecordAgentHeartbeat`; no
`config_update` is pushed. -/
theorem handleHeartbeat_panics (am : AgentManager) (agent : models.AgentConnection)
    (now : Time) :
    handleHeartbeat am agent now =
      ({ agent with LastPing := now }, false, some metrics.errInconsistentCardinality) := by
  simp only [handleHeartbeat, RecordAgentHeartbeat_panics]

/-- C26 at the failing input: `A1` of customer `C1` registers at time 0 on
connection 1 and sends a heartbeat frame at 30 s. `handleHeartbeat` sets
`LastPing = 30` in the record of the handler and panics in
`RecordAgentHeartbeat`; the entry of the registry is the one that
`RegisterAgent` made, with `LastPing = 0`, and no other code writes it. The
health check and the reaper read that entry: on the registry as registration
left it, the health check answers `nil` at 120 s and `agent timeout` at 150 s,
after which the tick of `monitorAgent` panics in `RecordAgentDisconnection`,
and the tick of the reaper at 360 s closes the connection, deletes the entry
and panics. -/
theorem heartbeats_do_not_reach_registry :
    RegisterAgent emptyManager noSockets "A1" "C1" 1 0 = (registeredOnce, noSockets, none) ∧
      handleHeartbeat registeredOnce (recordOf 1 0) 30 =
        ({ recordOf 1 0 with LastPing := 30 }, false,
          some metrics.errInconsistentCardinality) ∧
      registeredOnce.lookup "A1" = some (entryOf 1 0) ∧
      (entryOf 1 0).LastPing = 0 ∧
      checkAgentHealth noSockets (entryOf 1 0) 120 = none ∧
      checkAgentHealth noSockets (entryOf 1 0) 150 = some "agent timeout" ∧
      monitorAgentTick registeredOnce noSockets (entryOf 1 0) 150 =
        (registeredOnce, noSockets, false, some metrics.errInconsistentCardinality) ∧
      cleanupInactiveAgentsTick registeredOnce noSockets 360 =
        (emptyManager, firstClosed, some metrics.errInconsistentCardinality) := by
  have htimeout : checkAgentHealth noSockets (entryOf 1 0) 150 = some "agent timeout" :=
    checkAgentHealth_timeout noSockets (entryOf 1 0) 150 (by norm_num [entryOf])
  have hev := handleAgentDisconnection_panics registeredOnce noSockets "A1" (entryOf 1 0) rfl
  refine ⟨by decide, handleHeartbeat_panics _ _ _, rfl, rfl, ?_, htimeout, ?_, ?_⟩
  · simp only [checkAgentHealth, entryOf, websocket.WriteControl, noSockets]
    norm_num
  · have hid : (entryOf 1 0).AgentID = "A1" := rfl
    simp only [monitorAgentTick, htimeout, hid, hev]
  · have hstale : (360 : ℚ) - (entryOf 1 0).LastPing > 5 * 60 := by norm_num [entryOf]
    simp only [cleanupInactiveAgentsTick, registeredOnce, cleanupLoop, hstale, if_true,
      RecordAgentDisconnection_panics]
    decide

end agent

/-! ## Properties of request forwarding -/

namespace agent

/-- C29, what the code does: an agent is registered on an open connection; a
`WSMessage` envelope of any type (a `heartbeat`, a `metrics_update`) is the
next inbound frame and the answer `r` of the agent comes after it. Then
`RouteRequest` writes the request and returns the decoding of the envelope,
the zero `ProxyResponse`, as the result of the call; the answer `r` stays in
the queue, and the next call on the connection returns it as the answer to
another request. -/
theorem RouteRequest_reads_next_frame (am : AgentManager) (w : websocket.Sockets) (wire : Wire)
    (agentID : String) (request next : ProxyRequest) (agent : AgentConnection) (type : String)
    (r : ProxyResponse) (rest : List Frame) (hreg : am.lookup agentID = some agent)
    (hopen : agent.Connection ∉ w.closed)
    (hq : wire.inbound = Frame.message type :: Frame.response r :: rest) :
    RouteRequest am w wire agentID request =
        ({ inbound := Frame.response r :: rest, outbound := wire.outbound ++ [request] },
          Except.ok { StatusCode := 0, Headers := [], Body := "" }) ∧
      RouteRequest am w (RouteRequest am w wire agentID request).1 agentID next =
        ({ inbound := rest, outbound := wire.outbound ++ [request] ++ [next] },
          Except.ok r) := by
  have hfirst : RouteRequest am w wire agentID request =
      ({ inbound := Frame.response r :: rest, outbound := wire.outbound ++ [request] },
        Except.ok { StatusCode := 0, Headers := [], Body := "" }) := by
    simp only [RouteRequest, hreg, sendRequest, hopen, if_false, hq, decodeProxyResponse]
  refine ⟨hfirst, ?_⟩
  rw [hfirst]
  simp only [RouteRequest, hreg, sendRequest, hopen, if_false, decodeProxyResponse]

/-- C29 at the failing input: `A1` is registered on connection 1; a heartbeat
arrives before the answer `sampleResponse` (status 200, body `hello`). The call
returns status 0 with no header and no body, and the answer is left in the
queue for the next call. -/
theorem RouteRequest_reads_next_frame_witness :
    registeredOnce.lookup "A1" = some (entryOf 1 0) ∧
      (entryOf 1 0).Connection ∉ noSockets.closed ∧
      sampleResponse ≠ { StatusCode := 0, Headers := [], Body := "" } ∧
      (RouteRequest registeredOnce noSockets
          { inbound := [Frame.message "heartbeat", Frame.response sampleResponse],
            outbound := [] } "A1" sampleProxyRequest =
        ({ inbound := [Frame.response sampleResponse], outbound := [] ++ [sampleProxyRequest] },
          Except.ok { StatusCode := 0, Headers := [], Body := "" }) ∧
      RouteRequest registeredOnce noSockets
          (RouteRequest registeredOnce noSockets
            { inbound := [Frame.message "heartbeat", Frame.response sampleResponse],
              outbound := [] } "A1" sampleProxyRequest).1 "A1" sampleProxyRequest =
        ({ inbound := [], outbound := [] ++ [sampleProxyRequest] ++ [sampleProxyRequest] },
          Except.ok sampleResponse)) :=
  ⟨rfl, by decide, by decide,
    RouteRequest_reads_next_frame registeredOnce noSockets
      { inbound := [Frame.message "heartbeat", Frame.response sampleResponse], outbound := [] }
      "A1" sampleProxyRequest sampleProxyRequest (entryOf 1 0) "heartbeat" sampleResponse []
      rfl (by decide) rfl⟩

end agent

namespace service

/-- C27, what the code does: when `ForwardRequest` succeeds, the response it
returns has the status code and the headers of the frame that was read as the
answer of the agent, and an empty body, whatever the body of the answer. -/
theorem ForwardRequest_drops_body (s : ProxyService)
    (unmarshal : String → Option models.ProxyConfig) (c : cache.RedisCache)
    (am : agent.AgentManager) (w : websocket.Sockets) (wire wire1 : agent.Wire)
    (req : HttpRequest) (customerID : String) (now : Time) (resp : HttpResponse)
    (hok : ForwardRequest s unmarshal c am w wire req customerID now = (wire1, Except.ok resp)) :
    ∃ (frame : agent.Frame) (rest : List agent.Frame), wire.inbound = frame :: rest ∧
      resp.StatusCode = (agent.decodeProxyResponse frame).StatusCode ∧
      resp.Header = (agent.decodeProxyResponse frame).Headers ∧
      resp.Body = "" := by
  unfold ForwardRequest at hok
  cases hcfg : getProxyConfig unmarshal c customerID now with
  | error err => simp [hcfg] at hok
  | ok config =>
    cases hag : getAgentForCustomer s customerID with
    | error err => simp [hcfg, hag] at hok
    | ok agentID =>
      simp only [hcfg, hag] at hok
      unfold agent.RouteRequest at hok
      cases hl : am.lookup agentID with
      | none => simp [hl] at hok
      | some ac =>
        simp only [hl] at hok
        unfold agent.sendRequest at hok
        by_cases hc : ac.Connection ∈ w.closed
        · simp [hc] at hok
        · cases hq : wire.inbound with
          | nil => simp [hc, hq] at hok
          | cons frame rest =>
            simp only [hc, if_false, hq, Prod.mk.injEq, Except.ok.injEq] at hok
            refine ⟨frame, rest, rfl, ?_⟩
            rw [← hok.2]
            exact ⟨rfl, rfl, rfl⟩

/-- C27 at the failing input: customer `C1` has its configuration cached and is
routed to the registered agent `A1`, which answers `GET /api/users` with status
200, a `Content-Type` header and the body `hello`. `ForwardRequest` succeeds
with status 200 and the header, and with an empty body. -/
theorem ForwardRequest_drops_body_witness :
    ForwardRequest sampleProxy sampleUnmarshal configCache agent.registeredOnce agent.noSockets
        { inbound := [agent.Frame.response agent.sampleResponse], outbound := [] }
        sampleHttpRequest "C1" 0 =
      ({ inbound := [], outbound := [agent.sampleProxyRequest] },
        Except.ok { StatusCode := 200, Header := [("Content-Type", ["text/plain"])],
                    Body := "" }) ∧
      agent.sampleResponse.Body = "hello" ∧
      ∃ (frame : agent.Frame) (rest : List agent.Frame),
        (({ inbound := [agent.Frame.response agent.sampleResponse], outbound := [] } :
            agent.Wire).inbound = frame :: rest) ∧
        ({ StatusCode := 200, Header := [("Content-Type", ["text/plain"])], Body := "" } :
            HttpResponse).StatusCode = (agent.decodeProxyResponse frame).StatusCode ∧
        ({ StatusCode := 200, Header := [("Content-Type", ["text/plain"])], Body := "" } :
            HttpResponse).Header = (agent.decodeProxyResponse frame).Headers ∧
        ({ StatusCode := 200, Header := [("Content-Type", ["text/plain"])], Body := "" } :
            HttpResponse).Body = "" :=
  have hrun : ForwardRequest sampleProxy sampleUnmarshal configCache agent.registeredOnce
      agent.noSockets { inbound := [agent.Frame.response agent.sampleResponse], outbound := [] }
      sampleHttpRequest "C1" 0 =
      ({ inbound := [], outbound := [agent.sampleProxyRequest] },
        Except.ok { StatusCode := 200, Header := [("Content-Type", ["text/plain"])],
                    Body := "" }) := by rfl
  ⟨hrun, rfl,
    ForwardRequest_drops_body sampleProxy sampleUnmarshal configCache agent.registeredOnce
      agent.noSockets { inbound := [agent.Frame.response agent.sampleResponse], outbound := [] }
      { inbound := [], outbound := [agent.sampleProxyRequest] } sampleHttpRequest "C1" 0
      { StatusCode := 200, Header := [("Content-Type", ["text/plain"])], Body := "" } hrun⟩

end service

namespace handler

/-- C28, what the code does: when the read of the proxy configuration from the
cache fails (a miss, an expired key, a value that does not decode),
`ForwardRequest` fails with `failed to get proxy config` and `HandleRequest`
answers 500, whatever the routing table, the registry and the context of the
request hold; nothing is written to the agent. -/
theorem cache_miss_fails_forwarding (s : service.ProxyService)
    (unmarshal : String → Option models.ProxyConfig) (c : cache.RedisCache)
    (am : agent.AgentManager) (w : websocket.Sockets) (wire : agent.Wire)
    (req : service.HttpRequest) (customerID : String) (ctxCustomerID : Option String)
    (tHandler tForward : Time)
    (hmissF : cache.GetProxyConfig unmarshal c customerID tForward = none)
    (hmissH : cache.GetProxyConfig unmarshal c customerID tHandler = none) :
    service.ForwardRequest s unmarshal c am w wire req customerID tForward =
        (wire, Except.error "failed to get proxy config: proxy configuration not found") ∧
      HandleRequest s unmarshal c am w wire req customerID ctxCustomerID tHandler tForward =
        (wire, Ending.replied
          { Status := 500, Header := [],
            Body := "\x7b\"error\":\"failed to get proxy configuration\"\x7d" }) := by
  constructor
  · simp only [service.ForwardRequest, service.getProxyConfig, hmissF]
    rfl
  · simp only [HandleRequest, hmissH]
    rfl

/-- C28 at the failing input: customer `C1` is routed to agent `A1`, which is
registered on the open connection 1 and has its answer ready; the cache holds
no proxy configuration. The request fails with status 500 and nothing is
written to the agent. With the configuration in the cache, the handler reaches
`ForwardRequest`: as the server is wired the context of the request holds no
`customer_id` and the call panics; with the value in the context the request
is forwarded. -/
theorem cache_miss_fails_forwarding_witness :
    service.getAgentForCustomer service.sampleProxy "C1" = Except.ok "A1" ∧
      agent.registeredOnce.lookup "A1" = some (agent.entryOf 1 0) ∧
      cache.GetProxyConfig service.sampleUnmarshal service.emptyCache "C1" 0 = none ∧
      (service.ForwardRequest service.sampleProxy service.sampleUnmarshal service.emptyCache
          agent.registeredOnce agent.noSockets
          { inbound := [agent.Frame.response agent.sampleResponse], outbound := [] }
          service.sampleHttpRequest "C1" 0 =
        ({ inbound := [agent.Frame.response agent.sampleResponse], outbound := [] },
          Except.error "failed to get proxy config: proxy configuration not found") ∧
      HandleRequest service.sampleProxy service.sampleUnmarshal service.emptyCache
          agent.registeredOnce agent.noSockets
          { inbound := [agent.Frame.response agent.sampleResponse], outbound := [] }
          service.sampleHttpRequest "C1" none 0 0 =
        ({ inbound := [agent.Frame.response agent.sampleResponse], outbound := [] },
          Ending.replied
            { Status := 500, Header := [],
              Body := "\x7b\"error\":\"failed to get proxy configuration\"\x7d" })) ∧
      HandleRequest service.sampleProxy service.sampleUnmarshal service.configCache
          agent.registeredOnce agent.noSockets
          { inbound := [agent.Frame.response agent.sampleResponse], outbound := [] }
          service.sampleHttpRequest "C1" none 0 0 =
        ({ inbound := [agent.Frame.response agent.sampleResponse], outbound := [] },
          Ending.panicked errNilAssertion) ∧
      HandleRequest service.sampleProxy service.sampleUnmarshal service.configCache
          agent.registeredOnce agent.noSockets
          { inbound := [agent.Frame.response agent.sampleResponse], outbound := [] }
          service.sampleHttpRequest "C1" (some "C1") 0 0 =
        ({ inbound := [], outbound := [agent.sampleProxyRequest] },
          Ending.replied
            { Status := 200, Header := [("Content-Type", "text/plain")], Body := "" }) :=
  ⟨rfl, rfl, rfl,
    cache_miss_fails_forwarding service.sampleProxy service.sampleUnmarshal service.emptyCache
      agent.registeredOnce agent.noSockets
      { inbound := [agent.Frame.response agent.sampleResponse], outbound := [] }
      service.sampleHttpRequest "C1" none 0 0 rfl rfl,
    by decide, by decide⟩

end handler

/-! ## The circuit breaker under overlapping calls -/

namespace circuitbreaker

/-- C4 refuted for overlapping calls, on a breaker of threshold 2 and cool-down
30. Call A arrives at 0 s and is slow; call B arrives at 1 s and fails at 2 s;
call C arrives at 3 s and fails at 4 s, which opens the breaker; A succeeds at
5 s, which resets the failure count and leaves the state open. At 35 s the
cool-down has elapsed: the trial call runs and fails at 36 s, the count is 1,
below the threshold, and the state stays half-open, not open. The call at
37 s, within the timeout of that failure, runs its function. -/
theorem overlap_trial_failure_stays_half_open :
    run { cb := NewCircuitBreaker 2 30, inFlight := 0 }
        [Event.arrive 0, Event.arrive 1, Event.finish (some "upstream failed") 2,
          Event.arrive 3, Event.finish (some "upstream failed") 4, Event.finish none 5] =
      { cb := openAfterOverlap, inFlight := 0 } ∧
      GetState openAfterOverlap = StateOpen ∧
      (35 : ℚ) - openAfterOverlap.lastFailure > openAfterOverlap.timeout ∧
      (Execute openAfterOverlap 35 36 failingCall.cmd 0).world = 1 ∧
      (Execute openAfterOverlap 35 36 failingCall.cmd 0).err = some "upstream failed" ∧
      GetState (Execute openAfterOverlap 35 36 failingCall.cmd 0).cb = StateHalfOpen ∧
      (Execute openAfterOverlap 35 36 failingCall.cmd 0).cb.failures = 1 ∧
      (Execute openAfterOverlap 35 36 failingCall.cmd 0).cb.lastFailure = 36 ∧
      (37 : ℚ) - 36 ≤ openAfterOverlap.timeout ∧
      (Execute (Execute openAfterOverlap 35 36 failingCall.cmd 0).cb 37 38
        failingCall.cmd 1).world = 2 ∧
      (Execute (Execute openAfterOverlap 35 36 failingCall.cmd 0).cb 37 38
        failingCall.cmd 1).err = some "upstream failed" := by
  have h : (35 : ℚ) - 4 > 30 := by norm_num
  have hrun : run { cb := NewCircuitBreaker 2 30, inFlight := 0 }
      [Event.arrive 0, Event.arrive 1, Event.finish (some "upstream failed") 2,
        Event.arrive 3, Event.finish (some "upstream failed") 4, Event.finish none 5] =
      { cb := openAfterOverlap, inFlight := 0 } := by
    simp [run, step, admission, settle, NewCircuitBreaker, openAfterOverlap]
  have htrial : Execute openAfterOverlap 35 36 failingCall.cmd 0 =
      { cb := { failures := 1, lastFailure := 36, state := "half-open", maxFailures := 2,
                timeout := 30 },
        world := 1, err := some "upstream failed" } := by
    simp [Execute, admission, settle, openAfterOverlap, failingCall, h]
  refine ⟨hrun, rfl, by norm_num [openAfterOverlap], ?_, ?_, ?_, ?_, ?_,
    by norm_num [openAfterOverlap], ?_, ?_⟩
  · rw [htrial]
  · rw [htrial]
  · rw [htrial]; rfl
  · rw [htrial]
  · rw [htrial]
  · rw [htrial]; simp [Execute, admission, settle, failingCall]
  · rw [htrial]; simp [Execute, admission, settle, failingCall]

end circuitbreaker

/-! ## The token bucket in `float64` -/

namespace float64

end float64

namespace validator

namespace binary64

open float64

end binary64

end validator

end ProxyService
